import Mathlib

/-!
Verification of fitnis/kafka, a request/response bridge over broker topics.

A shallow embedding of the gateway client (`api-gateway/proxy`), the worker
runtime (`shared/kafka`) and the per-service dispatchers
(`patient-service`, `examination-service`, `sample-service`), followed by the
theorems that settle the specification's claims against that code.

Go strings are byte sequences: a `GoString` is the list of its bytes, each a
natural number below 256.  A string literal of the source is written
`str "..."`.  The library functions the code calls (`strings`, `strconv`,
`unicode/utf8`, `encoding/json`, `encoding/base64`, `net/url`, `net/http`) are
modelled next to the code that calls them; a call that can fault at run time
yields `none`.
-/

namespace Fitnis

/-! ## Go strings and the `strings` / `strconv` functions the code calls -/

/-- A Go string: the list of its bytes. -/
abbrev GoString := List Nat

/-- The bytes of an ASCII literal of the source. -/
def str (s : String) : GoString := s.data.map Char.toNat

/-- Every element is a byte. -/
def IsBytes (s : List Nat) : Prop := ∀ b ∈ s, b < 256

/-- Go `strings.HasPrefix(s, prefix)`. -/
def HasPrefix (s pre : GoString) : Bool := pre.isPrefixOf s

/-- Go `strings.Index(s, sep)`: the byte offset of the first occurrence of
`sep` in `s`; `none` stands for the result `-1`. -/
def Index : GoString → GoString → Option Nat
  | [], sep => if HasPrefix [] sep then some 0 else none
  | c :: t, sep =>
    if HasPrefix (c :: t) sep then some 0 else (Index t sep).map (· + 1)

/-- Go `strings.Contains(s, substr)`, which is `Index(s, substr) >= 0`. -/
def Contains (s sub : GoString) : Bool := (Index s sub).isSome

/-- The loop of Go `strings.genSplit` for a non-empty separator: cut at the
first occurrence of `sep`, continue behind it; `fuel` bounds the number of
cuts (Go clamps the piece count to `len(s)+1`). -/
def splitLoop (sep : GoString) : Nat → GoString → List GoString
  | 0, s => [s]
  | fuel + 1, s =>
    match Index s sep with
    | none => [s]
    | some m => s.take m :: splitLoop sep fuel (s.drop (m + sep.length))

/-- Go `strings.Split(s, sep)` for a non-empty `sep` (every call site of the
repository passes a non-empty literal). -/
def Split (s sep : GoString) : List GoString := splitLoop sep s.length s

/-- Go `strings.Cut(s, sep)`: the text before and after the first `sep`;
without a `sep` the whole of `s` and the empty string. -/
def Cut (s sep : GoString) : GoString × GoString :=
  match Index s sep with
  | some i => (s.take i, s.drop (i + sep.length))
  | none => (s, [])

/-- The two ways `strconv.ParseUint` fails: `ErrSyntax` (here `invalid`) and
`ErrRange`. -/
inductive NumError where
  | invalid
  | range
  deriving DecidableEq, Repr

deriving instance DecidableEq for Except

/-- Go `lower(c)` of strconv: `c | ('x' - 'X')`. -/
def lowerByte (c : Nat) : Nat := c ||| 32

/-- The digit loop of Go `strconv.ParseUint(s, base, bitSize)` for
`2 ≤ base ≤ 36`, `n` being the value read so far.  The accumulator is a
`uint64`, hence the reductions modulo `2^64`. -/
def parseUintLoop (base bitSize : Nat) : Nat → GoString → Except NumError Nat
  | n, [] => .ok n
  | n, c :: cs =>
    let cutoff := (2 ^ 64 - 1) / base + 1
    let maxVal := 2 ^ bitSize - 1
    let digit : Option Nat :=
      if 48 ≤ c ∧ c ≤ 57 then some (c - 48)
      else if 97 ≤ lowerByte c ∧ lowerByte c ≤ 122 then some (lowerByte c - 97 + 10)
      else none
    match digit with
    | none => .error .invalid
    | some d =>
      if d ≥ base then .error .invalid
      else if n ≥ cutoff then .error .range
      else
        let n0 := n * base % 2 ^ 64
        let n1 := (n0 + d) % 2 ^ 64
        if n1 < n0 ∨ n1 > maxVal then .error .range
        else parseUintLoop base bitSize n1 cs

/-- Go `strconv.ParseUint(s, base, bitSize)` for an explicit base
(`2 ≤ base ≤ 36`) and `1 ≤ bitSize ≤ 64`: the empty string is an
`ErrSyntax`. -/
def ParseUint (s : GoString) (base bitSize : Nat) : Except NumError Nat :=
  if s = [] then .error .invalid else parseUintLoop base bitSize 0 s

/-- The decimal digits of `n`, most significant first, in front of `acc`
(the loop of Go `strconv.FormatUint`). -/
def decimalLoop : Nat → Nat → GoString → GoString
  | 0, _, acc => acc
  | fuel + 1, n, acc =>
    if n < 10 then (48 + n) :: acc
    else decimalLoop fuel (n / 10) ((48 + n % 10) :: acc)

/-- The number `n` written in decimal (`strconv.FormatUint(n, 10)`). -/
def decimal (n : Nat) : GoString := decimalLoop (n + 1) n []

/-! ## UTF-8 and JSON string literals (`unicode/utf8`, `encoding/json`) -/

/-- Go `utf8.RuneError`, U+FFFD. -/
def RuneError : Nat := 0xFFFD

/-- The entry of Go's `utf8.first` table with its accept range, for a lead
byte of a multi-byte sequence: `(size, lo, hi)`, the length of the sequence
and the bounds of its second byte; `none` for ASCII and invalid lead bytes. -/
def leadInfo (s0 : Nat) : Option (Nat × Nat × Nat) :=
  if s0 < 0xC2 then none
  else if s0 < 0xE0 then some (2, 0x80, 0xBF)
  else if s0 = 0xE0 then some (3, 0xA0, 0xBF)
  else if s0 < 0xED then some (3, 0x80, 0xBF)
  else if s0 = 0xED then some (3, 0x80, 0x9F)
  else if s0 < 0xF0 then some (3, 0x80, 0xBF)
  else if s0 = 0xF0 then some (4, 0x90, 0xBF)
  else if s0 < 0xF4 then some (4, 0x80, 0xBF)
  else if s0 = 0xF4 then some (4, 0x80, 0x8F)
  else none

/-- Go `utf8.DecodeRuneInString(s)`: the first rune of `s` and its width in
bytes; `(RuneError, 1)` for an invalid encoding, `(RuneError, 0)` for the
empty string.  Masks and shifts are written as `%` and `*`. -/
def DecodeRune : List Nat → Nat × Nat
  | [] => (RuneError, 0)
  | s0 :: t =>
    if s0 < 0x80 then (s0, 1)
    else
      match leadInfo s0 with
      | none => (RuneError, 1)
      | some (sz, lo, hi) =>
        if t.length + 1 < sz then (RuneError, 1)
        else
          match t with
          | [] => (RuneError, 1)
          | s1 :: t1 =>
            if s1 < lo ∨ hi < s1 then (RuneError, 1)
            else if sz ≤ 2 then (s0 % 32 * 64 + s1 % 64, 2)
            else
              match t1 with
              | [] => (RuneError, 1)
              | s2 :: t2 =>
                if s2 < 0x80 ∨ 0xBF < s2 then (RuneError, 1)
                else if sz ≤ 3 then (s0 % 16 * 4096 + s1 % 64 * 64 + s2 % 64, 3)
                else
                  match t2 with
                  | [] => (RuneError, 1)
                  | s3 :: _ =>
                    if s3 < 0x80 ∨ 0xBF < s3 then (RuneError, 1)
                    else (s0 % 8 * 262144 + s1 % 64 * 4096 + s2 % 64 * 64 + s3 % 64, 4)

/-- Go `utf8.EncodeRune` / `utf8.AppendRune`: the UTF-8 bytes of a rune;
surrogates and values above U+10FFFF are written as U+FFFD. -/
def EncodeRune (r : Nat) : List Nat :=
  if r < 0x80 then [r]
  else if r < 0x800 then [0xC0 + r / 64, 0x80 + r % 64]
  else if r > 0x10FFFF ∨ (0xD800 ≤ r ∧ r ≤ 0xDFFF) then [0xEF, 0xBF, 0xBD]
  else if r < 0x10000 then [0xE0 + r / 4096, 0x80 + r / 64 % 64, 0x80 + r % 64]
  else [0xF0 + r / 262144, 0x80 + r / 4096 % 64, 0x80 + r / 64 % 64, 0x80 + r % 64]

/-- The lower-case hexadecimal digit of a nibble (`"0123456789abcdef"[x]`). -/
def hexDigit (x : Nat) : Nat := if x < 10 then 48 + x else 87 + x

/-- Go `htmlSafeSet[b]` of encoding/json: the ASCII bytes written unescaped
into a JSON string when HTML escaping is on, as `json.Marshal` has it. -/
def htmlSafe (b : Nat) : Bool :=
  decide (0x20 ≤ b) && decide (b < 0x80) &&
    !(b == 34 || b == 92 || b == 60 || b == 62 || b == 38)

/-- The body of Go `appendString(dst, src, true)` of encoding/json, between
the two quotes: escapes for the unsafe ASCII bytes, the escape of U+FFFD for
each invalid byte, U+2028 and U+2029 escaped, everything else copied.  The
short escapes for backspace and form feed are those of the current releases
(older ones write the six character form, which reads back the same). -/
def quoteLoop : Nat → GoString → GoString
  | 0, _ => []
  | _ + 1, [] => []
  | fuel + 1, b :: t =>
    if b < 0x80 then
      if htmlSafe b then b :: quoteLoop fuel t
      else if b = 92 ∨ b = 34 then [92, b] ++ quoteLoop fuel t
      else if b = 8 then str "\\b" ++ quoteLoop fuel t
      else if b = 12 then str "\\f" ++ quoteLoop fuel t
      else if b = 10 then str "\\n" ++ quoteLoop fuel t
      else if b = 13 then str "\\r" ++ quoteLoop fuel t
      else if b = 9 then str "\\t" ++ quoteLoop fuel t
      else str "\\u00" ++ [hexDigit (b / 16), hexDigit (b % 16)] ++ quoteLoop fuel t
    else
      let (c, size) := DecodeRune ((b :: t).take 4)
      if c = RuneError ∧ size = 1 then str "\\ufffd" ++ quoteLoop fuel t
      else if c = 0x2028 ∨ c = 0x2029 then
        str "\\u202" ++ [hexDigit (c % 16)] ++ quoteLoop fuel ((b :: t).drop size)
      else (b :: t).take size ++ quoteLoop fuel ((b :: t).drop size)

/-- A Go string as `json.Marshal` writes it: a quoted JSON string literal. -/
def jsonQuote (s : GoString) : GoString := [34] ++ quoteLoop s.length s ++ [34]

/-! ## The envelope (`shared/kafka/handler.go`, `api-gateway/proxy/kafka.go`) -/

/-- A Go `map[string]string`: `none` is the nil map, `some kvs` a map with
the entries `kvs`.  Go leaves the iteration order of a map open; the canonical
form of a map lists its entries by ascending key (see `MapWF`), which is the
order `json.Marshal` writes and `setEntry` keeps. -/
abbrev GoMap := Option (List (GoString × GoString))

/-- The number of entries, Go `len(m)`. -/
def GoMap.len : GoMap → Nat
  | none => 0
  | some kvs => kvs.length

/-- The entries a `range` loop visits. -/
def GoMap.entries : GoMap → List (GoString × GoString)
  | none => []
  | some kvs => kvs

/-- A Go `[]byte`: `none` is the nil slice. -/
abbrev GoBytes := Option (List Nat)

/-- Struct `KafkaRequest`, declared with the same fields and JSON tags in the
gateway and in the worker runtime. -/
structure KafkaRequest where
  RequestID : GoString
  Method : GoString
  Path : GoString
  Headers : GoMap
  Body : GoBytes
  ServicePath : GoString
  deriving DecidableEq, Repr

/-- Struct `KafkaResponse`, likewise declared on both sides. -/
structure KafkaResponse where
  RequestID : GoString
  StatusCode : Int
  Headers : GoMap
  Body : GoBytes
  deriving DecidableEq, Repr

/-! ## `net/url` and `net/http`: when `http.NewRequest` returns nil -/

/-- Go `strings.HasSuffix(s, suffix)`. -/
def HasSuffix (s suf : GoString) : Bool := suf.isSuffixOf s

/-- Go `stringContainsCTLByte(s)` of net/url. -/
def stringContainsCTLByte (s : GoString) : Bool :=
  s.any fun b => decide (b < 0x20) || b == 0x7f

/-- Go `ishex(c)` of net/url. -/
def ishex (c : Nat) : Bool :=
  decide (48 ≤ c ∧ c ≤ 57) || decide (97 ≤ c ∧ c ≤ 102) || decide (65 ≤ c ∧ c ≤ 70)

/-- Whether Go `unescape(s, mode)` of net/url succeeds for the modes
`encodePath` and `encodeFragment`: every `%` is followed by two hex digits. -/
def unescapeOk : GoString → Bool
  | [] => true
  | c :: t =>
    if c = 37 then
      match t with
      | a :: b :: t2 => ishex a && ishex b && unescapeOk t2
      | _ => false
    else unescapeOk t

/-- The loop of Go `getScheme(rawURL)` of net/url at offset `i`: `none` is
the error "missing protocol scheme", otherwise the scheme and the rest. -/
def getSchemeLoop (rawURL : GoString) : Nat → GoString → Option (GoString × GoString)
  | _, [] => some ([], rawURL)
  | i, c :: t =>
    if (97 ≤ c ∧ c ≤ 122) ∨ (65 ≤ c ∧ c ≤ 90) then getSchemeLoop rawURL (i + 1) t
    else if (48 ≤ c ∧ c ≤ 57) ∨ c = 43 ∨ c = 45 ∨ c = 46 then
      if i = 0 then some ([], rawURL) else getSchemeLoop rawURL (i + 1) t
    else if c = 58 then
      if i = 0 then none else some (rawURL.take i, t)
    else some ([], rawURL)

/-- Go `getScheme(rawURL)` of net/url. -/
def getScheme (rawURL : GoString) : Option (GoString × GoString) :=
  getSchemeLoop rawURL 0 rawURL

/-- Whether Go `parse(rawURL, false)` of net/url succeeds.  The check of the
authority of a `//host` URL (`parseAuthority`) is the parameter
`parseAuthorityOk`. -/
def parseOk (parseAuthorityOk : GoString → Bool) (rawURL : GoString) : Bool :=
  if stringContainsCTLByte rawURL then false
  else if rawURL = str "*" then true
  else
    match getScheme rawURL with
    | none => false
    | some (scheme, rest0) =>
      let rest :=
        if HasSuffix rest0 (str "?") && rest0.count 63 == 1 then rest0.dropLast
        else (Cut rest0 (str "?")).1
      if !HasPrefix rest (str "/") && scheme != [] then true
      else if !HasPrefix rest (str "/") && Contains (Cut rest (str "/")).1 (str ":") then false
      else if (scheme != [] || !HasPrefix rest (str "///")) && HasPrefix rest (str "//") then
        let authority := rest.drop 2
        match Index authority (str "/") with
        | some i => parseAuthorityOk (authority.take i) && unescapeOk (authority.drop i)
        | none => parseAuthorityOk authority && unescapeOk []
      else unescapeOk rest

/-- Whether Go `url.Parse(rawURL)` succeeds: the part before the first `#`
parses and the fragment behind it unescapes. -/
def urlParseOk (parseAuthorityOk : GoString → Bool) (rawURL : GoString) : Bool :=
  let (u, frag) := Cut rawURL (str "#")
  parseOk parseAuthorityOk u && (frag == [] || unescapeOk frag)

/-- Go `httpguts.IsTokenRune` on a byte: the characters of an HTTP token. -/
def isTokenByte (b : Nat) : Bool :=
  decide (48 ≤ b ∧ b ≤ 57) || decide (65 ≤ b ∧ b ≤ 90) || decide (97 ≤ b ∧ b ≤ 122) ||
    (str "!#$%&'*+-.^_|~").contains b || b == 96

/-- Go `validMethod(method)` of net/http: non-empty and made of token
characters only. -/
def validMethod (method : GoString) : Bool :=
  decide (method.length > 0) && method.all isTokenByte

/-- The `*http.Request` the dispatcher builds: method, raw URL, the header
entries set on it and the body bytes. -/
structure HttpRequest where
  Method : GoString
  URL : GoString
  Header : List (GoString × GoString)
  Body : GoBytes
  deriving DecidableEq, Repr

/-- Go `http.NewRequest(method, url, body)`: `none` is the nil request it
returns with an error, for an invalid method or an unparsable URL. -/
def NewRequest (parseAuthorityOk : GoString → Bool) (method url : GoString)
    (body : GoBytes) : Option HttpRequest :=
  let method := if method = [] then str "GET" else method
  if !validMethod method then none
  else if !urlParseOk parseAuthorityOk url then none
  else some { Method := method, URL := url, Header := [], Body := body }

/-! ## The dispatchers (`*-service/main.go`) -/

/-- The mock `*gin.Context` handed to a handler: its request (`none` when
`http.NewRequest` returned nil) and its route parameters. -/
structure GinContext where
  Request : Option HttpRequest
  Params : List (GoString × GoString)
  deriving DecidableEq, Repr

/-- What the dispatcher reads back from the `httptest.ResponseRecorder` after
a handler ran: `w.Code`, `w.Header().Get("Content-Type")`, `w.Body.Bytes()`. -/
structure ResponseRecorder where
  Code : Int
  ContentType : GoString
  Body : GoBytes
  deriving DecidableEq, Repr

/-- The handler methods the three dispatchers can invoke. -/
inductive HandlerName where
  | GetPatients | GetPatient | CreatePatient | UpdatePatient | DeletePatient
  | GetExaminations | GetExamination | CreateExamination | UpdateExamination
  | DeleteExamination | GetExaminationsByPatientID
  | GetSamples | GetSample | CreateSample | UpdateSample | DeleteSample
  | GetSamplesByExaminationID
  deriving DecidableEq, Repr

/-- The handlers are external collaborators: a handler method maps the
context it is given to what it leaves in the recorder, or faults (`none`). -/
abbrev Handlers := HandlerName → GinContext → Option ResponseRecorder

/-- One handler invocation: which method, on which context. -/
structure Call where
  handler : HandlerName
  ctx : GinContext
  deriving DecidableEq, Repr

/-- One run of a dispatcher: the handler invocations it made, in order, and
the response it returned; `result = none` is a runtime fault (panic). -/
structure Run where
  calls : List Call
  result : Option KafkaResponse
  deriving DecidableEq, Repr

/-- Function `createMockGinContext`.  The error of `http.NewRequest` is
dropped, so `httpReq` may be nil: the first `httpReq.Header.Set` of the header
loop then dereferences nil (`none`), and with no header to copy the context
gets a nil request.  The headers are recorded as given (`Header.Set` would
also canonicalize each key, which no dispatch decision reads). -/
def createMockGinContext (parseAuthorityOk : GoString → Bool) (req : KafkaRequest) :
    Option GinContext :=
  match NewRequest parseAuthorityOk req.Method req.Path req.Body with
  | none =>
    if req.Headers.len = 0 then some { Request := none, Params := [] } else none
  | some httpReq =>
    some { Request := some { httpReq with Header := req.Headers.entries }, Params := [] }

/-- Function `createErrorResponse`: the body is `json.Marshal` of the map
`gin.H{"error": message}`. -/
def createErrorResponse (requestID : GoString) (statusCode : Int) (message : GoString) :
    KafkaResponse :=
  { RequestID := requestID
    StatusCode := statusCode
    Headers := some [(str "Content-Type", str "application/json")]
    Body := some (str "\x7b\"error\":" ++ jsonQuote message ++ str "\x7d") }

/-- A `case` body of the dispatch switch followed by the tail of
`handleKafkaRequest`: invoke the handler method on `c`, then build the
response from what the recorder holds. -/
def serve (h : Handlers) (req : KafkaRequest) (name : HandlerName) (c : GinContext) : Run :=
  { calls := [⟨name, c⟩]
    result := (h name c).map fun w =>
      { RequestID := req.RequestID
        StatusCode := w.Code
        Headers := some [(str "Content-Type", w.ContentType)]
        Body := w.Body } }

/-- The statement `c.Params = append(c.Params, gin.Param{Key: key, Value: value})`. -/
def addParam (c : GinContext) (key value : GoString) : GinContext :=
  { c with Params := c.Params ++ [(key, value)] }

/-- The three lines `idStr := ...; if idStr != "" { id, err = strconv.ParseUint(idStr, 10, 32) ... }`:
the id stays 0 for an empty segment. -/
def parseID (idStr : GoString) : Except NumError Nat :=
  if idStr ≠ [] then ParseUint idStr 10 32 else .ok 0

namespace PatientService

/-- Function `extractIDFromPath` of patient-service/main.go. -/
def extractIDFromPath (path : GoString) : GoString :=
  let parts := Split path (str "/")
  if parts.length ≥ 2 then parts.getD 1 [] else []

/-- Function `handleKafkaRequest` of patient-service/main.go. -/
def handleKafkaRequest (parseAuthorityOk : GoString → Bool) (handler : Handlers)
    (req : KafkaRequest) : Run :=
  match createMockGinContext parseAuthorityOk req with
  | none => ⟨[], none⟩
  | some c =>
    let path := if req.Path = [] then str "/" else req.Path
    let idStr := extractIDFromPath path
    match parseID idStr with
    | .error _ => ⟨[], some (createErrorResponse req.RequestID 400 (str "Invalid ID format"))⟩
    | .ok id =>
      if req.Method = str "GET" ∧ path = str "/" then
        serve handler req .GetPatients c
      else if req.Method = str "GET" ∧ id > 0 then
        serve handler req .GetPatient (addParam c (str "id") idStr)
      else if req.Method = str "POST" ∧ path = str "/" then
        serve handler req .CreatePatient c
      else if req.Method = str "PUT" ∧ id > 0 then
        serve handler req .UpdatePatient (addParam c (str "id") idStr)
      else if req.Method = str "DELETE" ∧ id > 0 then
        serve handler req .DeletePatient (addParam c (str "id") idStr)
      else ⟨[], some (createErrorResponse req.RequestID 404 (str "Route not found"))⟩

end PatientService

namespace ExaminationService

/-- Function `extractIDFromPath` of examination-service/main.go. -/
def extractIDFromPath (path : GoString) : GoString :=
  let parts := Split path (str "/")
  if parts.length ≥ 2 ∧ !Contains (parts.getD 1 []) (str "patient") then parts.getD 1 [] else []

/-- Function `extractPatientIDFromPath` of examination-service/main.go. -/
def extractPatientIDFromPath (path : GoString) : GoString :=
  if Contains path (str "/patient/") then
    let parts := Split path (str "/patient/")
    if parts.length ≥ 2 then parts.getD 1 [] else []
  else []

/-- Function `handleKafkaRequest` of examination-service/main.go. -/
def handleKafkaRequest (parseAuthorityOk : GoString → Bool) (handler : Handlers)
    (req : KafkaRequest) : Run :=
  match createMockGinContext parseAuthorityOk req with
  | none => ⟨[], none⟩
  | some c =>
    let path := if req.Path = [] then str "/" else req.Path
    let idStr := extractIDFromPath path
    match parseID idStr with
    | .error _ => ⟨[], some (createErrorResponse req.RequestID 400 (str "Invalid ID format"))⟩
    | .ok id =>
      let patientIDStr := extractPatientIDFromPath path
      match parseID patientIDStr with
      | .error _ =>
        ⟨[], some (createErrorResponse req.RequestID 400 (str "Invalid patient ID format"))⟩
      | .ok patientID =>
        if req.Method = str "GET" ∧ path = str "/" then
          serve handler req .GetExaminations c
        else if req.Method = str "GET" ∧ id > 0 then
          serve handler req .GetExamination (addParam c (str "id") idStr)
        else if req.Method = str "POST" ∧ path = str "/" then
          serve handler req .CreateExamination c
        else if req.Method = str "PUT" ∧ id > 0 then
          serve handler req .UpdateExamination (addParam c (str "id") idStr)
        else if req.Method = str "DELETE" ∧ id > 0 then
          serve handler req .DeleteExamination (addParam c (str "id") idStr)
        else if req.Method = str "GET" ∧ patientID > 0 then
          serve handler req .GetExaminationsByPatientID (addParam c (str "patientId") patientIDStr)
        else ⟨[], some (createErrorResponse req.RequestID 404 (str "Route not found"))⟩

end ExaminationService

namespace SampleService

/-- Function `extractIDFromPath` of sample-service/main.go. -/
def extractIDFromPath (path : GoString) : GoString :=
  let parts := Split path (str "/")
  if parts.length ≥ 2 then parts.getD 1 [] else []

/-- Function `extractExaminationIDFromPath` of sample-service/main.go. -/
def extractExaminationIDFromPath (path : GoString) : GoString :=
  if Contains path (str "/examination/") then
    let parts := Split path (str "/examination/")
    if parts.length ≥ 2 then parts.getD 1 [] else []
  else []

/-- Function `handleKafkaRequest` of sample-service/main.go. -/
def handleKafkaRequest (parseAuthorityOk : GoString → Bool) (handler : Handlers)
    (req : KafkaRequest) : Run :=
  match createMockGinContext parseAuthorityOk req with
  | none => ⟨[], none⟩
  | some c =>
    let path := if req.Path = [] then str "/" else req.Path
    let idStr := extractIDFromPath path
    match parseID idStr with
    | .error _ => ⟨[], some (createErrorResponse req.RequestID 400 (str "Invalid ID format"))⟩
    | .ok id =>
      let examinationIDStr := extractExaminationIDFromPath path
      match parseID examinationIDStr with
      | .error _ =>
        ⟨[], some (createErrorResponse req.RequestID 400 (str "Invalid examination ID format"))⟩
      | .ok examinationID =>
        if req.Method = str "GET" ∧ path = str "/" then
          serve handler req .GetSamples c
        else if req.Method = str "GET" ∧ id > 0 then
          serve handler req .GetSample (addParam c (str "id") idStr)
        else if req.Method = str "POST" ∧ path = str "/" then
          serve handler req .CreateSample c
        else if req.Method = str "PUT" ∧ id > 0 then
          serve handler req .UpdateSample (addParam c (str "id") idStr)
        else if req.Method = str "DELETE" ∧ id > 0 then
          serve handler req .DeleteSample (addParam c (str "id") idStr)
        else if req.Method = str "GET" ∧ examinationID > 0 then
          serve handler req .GetSamplesByExaminationID
            (addParam c (str "examinationId") examinationIDStr)
        else ⟨[], some (createErrorResponse req.RequestID 404 (str "Route not found"))⟩

end SampleService

/-- Bytes that `url.Parse` reads as plain path text: no control byte and
none of `#`, `?`, `%`. -/
def PlainPath (p : GoString) : Prop := ∀ b ∈ p, 0x20 ≤ b ∧ b ≠ 0x7f ∧ b ≠ 35 ∧ b ≠ 63 ∧ b ≠ 37

/-! ## The dispatch table in the words of the specification -/

/-- The six kinds of route of the specification's dispatch table. -/
inductive RouteKind where
  | listAll | getByID | create | update | delete | listByParent
  deriving DecidableEq, Repr

/-- The condition of one rule of the specification on the verb, the path, the
id and the parent id: the root path is `/` or the empty path, an id is
positive when it is greater than 0. -/
def ruleMatches (method path : GoString) (id parent : Nat) : RouteKind → Bool
  | .listAll => method == str "GET" && (path == str "/" || path == [])
  | .getByID => method == str "GET" && decide (id > 0)
  | .create => method == str "POST" && (path == str "/" || path == [])
  | .update => method == str "PUT" && decide (id > 0)
  | .delete => method == str "DELETE" && decide (id > 0)
  | .listByParent => method == str "GET" && decide (parent > 0)

/-- The rules in the fixed priority order of the specification. -/
def orderedRules : List RouteKind :=
  [.listAll, .getByID, .create, .update, .delete, .listByParent]

/-- The first rule of the ordered list that matches, if any. -/
def firstMatch (method path : GoString) (id parent : Nat) : Option RouteKind :=
  orderedRules.find? (ruleMatches method path id parent)

/-- The path the dispatcher routes on: `/` stands in for the empty path. -/
def routedPath (req : KafkaRequest) : GoString :=
  if req.Path = [] then str "/" else req.Path

/-- The synthesized not-found response. -/
def notFound (req : KafkaRequest) : Run :=
  ⟨[], some (createErrorResponse req.RequestID 404 (str "Route not found"))⟩

/-- The handler invocation that a route of the patient service stands for
(it has no parent relation). -/
def PatientService.routeRun (h : Handlers) (req : KafkaRequest) (c : GinContext)
    (idStr : GoString) : Option RouteKind → Run
  | some .listAll => serve h req .GetPatients c
  | some .getByID => serve h req .GetPatient (addParam c (str "id") idStr)
  | some .create => serve h req .CreatePatient c
  | some .update => serve h req .UpdatePatient (addParam c (str "id") idStr)
  | some .delete => serve h req .DeletePatient (addParam c (str "id") idStr)
  | _ => notFound req

/-- The handler invocation that a route of the examination service stands for. -/
def ExaminationService.routeRun (h : Handlers) (req : KafkaRequest) (c : GinContext)
    (idStr parentStr : GoString) : Option RouteKind → Run
  | some .listAll => serve h req .GetExaminations c
  | some .getByID => serve h req .GetExamination (addParam c (str "id") idStr)
  | some .create => serve h req .CreateExamination c
  | some .update => serve h req .UpdateExamination (addParam c (str "id") idStr)
  | some .delete => serve h req .DeleteExamination (addParam c (str "id") idStr)
  | some .listByParent =>
    serve h req .GetExaminationsByPatientID (addParam c (str "patientId") parentStr)
  | none => notFound req

/-- The handler invocation that a route of the sample service stands for. -/
def SampleService.routeRun (h : Handlers) (req : KafkaRequest) (c : GinContext)
    (idStr parentStr : GoString) : Option RouteKind → Run
  | some .listAll => serve h req .GetSamples c
  | some .getByID => serve h req .GetSample (addParam c (str "id") idStr)
  | some .create => serve h req .CreateSample c
  | some .update => serve h req .UpdateSample (addParam c (str "id") idStr)
  | some .delete => serve h req .DeleteSample (addParam c (str "id") idStr)
  | some .listByParent =>
    serve h req .GetSamplesByExaminationID (addParam c (str "examinationId") parentStr)
  | none => notFound req

/-! ## The three workers side by side -/

/-- The workers of the repository that dispatch through a
`handleKafkaRequest`: patient-service, examination-service, sample-service. -/
inductive Worker where
  | patient | examination | sample
  deriving DecidableEq, Repr

/-- The `handleKafkaRequest` of a worker. -/
def Worker.handleKafkaRequest : Worker → (GoString → Bool) → Handlers → KafkaRequest → Run
  | .patient => PatientService.handleKafkaRequest
  | .examination => ExaminationService.handleKafkaRequest
  | .sample => SampleService.handleKafkaRequest

/-- The id segment a worker extracts from the path (`extractIDFromPath`). -/
def Worker.idStr : Worker → GoString → GoString
  | .patient => PatientService.extractIDFromPath
  | .examination => ExaminationService.extractIDFromPath
  | .sample => SampleService.extractIDFromPath

/-- The parent id segment a worker extracts from the path: the patient id in
the examination service, the examination id in the sample service, nothing in
the patient service. -/
def Worker.parentStr : Worker → GoString → GoString
  | .patient => fun _ => []
  | .examination => ExaminationService.extractPatientIDFromPath
  | .sample => SampleService.extractExaminationIDFromPath

/-- The run a route stands for in a worker. -/
def Worker.routeRun (w : Worker) (h : Handlers) (req : KafkaRequest) (c : GinContext)
    (idStr parentStr : GoString) (r : Option RouteKind) : Run :=
  match w with
  | .patient => PatientService.routeRun h req c idStr r
  | .examination => ExaminationService.routeRun h req c idStr parentStr r
  | .sample => SampleService.routeRun h req c idStr parentStr r

/-- The get-by-id handler of a worker. -/
def Worker.getByID : Worker → HandlerName
  | .patient => .GetPatient
  | .examination => .GetExamination
  | .sample => .GetSample

/-- The number an id segment stands for in a rule of the dispatch table: its
value when it parses, 0 when it is empty or not a number. -/
def segmentID (seg : GoString) : Nat :=
  match parseID seg with
  | .ok n => n
  | .error _ => 0

/-! ## `encoding/base64`, `strconv` integers and `json.Marshal` of the envelopes -/

/-- The character of a 6-bit value in the standard base64 alphabet. -/
def b64Char (v : Nat) : Nat :=
  if v < 26 then 65 + v
  else if v < 52 then 97 + (v - 26)
  else if v < 62 then 48 + (v - 52)
  else if v = 62 then 43
  else 47

/-- Go `base64.StdEncoding.EncodeToString`: three bytes give four characters,
a last group of one or two bytes is padded with `=`. -/
def b64Encode : List Nat → GoString
  | [] => []
  | [a] => [b64Char (a / 4), b64Char (a % 4 * 16), 61, 61]
  | [a, b] => [b64Char (a / 4), b64Char (a % 4 * 16 + b / 16), b64Char (b % 16 * 4), 61]
  | a :: b :: c :: t =>
    b64Char (a / 4) :: b64Char (a % 4 * 16 + b / 16) :: b64Char (b % 16 * 4 + c / 64) ::
      b64Char (c % 64) :: b64Encode t

/-- The 6-bit value of a character of the standard base64 alphabet
(`decodeMap`); `none` for any other byte. -/
def b64Val (c : Nat) : Option Nat :=
  if 65 ≤ c ∧ c ≤ 90 then some (c - 65)
  else if 97 ≤ c ∧ c ≤ 122 then some (c - 97 + 26)
  else if 48 ≤ c ∧ c ≤ 57 then some (c - 48 + 52)
  else if c = 43 then some 62
  else if c = 47 then some 63
  else none

/-- The quanta of Go `base64.StdEncoding.Decode` on input without line
breaks: four characters give three bytes; padding is accepted in the last
quantum only, as `xx==` or `xxx=`; leftover bits are dropped (the encoding is
not strict). -/
def b64DecodeQuanta : GoString → Option (List Nat)
  | [] => some []
  | a :: b :: c :: d :: t =>
    match b64Val a, b64Val b with
    | some x, some y =>
      if c = 61 then
        if d = 61 ∧ t = [] then some [x * 4 + y / 16] else none
      else
        match b64Val c with
        | none => none
        | some z =>
          if d = 61 then
            if t = [] then some [x * 4 + y / 16, y % 16 * 16 + z / 4] else none
          else
            match b64Val d with
            | none => none
            | some w =>
              (b64DecodeQuanta t).map fun rest =>
                (x * 4 + y / 16) :: (y % 16 * 16 + z / 4) :: (z % 4 * 64 + w) :: rest
    | _, _ => none
  | _ => none

/-- Go `base64.StdEncoding.DecodeString`: carriage returns and line feeds in
the input are ignored. -/
def b64Decode (s : GoString) : Option (List Nat) :=
  b64DecodeQuanta (s.filter fun c => !(c == 10 || c == 13))

/-- Go `strconv.AppendInt(dst, i, 10)`. -/
def formatInt (i : Int) : GoString :=
  if i < 0 then 45 :: decimal (-i).toNat else decimal i.toNat

/-- Go `strconv.ParseInt(s, base, bitSize)` for an explicit base. -/
def ParseInt (s : GoString) (base bitSize : Nat) : Except NumError Int :=
  if s = [] then .error .invalid
  else
    let neg := s.head? == some 45
    let s1 := if s.head? == some 43 || neg then s.tail else s
    match ParseUint s1 base bitSize with
    | .error e => .error e
    | .ok un =>
      let cutoff := 2 ^ (bitSize - 1)
      if !neg ∧ un ≥ cutoff then .error .range
      else if neg ∧ un > cutoff then .error .range
      else .ok (if neg then -(un : Int) else (un : Int))

/-- Go `a < b` on strings: the lexicographic order of the bytes. -/
def bytesLess : GoString → GoString → Bool
  | [], [] => false
  | [], _ :: _ => true
  | _ :: _, [] => false
  | a :: s, b :: t => if a < b then true else if b < a then false else bytesLess s t

/-- The order in which `json.Marshal` writes the keys of a map: ascending by
the bytes of the key. -/
def sortEntries (kvs : List (GoString × GoString)) : List (GoString × GoString) :=
  kvs.insertionSort fun a b => bytesLess b.1 a.1 = false

/-- The members of a JSON object for map entries, comma separated. -/
def marshalEntries : List (GoString × GoString) → GoString
  | [] => []
  | [(k, v)] => jsonQuote k ++ str ":" ++ jsonQuote v
  | (k, v) :: t => jsonQuote k ++ str ":" ++ jsonQuote v ++ str "," ++ marshalEntries t

/-- Go `json.Marshal` of a `map[string]string`: `null` for the nil map, else
an object with the keys in ascending order. -/
def marshalMap : GoMap → GoString
  | none => str "null"
  | some kvs => str "\x7b" ++ marshalEntries (sortEntries kvs) ++ str "\x7d"

/-- Go `json.Marshal` of a `[]byte`: `null` for the nil slice, else the
base64 text as a JSON string. -/
def marshalBytes : GoBytes → GoString
  | none => str "null"
  | some b => [34] ++ b64Encode b ++ [34]

/-- Go `json.Marshal(req)` for a `KafkaRequest`: it cannot fail for this
struct. -/
def MarshalRequest (r : KafkaRequest) : GoString :=
  str "\x7b\"requestId\":" ++ jsonQuote r.RequestID ++
    str ",\"method\":" ++ jsonQuote r.Method ++
    str ",\"path\":" ++ jsonQuote r.Path ++
    str ",\"headers\":" ++ marshalMap r.Headers ++
    str ",\"body\":" ++ marshalBytes r.Body ++
    str ",\"servicePath\":" ++ jsonQuote r.ServicePath ++ str "\x7d"

/-- Go `json.Marshal(resp)` for a `KafkaResponse`. -/
def MarshalResponse (r : KafkaResponse) : GoString :=
  str "\x7b\"requestId\":" ++ jsonQuote r.RequestID ++
    str ",\"statusCode\":" ++ formatInt r.StatusCode ++
    str ",\"headers\":" ++ marshalMap r.Headers ++
    str ",\"body\":" ++ marshalBytes r.Body ++ str "\x7d"

/-! ## `json.Unmarshal` of the envelopes -/

/-- A JSON value as `encoding/json` reads it: a string holds its unquoted
bytes, a number its literal. -/
inductive JSON where
  | null
  | bool (b : Bool)
  | number (lit : GoString)
  | string (s : GoString)
  | array (xs : List JSON)
  | object (members : List (GoString × JSON))

/-- Go `isSpace(c)` of the JSON scanner. -/
def isSpace (c : Nat) : Bool := c == 32 || c == 9 || c == 13 || c == 10

/-- Skip JSON white space. -/
def skipWS : GoString → GoString
  | [] => []
  | c :: t => if isSpace c then skipWS t else c :: t

/-- The value of a hexadecimal digit, either case. -/
def hexVal (c : Nat) : Option Nat :=
  if 48 ≤ c ∧ c ≤ 57 then some (c - 48)
  else if 97 ≤ c ∧ c ≤ 102 then some (c - 97 + 10)
  else if 65 ≤ c ∧ c ≤ 70 then some (c - 65 + 10)
  else none

/-- Go `getu4` behind the `\u`: the rune of four hexadecimal digits and the
text after them. -/
def getu4 : GoString → Option (Nat × GoString)
  | a :: b :: c :: d :: t =>
    match hexVal a, hexVal b, hexVal c, hexVal d with
    | some x, some y, some z, some w => some (x * 4096 + y * 256 + z * 16 + w, t)
    | _, _, _, _ => none
  | _ => none

/-- Go `utf16.DecodeRune(r1, r2)`: the rune of a surrogate pair, U+FFFD when
the two are not a valid pair. -/
def utf16DecodeRune (r1 r2 : Nat) : Nat :=
  if 0xD800 ≤ r1 ∧ r1 < 0xDC00 ∧ 0xDC00 ≤ r2 ∧ r2 < 0xE000 then
    (r1 - 0xD800) * 1024 + (r2 - 0xDC00) + 0x10000
  else RuneError

/-- The second half of a surrogate pair, when the text goes on with a `\u`
escape that completes `rr` to a valid pair: the rune and the text after it. -/
def surrogatePair (rr : Nat) : GoString → Option (Nat × GoString)
  | 92 :: 117 :: t =>
    match getu4 t with
    | some (rr1, t1) =>
      if utf16DecodeRune rr rr1 ≠ RuneError then some (utf16DecodeRune rr rr1, t1) else none
    | none => none
  | _ => none

/-- A JSON string literal behind its opening quote, as the scanner accepts it
and `unquoteBytes` decodes it: the decoded bytes and the text behind the
closing quote.  Raw control bytes and unknown escapes are errors; invalid
UTF-8 and lone surrogates are replaced by U+FFFD. -/
def parseStringBody : Nat → GoString → Option (GoString × GoString)
  | 0, _ => none
  | _ + 1, [] => none
  | fuel + 1, c :: t =>
    if c = 34 then some ([], t)
    else if c = 92 then
      match t with
      | [] => none
      | e :: t1 =>
        if e = 117 then
          match getu4 t1 with
          | none => none
          | some (rr, t2) =>
            if 0xD800 ≤ rr ∧ rr < 0xE000 then
              match surrogatePair rr t2 with
              | some (dec, t3) =>
                (parseStringBody fuel t3).map fun (b, r) => (EncodeRune dec ++ b, r)
              | none => (parseStringBody fuel t2).map fun (b, r) => (EncodeRune RuneError ++ b, r)
            else (parseStringBody fuel t2).map fun (b, r) => (EncodeRune rr ++ b, r)
        else
          let out : Option Nat :=
            if e = 34 ∨ e = 92 ∨ e = 47 then some e
            else if e = 98 then some 8
            else if e = 102 then some 12
            else if e = 110 then some 10
            else if e = 114 then some 13
            else if e = 116 then some 9
            else none
          match out with
          | none => none
          | some b => (parseStringBody fuel t1).map fun (bs, r) => (b :: bs, r)
    else if c < 0x20 then none
    else if c < 0x80 then (parseStringBody fuel t).map fun (bs, r) => (c :: bs, r)
    else
      let (rr, size) := DecodeRune (c :: t)
      (parseStringBody fuel ((c :: t).drop size)).map fun (bs, r) => (EncodeRune rr ++ bs, r)

/-- The longest prefix of decimal digits and the text after it. -/
def spanDigits : GoString → GoString × GoString
  | [] => ([], [])
  | c :: t =>
    if 48 ≤ c ∧ c ≤ 57 then ((spanDigits t).1.cons c, (spanDigits t).2) else ([], c :: t)

/-- The exponent part of a JSON number, if there is one. -/
def scanExponent (lit r : GoString) : Option (GoString × GoString) :=
  match r with
  | e :: t =>
    if e = 101 ∨ e = 69 then
      let (sg, t2) : GoString × GoString :=
        match t with
        | s :: u => if s = 43 ∨ s = 45 then ([s], u) else ([], t)
        | [] => ([], t)
      let (ds, r2) := spanDigits t2
      if ds = [] then none else some (lit ++ e :: sg ++ ds, r2)
    else some (lit, r)
  | [] => some (lit, r)

/-- The fraction part of a JSON number, if there is one, and the exponent. -/
def scanFraction (lit r : GoString) : Option (GoString × GoString) :=
  match r with
  | c :: t =>
    if c = 46 then
      let (ds, r2) := spanDigits t
      if ds = [] then none else scanExponent (lit ++ 46 :: ds) r2
    else scanExponent lit r
  | [] => scanExponent lit r

/-- A JSON number literal at the head of the text: the literal and the text
after it. -/
def scanNumber (s : GoString) : Option (GoString × GoString) :=
  let (sign, s1) : GoString × GoString :=
    match s with
    | c :: t => if c = 45 then ([45], t) else ([], s)
    | [] => ([], s)
  match s1 with
  | [] => none
  | c :: t =>
    if c = 48 then scanFraction (sign ++ [48]) t
    else if 49 ≤ c ∧ c ≤ 57 then
      let (ds, r) := spanDigits t
      scanFraction (sign ++ c :: ds) r
    else none

/-- The nesting depth beyond which the JSON scanner gives up. -/
def maxNestingDepth : Nat := 10000

mutual

/-- A JSON value at the head of the text, after optional white space, at
nesting depth `depth`: the value and the text after it. -/
def parseValue : Nat → Nat → GoString → Option (JSON × GoString)
  | 0, _, _ => none
  | fuel + 1, depth, s =>
    match skipWS s with
    | [] => none
    | c :: t =>
      if c = 34 then
        (parseStringBody (t.length + 1) t).map fun (b, r) => (JSON.string b, r)
      else if c = 123 then
        if depth + 1 > maxNestingDepth then none
        else
          match skipWS t with
          | 125 :: r => some (JSON.object [], r)
          | _ => (parseMembers fuel (depth + 1) t).map fun (ms, r) => (JSON.object ms, r)
      else if c = 91 then
        if depth + 1 > maxNestingDepth then none
        else
          match skipWS t with
          | 93 :: r => some (JSON.array [], r)
          | _ => (parseElements fuel (depth + 1) t).map fun (xs, r) => (JSON.array xs, r)
      else if HasPrefix (c :: t) (str "true") then some (JSON.bool true, t.drop 3)
      else if HasPrefix (c :: t) (str "false") then some (JSON.bool false, t.drop 4)
      else if HasPrefix (c :: t) (str "null") then some (JSON.null, t.drop 3)
      else (scanNumber (c :: t)).map fun (lit, r) => (JSON.number lit, r)

/-- The members of a non-empty JSON object up to and including its closing
brace. -/
def parseMembers : Nat → Nat → GoString → Option (List (GoString × JSON) × GoString)
  | 0, _, _ => none
  | fuel + 1, depth, s =>
    match skipWS s with
    | 34 :: t =>
      match parseStringBody (t.length + 1) t with
      | none => none
      | some (k, r) =>
        match skipWS r with
        | 58 :: r2 =>
          match parseValue fuel depth r2 with
          | none => none
          | some (v, r3) =>
            match skipWS r3 with
            | 44 :: r4 => (parseMembers fuel depth r4).map fun (ms, r5) => ((k, v) :: ms, r5)
            | 125 :: r4 => some ([(k, v)], r4)
            | _ => none
        | _ => none
    | _ => none

/-- The elements of a non-empty JSON array up to and including its closing
bracket. -/
def parseElements : Nat → Nat → GoString → Option (List JSON × GoString)
  | 0, _, _ => none
  | fuel + 1, depth, s =>
    match parseValue fuel depth s with
    | none => none
    | some (v, r) =>
      match skipWS r with
      | 44 :: r2 => (parseElements fuel depth r2).map fun (xs, r3) => (v :: xs, r3)
      | 93 :: r2 => some ([v], r2)
      | _ => none

end

/-- The JSON text as a whole (`checkValid` and the decoder's scan): one value
with white space around it and nothing else. -/
def parseJSON (data : GoString) : Option JSON :=
  match parseValue (data.length + 1) 0 data with
  | some (v, r) => if skipWS r = [] then some v else none
  | none => none

/-- Go `m[k] = v` on a map kept as its entries in ascending key order. -/
def setEntry (k v : GoString) : List (GoString × GoString) → List (GoString × GoString)
  | [] => [(k, v)]
  | (k1, v1) :: t =>
    if k = k1 then (k, v) :: t
    else if bytesLess k k1 then (k, v) :: (k1, v1) :: t
    else (k1, v1) :: setEntry k v t

/-- Decoding a JSON value into a Go `string` that holds `cur`: a string is
stored, `null` leaves the value as it is, anything else is a type error. -/
def decodeString (cur : GoString) : JSON → Option GoString
  | .null => some cur
  | .string s => some s
  | _ => none

/-- Decoding a JSON value into a Go `int` (64 bits) that holds `cur`. -/
def decodeInt (cur : Int) : JSON → Option Int
  | .null => some cur
  | .number lit =>
    match ParseInt lit 10 64 with
    | .ok n => some n
    | .error _ => none
  | _ => none

/-- Decoding a JSON value into a Go `uint8` that holds `cur`, as for the
elements of an array read into a `[]byte`. -/
def decodeUint8 (cur : Nat) : JSON → Option Nat
  | .null => some cur
  | .number lit =>
    match ParseUint lit 10 64 with
    | .ok n => if n < 256 then some n else none
    | .error _ => none
  | _ => none

/-- Decoding the members of a JSON object into a `map[string]string`: each
value is decoded into a fresh string and stored under its key. -/
def decodeMembers : List (GoString × GoString) → List (GoString × JSON) →
    Option (List (GoString × GoString))
  | m, [] => some m
  | m, (k, v) :: t =>
    match decodeString [] v with
    | none => none
    | some s => decodeMembers (setEntry k s m) t

/-- Decoding a JSON value into a `map[string]string` that holds `cur`: `null`
makes it nil, an object is read into the map (allocated when nil). -/
def decodeMap (cur : GoMap) : JSON → Option GoMap
  | .null => some none
  | .object ms => (decodeMembers cur.entries ms).map some
  | _ => none

/-- Decoding a JSON value into a `[]byte`: `null` makes it nil, a string is
base64 text, an array is read element by element. -/
def decodeBytes : JSON → Option GoBytes
  | .null => some none
  | .string s => (b64Decode s).map some
  | .array xs => (xs.mapM (decodeUint8 0)).map some
  | _ => none

/-- Go `foldRune(r)` for the runes that fold to an ASCII letter: the
lower-case letters, the long s (U+017F) and the Kelvin sign (U+212A).  The
representative of any other rune is not ASCII, which is all a comparison with
a field name needs, and is given as the rune itself. -/
def foldRune (r : Nat) : Nat :=
  if 97 ≤ r ∧ r ≤ 122 then r - 32
  else if r = 0x17F then 83
  else if r = 0x212A then 75
  else r

/-- Go `foldName(in)` of encoding/json: the case-folded key under which a
struct field is looked up. -/
def foldName : Nat → GoString → GoString
  | 0, _ => []
  | _ + 1, [] => []
  | fuel + 1, c :: t =>
    if c < 0x80 then foldRune c :: foldName fuel t
    else
      let (r, n) := DecodeRune (c :: t)
      EncodeRune (foldRune r) ++ foldName fuel ((c :: t).drop n)

/-- Whether an object key selects the struct field with the JSON name
`name`: exactly, or else under case folding. -/
def keyIs (key : GoString) (name : String) : Bool :=
  foldName key.length key == foldName (str name).length (str name)

/-- One object member decoded into a `KafkaRequest`; a key that names no
field is skipped. -/
def decodeRequestMember (r : KafkaRequest) (kv : GoString × JSON) : Option KafkaRequest :=
  if keyIs kv.1 "requestId" then (decodeString r.RequestID kv.2).map fun x => { r with RequestID := x }
  else if keyIs kv.1 "method" then (decodeString r.Method kv.2).map fun x => { r with Method := x }
  else if keyIs kv.1 "path" then (decodeString r.Path kv.2).map fun x => { r with Path := x }
  else if keyIs kv.1 "headers" then (decodeMap r.Headers kv.2).map fun x => { r with Headers := x }
  else if keyIs kv.1 "body" then (decodeBytes kv.2).map fun x => { r with Body := x }
  else if keyIs kv.1 "servicePath" then
    (decodeString r.ServicePath kv.2).map fun x => { r with ServicePath := x }
  else some r

/-- One object member decoded into a `KafkaResponse`. -/
def decodeResponseMember (r : KafkaResponse) (kv : GoString × JSON) : Option KafkaResponse :=
  if keyIs kv.1 "requestId" then (decodeString r.RequestID kv.2).map fun x => { r with RequestID := x }
  else if keyIs kv.1 "statusCode" then
    (decodeInt r.StatusCode kv.2).map fun x => { r with StatusCode := x }
  else if keyIs kv.1 "headers" then (decodeMap r.Headers kv.2).map fun x => { r with Headers := x }
  else if keyIs kv.1 "body" then (decodeBytes kv.2).map fun x => { r with Body := x }
  else some r

/-- Go `json.Unmarshal(data, &req)` into a zero `KafkaRequest`; `none` is any
error (malformed JSON or a value of the wrong type). -/
def UnmarshalRequest (data : GoString) : Option KafkaRequest :=
  match parseJSON data with
  | some .null => some ⟨[], [], [], none, none, []⟩
  | some (.object ms) => ms.foldlM decodeRequestMember ⟨[], [], [], none, none, []⟩
  | _ => none

/-- Go `json.Unmarshal(data, &resp)` into a zero `KafkaResponse`. -/
def UnmarshalResponse (data : GoString) : Option KafkaResponse :=
  match parseJSON data with
  | some .null => some ⟨[], 0, none, none⟩
  | some (.object ms) => ms.foldlM decodeResponseMember ⟨[], 0, none, none⟩
  | _ => none

/-! ## The gateway client (`api-gateway/proxy/kafka.go`) and the worker's topics -/

/-- Variable `topics`: the request topic of each service. -/
def topics : List (GoString × GoString) :=
  [ (str "patients", str "patient-requests"),
    (str "prescriptions", str "prescription-requests"),
    (str "referrals", str "referral-requests"),
    (str "examinations", str "examination-requests"),
    (str "samples", str "sample-requests") ]

/-- Variable `responseTopics`: the response topic of each service. -/
def responseTopics : List (GoString × GoString) :=
  [ (str "patients", str "patient-responses"),
    (str "prescriptions", str "prescription-responses"),
    (str "referrals", str "referral-responses"),
    (str "examinations", str "examination-responses"),
    (str "samples", str "sample-responses") ]

/-- One operation on the broker. -/
inductive BrokerOp where
  | newWriter (topic : GoString)
  | writeMessages (topic key value : GoString)
  | closeWriter (topic : GoString)
  | newReader (topic : GoString)
  | readMessage (topic : GoString)
  | closeReader (topic : GoString)
  deriving DecidableEq, Repr

/-- Why `reader.ReadMessage(ctx)` failed: the 30 second deadline of `ctx`
passed, or the transport failed. -/
inductive ReadFailure where
  | deadlineExceeded
  | transport
  deriving DecidableEq, Repr

/-- What one `reader.ReadMessage(ctx)` returns. -/
inductive ReadResult where
  | message (value : GoString)
  | failure (cause : ReadFailure)
  deriving DecidableEq, Repr

/-- The errors `SendKafkaRequest` returns. -/
inductive SendError where
  | unknownService (service : GoString)
  | unknownResponseTopic (service : GoString)
  | write
  | read (cause : ReadFailure)
  deriving DecidableEq, Repr

/-- The text of an error of `SendKafkaRequest`, up to the text of a wrapped
broker error. -/
def SendError.message : SendError → GoString
  | .unknownService service => str "unknown service: " ++ service
  | .unknownResponseTopic service => str "unknown response topic for service: " ++ service
  | .write => str "failed to write message: "
  | .read _ => str "failed to read response: "

/-- One call of `SendKafkaRequest`: the broker operations it performed, in
order, and what it returned. -/
structure SendRun where
  ops : List BrokerOp
  result : Except SendError KafkaResponse
  deriving DecidableEq

/-- The loop `for { msg, err := reader.ReadMessage(ctx) ... }` over what the
successive reads return: a message that does not unmarshal or carries another
request id is skipped; when nothing more arrives the read ends with the
deadline of `ctx`. -/
def readLoop (responseTopic : GoString) (req : KafkaRequest) :
    List ReadResult → List BrokerOp × Except SendError KafkaResponse
  | [] => ([.readMessage responseTopic], .error (.read .deadlineExceeded))
  | .failure cause :: _ => ([.readMessage responseTopic], .error (.read cause))
  | .message value :: rest =>
    match UnmarshalResponse value with
    | none =>
      ((BrokerOp.readMessage responseTopic) :: (readLoop responseTopic req rest).1,
        (readLoop responseTopic req rest).2)
    | some resp =>
      if resp.RequestID = req.RequestID then ([.readMessage responseTopic], .ok resp)
      else
        ((BrokerOp.readMessage responseTopic) :: (readLoop responseTopic req rest).1,
          (readLoop responseTopic req rest).2)

/-- Function `SendKafkaRequest`.  `writeOk` tells whether `WriteMessages`
succeeds, `stream` what the reads on the response topic return.  The deferred
`reader.Close()` and `writer.Close()` run at the return, last opened first;
`json.Marshal` cannot fail for a `KafkaRequest`. -/
def SendKafkaRequest (writeOk : Bool) (stream : List ReadResult) (service : GoString)
    (req : KafkaRequest) : SendRun :=
  match topics.lookup service with
  | none => ⟨[], .error (.unknownService service)⟩
  | some topic =>
    match responseTopics.lookup service with
    | none => ⟨[], .error (.unknownResponseTopic service)⟩
    | some responseTopic =>
      let reqBytes := MarshalRequest req
      if !writeOk then
        ⟨[.newWriter topic, .writeMessages topic req.RequestID reqBytes, .closeWriter topic],
          .error .write⟩
      else
        ⟨[.newWriter topic, .writeMessages topic req.RequestID reqBytes,
            .newReader responseTopic] ++ (readLoop responseTopic req stream).1 ++
            [.closeReader responseTopic, .closeWriter topic],
          (readLoop responseTopic req stream).2⟩

/-- The line `requestTopic := fmt.Sprintf("%s-requests", serviceName)` of
`StartKafkaConsumer`. -/
def workerRequestTopic (serviceName : GoString) : GoString := serviceName ++ str "-requests"

/-- The line `responseTopic := fmt.Sprintf("%s-responses", serviceName)` of
`StartKafkaConsumer`. -/
def workerResponseTopic (serviceName : GoString) : GoString := serviceName ++ str "-responses"

/-- The service name each worker's `main` passes to `StartKafkaConsumer`. -/
def Worker.serviceName : Worker → GoString
  | .patient => str "patients"
  | .examination => str "examinations"
  | .sample => str "samples"

/-! ## Well-formed envelopes -/

/-- Go `utf8.ValidString(s)`: the text is a sequence of valid UTF-8
encodings. -/
def ValidString : Nat → GoString → Bool
  | 0, s => s == []
  | _ + 1, [] => true
  | fuel + 1, c :: t =>
    let (r, size) := DecodeRune (c :: t)
    if r = RuneError ∧ size = 1 then false else ValidString fuel ((c :: t).drop size)

/-- The string is valid UTF-8. -/
def validUTF8 (s : GoString) : Bool := ValidString s.length s

/-- What `quoteLoop` writes for one ASCII byte. -/
def asciiQuoted (b : Nat) : GoString :=
  if htmlSafe b then [b]
  else if b = 92 ∨ b = 34 then [92, b]
  else if b = 8 then [92, 98]
  else if b = 12 then [92, 102]
  else if b = 10 then [92, 110]
  else if b = 13 then [92, 114]
  else if b = 9 then [92, 116]
  else [92, 117, 48, 48, hexDigit (b / 16), hexDigit (b % 16)]

/-- A byte that a JSON string literal holds as itself and base64 does not
skip. -/
def PlainByte (c : Nat) : Prop :=
  0x20 ≤ c ∧ c < 0x80 ∧ c ≠ 34 ∧ c ≠ 92 ∧ c ≠ 10 ∧ c ≠ 13

/-- A map in canonical form with text a JSON string can carry: the keys in
strictly ascending order, keys and values valid UTF-8. -/
def MapWF : GoMap → Prop
  | none => True
  | some kvs =>
    kvs.Pairwise (fun a b => bytesLess a.1 b.1 = true) ∧
      ∀ kv ∈ kvs, validUTF8 kv.1 = true ∧ validUTF8 kv.2 = true

/-- A byte slice whose elements are bytes. -/
def BytesWF : GoBytes → Prop
  | none => True
  | some bs => IsBytes bs

/-- A request envelope as Go can hold it and JSON can carry it: the strings
valid UTF-8, the header map likewise, the body made of bytes. -/
def KafkaRequest.WellFormed (r : KafkaRequest) : Prop :=
  validUTF8 r.RequestID = true ∧ validUTF8 r.Method = true ∧ validUTF8 r.Path = true ∧
    MapWF r.Headers ∧ BytesWF r.Body ∧ validUTF8 r.ServicePath = true

/-- A response envelope as Go can hold it and JSON can carry it: the status
code a 64-bit `int`. -/
def KafkaResponse.WellFormed (r : KafkaResponse) : Prop :=
  validUTF8 r.RequestID = true ∧ -(2 : Int) ^ 63 ≤ r.StatusCode ∧ r.StatusCode < (2 : Int) ^ 63 ∧
    MapWF r.Headers ∧ BytesWF r.Body

/-- The JSON value a header map is written as. -/
def mapJSON : GoMap → JSON
  | none => JSON.null
  | some kvs => JSON.object (kvs.map fun kv => (kv.1, JSON.string kv.2))

/-- The JSON value a body is written as. -/
def bytesJSON : GoBytes → JSON
  | none => JSON.null
  | some bs => JSON.string (b64Encode bs)

instance (s : List Nat) : Decidable (IsBytes s) :=
  inferInstanceAs (Decidable (∀ b ∈ s, b < 256))

instance (m : GoMap) : Decidable (MapWF m) :=
  match m with
  | none => isTrue trivial
  | some kvs =>
    inferInstanceAs (Decidable (kvs.Pairwise
        (fun (a b : GoString × GoString) => bytesLess a.1 b.1 = true) ∧
      ∀ kv ∈ kvs, validUTF8 kv.1 = true ∧ validUTF8 kv.2 = true))

instance (b : GoBytes) : Decidable (BytesWF b) :=
  match b with
  | none => isTrue trivial
  | some bs => inferInstanceAs (Decidable (IsBytes bs))

instance (r : KafkaRequest) : Decidable r.WellFormed :=
  inferInstanceAs (Decidable (validUTF8 r.RequestID = true ∧ validUTF8 r.Method = true ∧
    validUTF8 r.Path = true ∧ MapWF r.Headers ∧ BytesWF r.Body ∧ validUTF8 r.ServicePath = true))

instance (r : KafkaResponse) : Decidable r.WellFormed :=
  inferInstanceAs (Decidable (validUTF8 r.RequestID = true ∧ -(2 : Int) ^ 63 ≤ r.StatusCode ∧
    r.StatusCode < (2 : Int) ^ 63 ∧ MapWF r.Headers ∧ BytesWF r.Body))

/-- The route a run of a dispatcher took: the handlers it invoked, each with
the route parameters it was given, and, when it invoked none, the status code
and body of the response it synthesized (`none` for a fault). -/
def Run.route (r : Run) :
    List (HandlerName × List (GoString × GoString)) × Option (Int × GoBytes) :=
  (r.calls.map fun c => (c.handler, c.ctx.Params),
    if r.calls = [] then r.result.map fun resp => (resp.StatusCode, resp.Body) else none)

/-! ## The worker runtime (`shared/kafka/handler.go`) -/

/-- Type `ServiceHandler`, a `func(KafkaRequest) KafkaResponse`; `none` is a
handler that faults instead of returning. -/
abbrev ServiceHandler := KafkaRequest → Option KafkaResponse

/-- What the consumer loop of a worker did on a prefix of its deliveries: the
broker operations in order, the requests the handler was invoked on, and the
messages (key and value) it published to the response topic. -/
structure WorkerRun where
  ops : List BrokerOp
  handled : List KafkaRequest
  published : List (GoString × GoString)
  deriving DecidableEq

/-- One more broker operation in front of a run. -/
def WorkerRun.after (op : BrokerOp) (r : WorkerRun) : WorkerRun :=
  { r with ops := op :: r.ops }

/-- The loop `for { msg, err := reader.ReadMessage(ctx) ... }` of
`StartKafkaConsumer` over what the successive reads return; `i` counts the
publish attempts made so far and `writeOk i` tells whether attempt `i`
succeeds.  A read error and a message that does not unmarshal are logged and
skipped, a failed publish is logged; a handler that faults unwinds the
goroutine through the deferred `writer.Close()` and `reader.Close()`. -/
def consumerLoop (requestTopic responseTopic : GoString) (handler : ServiceHandler)
    (writeOk : Nat → Bool) : Nat → List ReadResult → WorkerRun
  | _, [] => ⟨[], [], []⟩
  | i, .failure _ :: rest =>
    (consumerLoop requestTopic responseTopic handler writeOk i rest).after
      (.readMessage requestTopic)
  | i, .message value :: rest =>
    match UnmarshalRequest value with
    | none =>
      (consumerLoop requestTopic responseTopic handler writeOk i rest).after
        (.readMessage requestTopic)
    | some req =>
      match handler req with
      | none =>
        ⟨[.readMessage requestTopic, .closeWriter responseTopic, .closeReader requestTopic],
          [req], []⟩
      | some resp =>
        let respBytes := MarshalResponse resp
        let next := consumerLoop requestTopic responseTopic handler writeOk (i + 1) rest
        { ops := .readMessage requestTopic ::
            .writeMessages responseTopic req.RequestID respBytes :: next.ops
          handled := req :: next.handled
          published :=
            if writeOk i then (req.RequestID, respBytes) :: next.published else next.published }

/-- Function `StartKafkaConsumer`: the reader on the request topic, the writer
on the response topic, then the consumer loop (run as a goroutine) on what the
reads return.  The provisioning it starts first runs in the background. -/
def StartKafkaConsumer (serviceName : GoString) (handler : ServiceHandler)
    (writeOk : Nat → Bool) (stream : List ReadResult) : WorkerRun :=
  let requestTopic := workerRequestTopic serviceName
  let responseTopic := workerResponseTopic serviceName
  ((consumerLoop requestTopic responseTopic handler writeOk 0 stream).after
    (.newWriter responseTopic)).after (.newReader requestTopic)

/-- The requests among the deliveries: the messages that deserialize as a
request, in arrival order. -/
def deliveredRequests (stream : List ReadResult) : List KafkaRequest :=
  stream.filterMap fun m =>
    match m with
    | .message value => UnmarshalRequest value
    | .failure _ => none

/-! ## Topic provisioning (`shared/kafka/topic_creator.go`) -/

/-- Variable `requiredTopics`. -/
def requiredTopics : List GoString :=
  [ str "patient-requests",
    str "patient-responses",
    str "prescription-requests",
    str "prescription-responses",
    str "referral-requests",
    str "referral-responses",
    str "examination-requests",
    str "examination-responses",
    str "sample-requests",
    str "sample-responses" ]

/-- Struct `kafka.TopicConfig`, the fields `EnsureTopicsExist` sets. -/
structure TopicConfig where
  Topic : GoString
  NumPartitions : Int
  ReplicationFactor : Int
  deriving DecidableEq, Repr

/-- How the broker answers one run of `EnsureTopicsExist`.  An error is given by
its text (`err.Error()`); `none` is success.  `readPartitions` lists the
`Topic` of every partition. -/
structure ProvisionBroker where
  dial : Option GoString
  readPartitions : Except GoString (List GoString)
  controller : Option GoString
  dialController : Option GoString
  createTopics : TopicConfig → Option GoString

/-- One operation of `EnsureTopicsExist` on the broker. -/
inductive ProvisionOp where
  | dial
  | readPartitions
  | controller
  | dialController
  | createTopics (config : TopicConfig)
  | closeController
  | close
  deriving DecidableEq, Repr

/-- One run of `EnsureTopicsExist`: the broker operations in order and the
error returned (`none` is `nil`). -/
structure ProvisionRun where
  ops : List ProvisionOp
  err : Option GoString
  deriving DecidableEq, Repr

/-- The loop `for _, topic := range requiredTopics` of `EnsureTopicsExist`:
`existingTopics` holds the topics listed, a topic not listed is created with
one partition and replication factor one, and a creation error is returned
unless its text contains "already exists". -/
def createMissing (existingTopics : List GoString) (createTopics : TopicConfig → Option GoString) :
    List GoString → List ProvisionOp × Option GoString
  | [] => ([], none)
  | topic :: rest =>
    if topic ∈ existingTopics then createMissing existingTopics createTopics rest
    else
      let config : TopicConfig := ⟨topic, 1, 1⟩
      match createTopics config with
      | none =>
        (.createTopics config :: (createMissing existingTopics createTopics rest).1,
          (createMissing existingTopics createTopics rest).2)
      | some err =>
        if !Contains err (str "already exists") then ([.createTopics config], some err)
        else
          (.createTopics config :: (createMissing existingTopics createTopics rest).1,
            (createMissing existingTopics createTopics rest).2)

/-- Function `EnsureTopicsExist`, on a broker that answers as `b` does. -/
def EnsureTopicsExist (b : ProvisionBroker) : ProvisionRun :=
  match b.dial with
  | some err => ⟨[.dial], some err⟩
  | none =>
    match b.readPartitions with
    | .error err => ⟨[.dial, .readPartitions, .close], some err⟩
    | .ok partitions =>
      match b.controller with
      | some err => ⟨[.dial, .readPartitions, .controller, .close], some err⟩
      | none =>
        match b.dialController with
        | some err => ⟨[.dial, .readPartitions, .controller, .dialController, .close], some err⟩
        | none =>
          let loop := createMissing partitions b.createTopics requiredTopics
          ⟨[.dial, .readPartitions, .controller, .dialController] ++ loop.1 ++
              [.closeController, .close], loop.2⟩

/-- The topic-creation calls among the operations of a run, in order. -/
def ProvisionRun.creations (r : ProvisionRun) : List TopicConfig :=
  r.ops.filterMap fun op =>
    match op with
    | .createTopics config => some config
    | _ => none

/-- What `ConnectWithRetry` does, in order: an attempt (a run of
`EnsureTopicsExist`) or a `time.Sleep` of so many seconds. -/
inductive RetryEvent where
  | attempt (i : Nat) (run : ProvisionRun)
  | sleep (seconds : Nat)
  deriving DecidableEq, Repr

/-- The loop `for i := 0; i < maxRetries; i++` of `ConnectWithRetry` with
`remaining` iterations left; `broker i` is how the broker answers attempt
`i`. -/
def retryLoop (broker : Nat → ProvisionBroker) : Nat → Nat → List RetryEvent
  | 0, _ => []
  | remaining + 1, i =>
    let run := EnsureTopicsExist (broker i)
    if run.err = none then [.attempt i run]
    else .attempt i run :: .sleep 5 :: retryLoop broker remaining (i + 1)

/-- Function `ConnectWithRetry`; it has no result. -/
def ConnectWithRetry (broker : Nat → ProvisionBroker) (maxRetries : Int) : List RetryEvent :=
  retryLoop broker maxRetries.toNat 0

/-- The goroutine of `InitKafkaTopics`. -/
def InitKafkaTopics (broker : Nat → ProvisionBroker) : List RetryEvent :=
  ConnectWithRetry broker 10

/-- The attempts among the events. -/
def attempts (events : List RetryEvent) : List Nat :=
  events.filterMap fun e =>
    match e with
    | .attempt i _ => some i
    | .sleep _ => none

/-- The events of `k` failed attempts, each followed by its sleep. -/
def failedAttempts (broker : Nat → ProvisionBroker) (start : Nat) : Nat → List RetryEvent
  | 0 => []
  | k + 1 =>
    .attempt start (EnsureTopicsExist (broker start)) :: .sleep 5 ::
      failedAttempts broker (start + 1) k

/-! ## The gateway route handler (`api-gateway/proxy/routes.go`) -/

/-- Go `hex.EncodeToString(src)`. -/
def hexEncode : List Nat → GoString
  | [] => []
  | b :: rest => hexDigit (b / 16) :: hexDigit (b % 16) :: hexEncode rest

/-- Function `generateRequestID`; `random` is the 16 bytes `rand.Read` put
into the buffer. -/
def generateRequestID (random : List Nat) : GoString := hexEncode random

/-- Go `strings.Join(elems, sep)`. -/
def Join : List GoString → GoString → GoString
  | [], _ => []
  | [a], _ => a
  | a :: b :: rest, sep => a ++ sep ++ Join (b :: rest) sep

/-- What `handleRequest` reads of the `*gin.Context`: the route parameters
`service` and `path`, the method and header of the request, and what
`io.ReadAll(c.Request.Body)` returns (`none` is a read error). -/
structure InboundRequest where
  service : GoString
  path : GoString
  Method : GoString
  Header : List (GoString × List GoString)
  Body : Option (List Nat)
  deriving DecidableEq, Repr

/-- What `handleRequest` writes to the `*gin.Context`: `c.JSON` with a status
code and an object whose one field `error` holds a text, `c.Header(key, value)`
and `c.Data(code, contentType, data)`. -/
inductive GinCall where
  | JSON (code : Int) (errorText : GoString)
  | Header (key value : GoString)
  | Data (code : Int) (contentType : GoString) (data : GoBytes)
  deriving DecidableEq, Repr

/-- One call of `handleRequest`: the broker operations and the writes to the
context, in order. -/
structure GatewayRun where
  ops : List BrokerOp
  calls : List GinCall
  deriving DecidableEq, Repr

/-- The text `err.Error()` of an error of `SendKafkaRequest`; `brokerText` is
the text of the wrapped broker error, and the deadline of the context reads
"context deadline exceeded". -/
def SendError.Error (brokerText : GoString) : SendError → GoString
  | .unknownService service => (SendError.unknownService service).message
  | .unknownResponseTopic service => (SendError.unknownResponseTopic service).message
  | .write => SendError.write.message ++ brokerText
  | .read .deadlineExceeded =>
    (SendError.read .deadlineExceeded).message ++ str "context deadline exceeded"
  | .read .transport => (SendError.read .transport).message ++ brokerText

/-- The envelope `handleRequest` builds: the values of each header joined with
a comma. -/
def gatewayRequest (random : List Nat) (c : InboundRequest) (body : List Nat) : KafkaRequest :=
  { RequestID := generateRequestID random
    Method := c.Method
    Path := c.path
    Headers := some (c.Header.foldl (fun m kv => setEntry kv.1 (Join kv.2 (str ",")) m) [])
    Body := some body
    ServicePath := str "/" ++ c.service ++ c.path }

/-- Go `resp.Headers[key]`: the zero value when the key is absent. -/
def GoMap.get (m : GoMap) (key : GoString) : GoString := (m.entries.lookup key).getD []

/-- Function `handleRequest`.  `writeOk` and `stream` are the broker's answers
to `SendKafkaRequest`, `brokerText` the text of a broker error; the response
headers are visited in the order of the entries. -/
def handleRequest (writeOk : Bool) (stream : List ReadResult) (brokerText : GoString)
    (random : List Nat) (c : InboundRequest) : GatewayRun :=
  match c.Body with
  | none => ⟨[], [.JSON 500 (str "Failed to read request body")]⟩
  | some body =>
    let req := gatewayRequest random c body
    let run := SendKafkaRequest writeOk stream c.service req
    match run.result with
    | .error err =>
      ⟨run.ops, [.JSON 502 (str "Service communication error: " ++ err.Error brokerText)]⟩
    | .ok resp =>
      ⟨run.ops, (resp.Headers.entries.map fun kv => GinCall.Header kv.1 kv.2) ++
        [.Data resp.StatusCode (resp.Headers.get (str "Content-Type")) resp.Body]⟩

/-- A read that does not answer the request `requestID`: a message that does
not unmarshal as a response or carries another request id. -/
def ReadResult.noMatch (requestID : GoString) : ReadResult → Bool
  | .failure _ => false
  | .message value =>
    match UnmarshalResponse value with
    | none => true
    | some resp => decide (resp.RequestID ≠ requestID)

/-! ## Broker resources of a call -/

/-- The writers and readers that a sequence of broker operations leaves open:
`newWriter` and `newReader` open one, `closeWriter` and `closeReader` close the
one last opened on that topic; `opened` holds the open ones, last first. -/
def stillOpen : List BrokerOp → List BrokerOp → List BrokerOp
  | [], opened => opened
  | .newWriter topic :: rest, opened => stillOpen rest (.newWriter topic :: opened)
  | .newReader topic :: rest, opened => stillOpen rest (.newReader topic :: opened)
  | .closeWriter topic :: rest, opened => stillOpen rest (opened.erase (.newWriter topic))
  | .closeReader topic :: rest, opened => stillOpen rest (opened.erase (.newReader topic))
  | _ :: rest, opened => stillOpen rest opened

/-- The characters of a lower-case hexadecimal text: `0` to `9`, `a` to `f`. -/
def isLowerHex (c : Nat) : Bool :=
  (decide (48 ≤ c) && decide (c ≤ 57)) || (decide (97 ≤ c) && decide (c ≤ 102))

/-! ## The reply gin writes (`gin.Context`, `net/textproto`, `net/http`) -/

/-- The casing loop of Go `textproto.CanonicalMIMEHeaderKey`: a letter at the
start or behind a hyphen is upper case, any other letter lower case. -/
def canonLoop : Bool → GoString → GoString
  | _, [] => []
  | upper, c :: rest =>
    let c1 :=
      if upper = true ∧ 97 ≤ c ∧ c ≤ 122 then c - 32
      else if upper = false ∧ 65 ≤ c ∧ c ≤ 90 then c + 32
      else c
    c1 :: canonLoop (c1 == 45) rest

/-- Go `textproto.CanonicalMIMEHeaderKey(s)`: a key that is not made of token
bytes is returned unchanged. -/
def CanonicalMIMEHeaderKey (s : GoString) : GoString :=
  if s.all isTokenByte then canonLoop true s else s

/-- Go `h.Del(key)` on a header map whose keys are canonical already. -/
def headerDel (h : List (GoString × GoString)) (key : GoString) : List (GoString × GoString) :=
  h.filter fun kv => decide (kv.1 ≠ key)

/-- Go `h.Set(key, value)` on a header map whose keys are canonical already. -/
def headerSet (h : List (GoString × GoString)) (key value : GoString) :
    List (GoString × GoString) :=
  (key, value) :: headerDel h key

/-- The response as the writer of the `*gin.Context` holds it: the status, the
header map (one value per canonical key) and the body written. -/
structure Reply where
  Status : Int
  Header : List (GoString × GoString)
  Body : List Nat
  deriving DecidableEq, Repr

/-- Gin `bodyAllowedForStatus(status)`. -/
def bodyAllowedForStatus (status : Int) : Bool :=
  !(decide (100 ≤ status ∧ status ≤ 199) || status == 204 || status == 304)

/-- Gin `c.Header(key, value)`: an empty value removes the header, any other
value is set under the canonical key. -/
def Reply.header (r : Reply) (key value : GoString) : Reply :=
  if value = [] then { r with Header := headerDel r.Header (CanonicalMIMEHeaderKey key) }
  else { r with Header := headerSet r.Header (CanonicalMIMEHeaderKey key) value }

/-- Gin `writeContentType(w, value)`: the content type is set unless the header
has one. -/
def writeContentType (h : List (GoString × GoString)) (contentType : GoString) :
    List (GoString × GoString) :=
  if (h.lookup (str "Content-Type")).isNone then headerSet h (str "Content-Type") contentType
  else h

/-- Gin `c.Render(code, r)` for a renderer with the given content type and
bytes: `c.Status(code)` keeps the status when `code` is not positive, the
content type is written unless the header has one, and the bytes are written
when `bodyAllowedForStatus(code)`; `withLength` tells whether the renderer
also sets `Content-Length` to the number of bytes before it writes them.  With
a status below 200 or above 999 net/http writes no final response of that
status (an invalid code is a fault, a 1xx code an interim response): `none`. -/
def Reply.render (r : Reply) (code : Int) (contentType : GoString) (data : List Nat)
    (withLength : Bool) : Option Reply :=
  let status := if code > 0 then code else r.Status
  let header := writeContentType r.Header contentType
  if status < 200 ∨ status > 999 then none
  else if bodyAllowedForStatus code then
    some ⟨status,
      if withLength then headerSet header (str "Content-Length") (decimal data.length)
      else header,
      r.Body ++ data⟩
  else some ⟨status, header, r.Body⟩

/-- The effect of one call of `handleRequest` on the writer: `c.JSON` renders
the object with the one field `error`, `c.Data` the bytes given.
`lengthWritten data` tells whether `Data.Render` of the gin in use sets
`Content-Length` for these bytes: the repository pins no gin version, recent
versions set it for the bytes they write, earlier ones leave it alone; the
JSON renderer sets none. -/
def Reply.apply (lengthWritten : List Nat → Bool) (r : Reply) : GinCall → Option Reply
  | .Header key value => some (r.header key value)
  | .Data code contentType data =>
    r.render code contentType (data.getD []) (lengthWritten (data.getD []))
  | .JSON code errorText =>
    r.render code (str "application/json; charset=utf-8")
      (str "\x7b\"error\":" ++ jsonQuote errorText ++ str "\x7d") false

/-- One more call on a writer, unless an earlier one faulted. -/
def Reply.step (lengthWritten : List Nat → Bool) (r : Option Reply) (call : GinCall) :
    Option Reply :=
  r.bind fun r => r.apply lengthWritten call

/-- The reply that a sequence of calls leaves in a fresh writer (status 200, no
header, no body). -/
def reply (lengthWritten : List Nat → Bool) (calls : List GinCall) : Option Reply :=
  calls.foldl (Reply.step lengthWritten) (some ⟨200, [], []⟩)

/-! ## The prescription service (`prescription-service/services/prescription_service.go`) -/

/-- Struct `models.Prescription`, the columns of the table (the `Examination`
it belongs to is never set by the service). -/
structure Prescription where
  ID : Nat
  ExaminationID : Nat
  Medication : GoString
  Dosage : GoString
  Instructions : GoString
  Validated : Bool
  Sent : Bool
  deriving DecidableEq, Repr

/-- The zero value of `models.Prescription`. -/
def Prescription.zero : Prescription := ⟨0, 0, [], [], [], false, false⟩

/-- A table behind `*gorm.DB`: the rows in primary-key order and the last
id the auto-increment handed out. -/
structure Table (α : Type) where
  rows : List α
  seq : Nat
  deriving DecidableEq, Repr

/-- The errors the database answers the statements of one service call with
(`none`: the statement runs); for `first`, an error other than
`gorm.ErrRecordNotFound`. -/
structure DBFaults where
  create : Option GoString
  first : Option GoString
  save : Option GoString
  deriving DecidableEq, Repr

/-- A database that answers every statement. -/
def DBFaults.none : DBFaults := ⟨.none, .none, .none⟩

/-- What a method of `PrescriptionService` leaves and returns: the table, the
prescription and the error (`none` is `nil`). -/
structure PrescriptionRun where
  table : Table Prescription
  prescription : Prescription
  err : Option GoString
  deriving DecidableEq, Repr

/-- Gorm `db.Save(&prescription)` on a row read before: every column of the
row with that id is written; a row that is not there is inserted. -/
def savePrescription (t : Table Prescription) (p : Prescription) : Table Prescription :=
  if t.rows.any (fun q => q.ID == p.ID) then
    { t with rows := t.rows.map fun q => if q.ID = p.ID then p else q }
  else { t with rows := t.rows ++ [p] }

/-- Method `CreatePrescription`: `db.Create` gives the row the next id. -/
def CreatePrescription (faults : DBFaults) (t : Table Prescription) (examinationID : Nat)
    (medication dosage instructions : GoString) : PrescriptionRun :=
  let prescription : Prescription :=
    ⟨0, examinationID, medication, dosage, instructions, false, false⟩
  match faults.create with
  | some e => ⟨t, prescription, some e⟩
  | none =>
    let created := { prescription with ID := t.seq + 1 }
    ⟨⟨t.rows ++ [created], t.seq + 1⟩, created, none⟩

/-- Method `GetPrescriptionByID`: `db.First(&prescription, id)`. -/
def GetPrescriptionByID (faults : DBFaults) (t : Table Prescription) (id : Nat) :
    Prescription × Option GoString :=
  match faults.first with
  | some e => (Prescription.zero, some e)
  | none =>
    match t.rows.find? fun q => q.ID == id with
    | none => (Prescription.zero, some (str "prescription not found"))
    | some prescription => (prescription, none)

/-- The statements of `UpdatePrescription` between the read and the look at
`sent`: a non-empty medication and dosage are taken over, the instructions
always, `validated` when it is not nil. -/
def updatedFields (prescription : Prescription) (medication dosage instructions : GoString)
    (validated : Option Bool) : Prescription :=
  let prescription :=
    if medication ≠ [] then { prescription with Medication := medication } else prescription
  let prescription :=
    if dosage ≠ [] then { prescription with Dosage := dosage } else prescription
  let prescription := { prescription with Instructions := instructions }
  match validated with
  | some v => { prescription with Validated := v }
  | none => prescription

/-- Method `UpdatePrescription`; `validated` and `sent` are the `*bool`
arguments, `none` for nil. -/
def UpdatePrescription (faults : DBFaults) (t : Table Prescription) (id : Nat)
    (medication dosage instructions : GoString) (validated sent : Option Bool) :
    PrescriptionRun :=
  match GetPrescriptionByID faults t id with
  | (_, some e) => ⟨t, Prescription.zero, some e⟩
  | (prescription, none) =>
    let prescription := updatedFields prescription medication dosage instructions validated
    match sent with
    | some s =>
      if s = true ∧ prescription.Validated = false then
        ⟨t, Prescription.zero,
          some (str "cannot mark prescription as sent before it is validated")⟩
      else
        let prescription := { prescription with Sent := s }
        match faults.save with
        | some e => ⟨t, prescription, some e⟩
        | none => ⟨savePrescription t prescription, prescription, none⟩
    | none =>
      match faults.save with
      | some e => ⟨t, prescription, some e⟩
      | none => ⟨savePrescription t prescription, prescription, none⟩

/-- Method `ValidatePrescription`. -/
def ValidatePrescription (faults : DBFaults) (t : Table Prescription) (id : Nat) :
    PrescriptionRun :=
  match GetPrescriptionByID faults t id with
  | (_, some e) => ⟨t, Prescription.zero, some e⟩
  | (prescription, none) =>
    if prescription.Validated = true then ⟨t, prescription, none⟩
    else
      let prescription := { prescription with Validated := true }
      match faults.save with
      | some e => ⟨t, prescription, some e⟩
      | none => ⟨savePrescription t prescription, prescription, none⟩

/-- Method `SendPrescription`. -/
def SendPrescription (faults : DBFaults) (t : Table Prescription) (id : Nat) :
    PrescriptionRun :=
  match GetPrescriptionByID faults t id with
  | (_, some e) => ⟨t, Prescription.zero, some e⟩
  | (prescription, none) =>
    if prescription.Validated = false then
      ⟨t, Prescription.zero, some (str "prescription must be validated before sending")⟩
    else if prescription.Sent = true then ⟨t, prescription, none⟩
    else
      let prescription := { prescription with Sent := true }
      match faults.save with
      | some e => ⟨t, prescription, some e⟩
      | none => ⟨savePrescription t prescription, prescription, none⟩

/-- The business rule on the stored prescriptions: one that is sent is
validated. -/
def SentIsValidated (t : Table Prescription) : Prop :=
  ∀ p ∈ t.rows, p.Sent = true → p.Validated = true

instance (t : Table Prescription) : Decidable (SentIsValidated t) :=
  inferInstanceAs (Decidable (∀ p ∈ t.rows, p.Sent = true → p.Validated = true))

/-! ## The sample service (`sample-service/services/sample_service.go`) -/

/-- Struct `models.Sample`, the columns of the table. -/
structure Sample where
  ID : Nat
  ExaminationID : Nat
  SampleType : GoString
  Result : GoString
  deriving DecidableEq, Repr

/-- The zero value of `models.Sample`. -/
def Sample.zero : Sample := ⟨0, 0, [], []⟩

/-- The two tables `CreateSample` writes. -/
structure SampleDB where
  samples : Table Sample
  prescriptions : Table Prescription
  deriving DecidableEq, Repr

/-- The errors the database answers the statements of one `CreateSample` with
(`none`: the statement runs). -/
structure TxFaults where
  begin : Option GoString
  create : Option GoString
  save : Option GoString
  prescription : Option GoString
  commit : Option GoString
  deriving DecidableEq, Repr

/-- What `CreateSample` leaves and returns. -/
structure SampleRun where
  db : SampleDB
  sample : Sample
  err : Option GoString
  deriving DecidableEq, Repr

/-- Method `evaluateSample`. -/
def evaluateSample (sample : Sample) : GoString :=
  if sample.SampleType = str "blood" then
    str "Blood sample analysis complete. Parameters within normal range."
  else if sample.SampleType = str "urine" then
    str "Urine sample analysis complete. No abnormalities detected."
  else if sample.SampleType = str "tissue" then
    str "Tissue sample analysis complete. No pathological changes observed."
  else sample.SampleType ++ str " sample analyzed. Results appear normal."

/-- The medication, dosage and instructions `generateAutomaticPrescription`
chooses for an evaluation result. -/
def automaticPrescription (evaluationResult : GoString) : GoString × GoString × GoString :=
  if evaluationResult = [] ∨ evaluationResult.length < 10 then
    (str "Generic medication", str "Standard dosage", str "Take as directed")
  else if evaluationResult =
      str "Blood sample analysis complete. Parameters within normal range." then
    (str "Iron supplement", str "One tablet daily", str "Take with food")
  else if evaluationResult = str "Urine sample analysis complete. No abnormalities detected." then
    (str "Vitamin C", str "500mg daily", str "Take with water")
  else (str "General antibiotic", str "One pill twice daily", str "Take for 7 days")

/-- Method `generateAutomaticPrescription`: a `CreatePrescription` on the
transaction; `fault` is the error of its `db.Create`. -/
def generateAutomaticPrescription (fault : Option GoString) (t : Table Prescription)
    (examinationID : Nat) (evaluationResult : GoString) : PrescriptionRun :=
  let (medication, dosage, instructions) := automaticPrescription evaluationResult
  CreatePrescription ⟨fault, none, none⟩ t examinationID medication dosage instructions

/-- Gorm `tx.Save(&sample)` on the row created before. -/
def saveSample (t : Table Sample) (s : Sample) : Table Sample :=
  if t.rows.any (fun q => q.ID == s.ID) then
    { t with rows := t.rows.map fun q => if q.ID = s.ID then s else q }
  else { t with rows := t.rows ++ [s] }

/-- Method `CreateSample`: a rollback and a failed commit leave the database
as it was. -/
def CreateSample (faults : TxFaults) (db : SampleDB) (examinationID : Nat)
    (sampleType result : GoString) : SampleRun :=
  let sample : Sample := ⟨0, examinationID, sampleType, result⟩
  match faults.begin with
  | some e => ⟨db, Sample.zero, some (str "failed to begin transaction: " ++ e)⟩
  | none =>
    match faults.create with
    | some e => ⟨db, Sample.zero, some (str "failed to create sample: " ++ e)⟩
    | none =>
      let sample := { sample with ID := db.samples.seq + 1 }
      let samples : Table Sample := ⟨db.samples.rows ++ [sample], db.samples.seq + 1⟩
      let evaluationResult := evaluateSample sample
      let sample := { sample with Result := evaluationResult }
      match faults.save with
      | some e => ⟨db, Sample.zero, some (str "failed to update sample result: " ++ e)⟩
      | none =>
        let samples := saveSample samples sample
        let generated :=
          generateAutomaticPrescription faults.prescription db.prescriptions examinationID
            evaluationResult
        match generated.err with
        | some e => ⟨db, Sample.zero, some (str "failed to generate prescription: " ++ e)⟩
        | none =>
          match faults.commit with
          | some e => ⟨db, Sample.zero, some (str "failed to commit transaction: " ++ e)⟩
          | none => ⟨⟨samples, generated.table⟩, sample, none⟩

/-! ## The id a handler reads (`*-service/handlers/*_handlers.go`) -/

/-- Gin `c.Param(key)`: the value of the first route parameter with that key,
the empty string when there is none. -/
def GinContext.Param (c : GinContext) (key : GoString) : GoString :=
  (c.Params.lookup key).getD []

/-- The route parameter a handler method starts by parsing, with
`strconv.ParseUint(c.Param(key), 10, 32)` and a 400 answer on error; `none`
for the methods that take no id. -/
def HandlerName.idParam : HandlerName → Option GoString
  | .GetPatient | .UpdatePatient | .DeletePatient => some (str "id")
  | .GetExamination | .UpdateExamination | .DeleteExamination => some (str "id")
  | .GetExaminationsByPatientID => some (str "patientId")
  | .GetSample | .UpdateSample | .DeleteSample => some (str "id")
  | .GetSamplesByExaminationID => some (str "examinationId")
  | _ => none

/-- The first statement of an id-taking handler method on its context: the id
it goes on with, or the error that takes it to its 400 branch. -/
def HandlerName.parsedID (name : HandlerName) (c : GinContext) : Option (Except NumError Nat) :=
  name.idParam.map fun key => ParseUint (c.Param key) 10 32

/-- The segment of the path the dispatcher of a worker parsed for the
parameter `key`: the id segment for `id`, the parent id segment otherwise. -/
def Worker.segmentFor (w : Worker) (req : KafkaRequest) (key : GoString) : GoString :=
  if key = str "id" then w.idStr (routedPath req) else w.parentStr (routedPath req)

/-! ## The handler invocation of a rule, in the words of the specification -/

/-- The handler invocation a rule of the dispatch table stands for in a
worker: the handler method and the context it runs on.  The id rules add the
id segment as parameter `id`, the parent rule adds the parent id segment as
`patientId` (examination service) or `examinationId` (sample service); the
patient service has no parent rule, and no rule means no invocation. -/
def Worker.routeCall (w : Worker) (c : GinContext) (idStr parentStr : GoString) :
    Option RouteKind → Option Call
  | none => none
  | some kind =>
    match w, kind with
    | .patient, .listAll => some ⟨.GetPatients, c⟩
    | .patient, .getByID => some ⟨.GetPatient, ⟨c.Request, c.Params ++ [(str "id", idStr)]⟩⟩
    | .patient, .create => some ⟨.CreatePatient, c⟩
    | .patient, .update => some ⟨.UpdatePatient, ⟨c.Request, c.Params ++ [(str "id", idStr)]⟩⟩
    | .patient, .delete => some ⟨.DeletePatient, ⟨c.Request, c.Params ++ [(str "id", idStr)]⟩⟩
    | .patient, .listByParent => none
    | .examination, .listAll => some ⟨.GetExaminations, c⟩
    | .examination, .getByID =>
      some ⟨.GetExamination, ⟨c.Request, c.Params ++ [(str "id", idStr)]⟩⟩
    | .examination, .create => some ⟨.CreateExamination, c⟩
    | .examination, .update =>
      some ⟨.UpdateExamination, ⟨c.Request, c.Params ++ [(str "id", idStr)]⟩⟩
    | .examination, .delete =>
      some ⟨.DeleteExamination, ⟨c.Request, c.Params ++ [(str "id", idStr)]⟩⟩
    | .examination, .listByParent =>
      some ⟨.GetExaminationsByPatientID,
        ⟨c.Request, c.Params ++ [(str "patientId", parentStr)]⟩⟩
    | .sample, .listAll => some ⟨.GetSamples, c⟩
    | .sample, .getByID => some ⟨.GetSample, ⟨c.Request, c.Params ++ [(str "id", idStr)]⟩⟩
    | .sample, .create => some ⟨.CreateSample, c⟩
    | .sample, .update => some ⟨.UpdateSample, ⟨c.Request, c.Params ++ [(str "id", idStr)]⟩⟩
    | .sample, .delete => some ⟨.DeleteSample, ⟨c.Request, c.Params ++ [(str "id", idStr)]⟩⟩
    | .sample, .listByParent =>
      some ⟨.GetSamplesByExaminationID,
        ⟨c.Request, c.Params ++ [(str "examinationId", parentStr)]⟩⟩

/-! ## Lemmas on the string functions -/

theorem HasPrefix_iff (s pre : GoString) : HasPrefix s pre = true ↔ pre <+: s := by
  simp [HasPrefix]

theorem Index_eq_none_of_not_mem (c : Nat) (sep : GoString) (hc : c ∈ sep) :
    ∀ s : GoString, c ∉ s → Index s sep = none := by
  intro s
  induction s with
  | nil =>
    intro _
    have : HasPrefix [] sep = false := by
      cases sep with
      | nil => simp at hc
      | cons a t => simp [HasPrefix, List.isPrefixOf]
    simp [Index, this]
  | cons a t ih =>
    intro hs
    have h1 : HasPrefix (a :: t) sep = false := by
      rw [Bool.eq_false_iff]
      intro h
      rw [HasPrefix_iff] at h
      exact hs (h.subset hc)
    have h2 : Index t sep = none := ih (fun h => hs (List.mem_cons_of_mem _ h))
    simp [Index, h1, h2]

theorem Index_single_append (c : Nat) (a b : GoString) (ha : c ∉ a) :
    Index (a ++ c :: b) [c] = some a.length := by
  induction a with
  | nil => simp [Index, HasPrefix, List.isPrefixOf]
  | cons x t ih =>
    have hx : x ≠ c := fun h => ha (by simp [h])
    have ht : c ∉ t := fun h => ha (List.mem_cons_of_mem _ h)
    have h1 : HasPrefix (x :: (t ++ c :: b)) [c] = false := by
      simp [HasPrefix, List.isPrefixOf, Ne.symm hx]
    simp [Index, h1, ih ht]

theorem str_slash : str "/" = [47] := by decide

theorem splitLoop_no_sep (c : Nat) (s : GoString) (hs : c ∉ s) (fuel : Nat) :
    splitLoop [c] fuel s = [s] := by
  cases fuel with
  | zero => rfl
  | succ k => simp [splitLoop, Index_eq_none_of_not_mem c [c] (by simp) s hs]

/-- The pieces of `"/" ++ seg ++ rest` start with the empty string and `seg`. -/
theorem Split_slash_head (seg rest : GoString) (hseg : 47 ∉ seg)
    (hrest : rest = [] ∨ ∃ r, rest = 47 :: r) :
    ∃ tl, Split (47 :: (seg ++ rest)) (str "/") = [] :: seg :: tl := by
  have h0 : Index (47 :: (seg ++ rest)) [47] = some 0 := by
    simp [Index, HasPrefix, List.isPrefixOf]
  rw [str_slash]
  unfold Split
  simp only [List.length_cons, splitLoop, h0]
  rcases hrest with h | ⟨r, h⟩
  · subst h
    refine ⟨[], ?_⟩
    simp [splitLoop_no_sep 47 seg hseg]
  · subst h
    refine ⟨splitLoop [47] (seg.length + r.length) r, ?_⟩
    have h1 : Index (seg ++ 47 :: r) [47] = some seg.length := Index_single_append 47 seg r hseg
    have h2 : (seg ++ 47 :: r).length = (seg.length + r.length) + 1 := by
      simp; omega
    simp only [List.take_zero, List.length_singleton, Nat.zero_add, List.drop_succ_cons,
      List.drop_zero, h2, splitLoop, h1]
    simp [h1]

theorem decimalLoop_acc (fuel : Nat) : ∀ (n : Nat) (acc : GoString),
    decimalLoop fuel n acc = decimalLoop fuel n [] ++ acc := by
  induction fuel with
  | zero => intro n acc; simp [decimalLoop]
  | succ k ih =>
    intro n acc
    by_cases h : n < 10
    · simp [decimalLoop, h]
    · simp only [decimalLoop, h, if_false]
      rw [ih (n / 10) ((48 + n % 10) :: acc), ih (n / 10) [48 + n % 10]]
      simp

theorem decimalLoop_fuel (f1 : Nat) : ∀ (f2 n : Nat), n < f1 → n < f2 →
    decimalLoop f1 n [] = decimalLoop f2 n [] := by
  induction f1 with
  | zero => intro f2 n h; omega
  | succ k ih =>
    intro f2 n h1 h2
    cases f2 with
    | zero => omega
    | succ k2 =>
      by_cases h : n < 10
      · simp [decimalLoop, h]
      · simp only [decimalLoop, h, if_false]
        rw [decimalLoop_acc k, decimalLoop_acc k2, ih k2 (n / 10) (by omega) (by omega)]

theorem decimal_lt_ten (n : Nat) (h : n < 10) : decimal n = [48 + n] := by
  simp [decimal, decimalLoop, h]

theorem decimal_ge_ten (n : Nat) (h : 10 ≤ n) :
    decimal n = decimal (n / 10) ++ [48 + n % 10] := by
  have h' : ¬ n < 10 := by omega
  have e : decimalLoop (n + 1) n [] = decimalLoop n (n / 10) [48 + n % 10] := by
    simp only [decimalLoop, h', if_false]
  unfold decimal
  rw [e, decimalLoop_acc, decimalLoop_fuel n (n / 10 + 1) (n / 10) (by omega) (by omega)]

theorem decimal_ne_nil (n : Nat) : decimal n ≠ [] := by
  by_cases h : n < 10
  · simp [decimal_lt_ten n h]
  · rw [decimal_ge_ten n (by omega)]; simp

theorem decimal_digits (n : Nat) : ∀ b ∈ decimal n, 48 ≤ b ∧ b ≤ 57 := by
  induction n using Nat.strong_induction_on with
  | _ n ih =>
    by_cases h : n < 10
    · rw [decimal_lt_ten n h]; intro b hb; simp at hb; omega
    · rw [decimal_ge_ten n (by omega)]
      intro b hb
      rcases List.mem_append.1 hb with hb | hb
      · exact ih (n / 10) (by omega) b hb
      · simp at hb; omega

theorem parseUintLoop_digit (n d : Nat) (cs : GoString) (hd : d < 10)
    (hn : n * 10 + d < 2 ^ 32) :
    parseUintLoop 10 32 n ((48 + d) :: cs) = parseUintLoop 10 32 (n * 10 + d) cs := by
  have h1 : 48 ≤ 48 + d ∧ 48 + d ≤ 57 := by omega
  have h2 : ¬ (n ≥ (2 ^ 64 - 1) / 10 + 1) := by norm_num at hn ⊢; omega
  have h3 : n * 10 % 2 ^ 64 = n * 10 := Nat.mod_eq_of_lt (by norm_num at hn ⊢; omega)
  have h4 : (n * 10 + d) % 2 ^ 64 = n * 10 + d := Nat.mod_eq_of_lt (by norm_num at hn ⊢; omega)
  have h5 : ¬ (n * 10 + d < n * 10 ∨ n * 10 + d > 2 ^ 32 - 1) := by norm_num at hn ⊢; omega
  have h6 : ¬ (d ≥ 10) := by omega
  simp only [parseUintLoop, h1, and_self, if_true, Nat.add_sub_cancel_left, h6, if_false, h2, h3,
    h4, h5]

theorem parseUintLoop_decimal (n : Nat) : n < 2 ^ 32 → ∀ cs : GoString,
    parseUintLoop 10 32 0 (decimal n ++ cs) = parseUintLoop 10 32 n cs := by
  induction n using Nat.strong_induction_on with
  | _ n ih =>
    intro hn cs
    by_cases h : n < 10
    · rw [decimal_lt_ten n h]
      have := parseUintLoop_digit 0 n cs h (by norm_num at hn ⊢; omega)
      simpa using this
    · rw [decimal_ge_ten n (by omega), List.append_assoc]
      have h10 : n / 10 < 2 ^ 32 := lt_of_le_of_lt (Nat.div_le_self n 10) hn
      rw [List.singleton_append, ih (n / 10) (by omega) h10,
        parseUintLoop_digit (n / 10) (n % 10) cs (by omega) (by omega)]
      congr 1
      omega

/-- Parsing the decimal form of `n` gives `n` back, for any `n` below `2^32`. -/
theorem ParseUint_decimal (n : Nat) (hn : n < 2 ^ 32) : ParseUint (decimal n) 10 32 = .ok n := by
  have := parseUintLoop_decimal n hn []
  simp only [List.append_nil] at this
  simp [ParseUint, decimal_ne_nil, this, parseUintLoop]

theorem unescapeOk_of_no_percent : ∀ s : GoString, 37 ∉ s → unescapeOk s = true := by
  intro s
  induction s with
  | nil => intro _; rfl
  | cons c t ih =>
    intro h
    have hc : c ≠ 37 := fun e => h (by simp [e])
    have ht : 37 ∉ t := fun e => h (List.mem_cons_of_mem _ e)
    unfold unescapeOk
    simp only [hc, if_false]
    exact ih ht

theorem Cut_of_not_mem (c : Nat) (s : GoString) (h : c ∉ s) : Cut s [c] = (s, []) := by
  simp [Cut, Index_eq_none_of_not_mem c [c] (by simp) s h]

/-- A path `/x...` of plain bytes that does not start with `//` parses as a
URL, whatever the authority check. -/
theorem urlParseOk_of_plain (f : GoString → Bool) (x : GoString)
    (hx : ∀ y, x ≠ 47 :: y) (hp : PlainPath (47 :: x)) : urlParseOk f (47 :: x) = true := by
  have h35 : 35 ∉ (47 :: x) := fun h => (hp 35 h).2.2.1 rfl
  have h63 : 63 ∉ (47 :: x) := fun h => (hp 63 h).2.2.2.1 rfl
  have h37 : 37 ∉ (47 :: x) := fun h => (hp 37 h).2.2.2.2 rfl
  have hctl : stringContainsCTLByte (47 :: x) = false := by
    rw [Bool.eq_false_iff]
    intro h
    simp only [stringContainsCTLByte, List.any_eq_true, Bool.or_eq_true, decide_eq_true_eq,
      beq_iff_eq] at h
    obtain ⟨b, hb, h⟩ := h
    have := hp b hb
    omega
  have hstar : (47 :: x) ≠ str "*" := by
    intro h
    have : str "*" = [42] := by decide
    rw [this] at h
    simp at h
  have hsch : getScheme (47 :: x) = some ([], 47 :: x) := by
    simp [getScheme, getSchemeLoop]
  have hq : str "?" = [63] := by decide
  have hsuf : HasSuffix (47 :: x) [63] = false := by
    rw [Bool.eq_false_iff]
    intro h
    simp only [HasSuffix, List.isSuffixOf_iff_suffix] at h
    exact h63 (h.subset (by simp))
  have hs1 : str "/" = [47] := by decide
  have hs2 : str "//" = [47, 47] := by decide
  have hpre1 : HasPrefix (47 :: x) [47] = true := by
    simp [HasPrefix, List.isPrefixOf]
  have hpre2 : HasPrefix (47 :: x) [47, 47] = false := by
    rw [Bool.eq_false_iff]
    intro h
    cases x with
    | nil => simp [HasPrefix, List.isPrefixOf] at h
    | cons a y =>
      simp [HasPrefix, List.isPrefixOf] at h
      exact hx y (by rw [h])
  have hh : str "#" = [35] := by decide
  simp only [urlParseOk, hh, Cut_of_not_mem 35 _ h35, parseOk, hctl, hstar, hsch, hq, hs1, hs2,
    hsuf, Cut_of_not_mem 63 _ h63]
  simp [hpre1, hpre2, unescapeOk_of_no_percent _ h37]

theorem validMethod_GET : validMethod (str "GET") = true := by decide

/-- The mock context of a `GET` on a plain path is built with its request. -/
theorem createMockGinContext_GET_plain (f : GoString → Bool) (req : KafkaRequest) (x : GoString)
    (hm : req.Method = str "GET") (hpath : req.Path = 47 :: x)
    (hx : ∀ y, x ≠ 47 :: y) (hp : PlainPath (47 :: x)) :
    createMockGinContext f req =
      some { Request := some ⟨str "GET", 47 :: x, req.Headers.entries, req.Body⟩, Params := [] } := by
  have hne : str "GET" ≠ [] := by decide
  simp [createMockGinContext, NewRequest, hm, hpath, hne, validMethod_GET,
    urlParseOk_of_plain f x hx hp]

theorem plainPath_slash_decimal (n : Nat) : PlainPath (47 :: decimal n) := by
  intro b hb
  rcases List.mem_cons.1 hb with h | h
  · subst h; decide
  · have := decimal_digits n b h
    omega

theorem decimal_not_slash_head (n : Nat) : ∀ y, decimal n ≠ 47 :: y := by
  intro y h
  have := decimal_digits n 47 (by rw [h]; simp)
  omega

theorem slash_not_mem_decimal (n : Nat) : 47 ∉ decimal n := by
  intro h
  have := decimal_digits n 47 h
  omega

theorem Contains_eq_false_of_not_mem (c : Nat) (sep s : GoString) (hc : c ∈ sep) (hs : c ∉ s) :
    Contains s sep = false := by
  simp [Contains, Index_eq_none_of_not_mem c sep hc s hs]

theorem patient_extractID_head (seg rest : GoString) (hseg : 47 ∉ seg)
    (hrest : rest = [] ∨ ∃ r, rest = 47 :: r) :
    PatientService.extractIDFromPath (47 :: (seg ++ rest)) = seg := by
  obtain ⟨tl, h⟩ := Split_slash_head seg rest hseg hrest
  simp [PatientService.extractIDFromPath, h]

theorem sample_extractID_head (seg rest : GoString) (hseg : 47 ∉ seg)
    (hrest : rest = [] ∨ ∃ r, rest = 47 :: r) :
    SampleService.extractIDFromPath (47 :: (seg ++ rest)) = seg := by
  obtain ⟨tl, h⟩ := Split_slash_head seg rest hseg hrest
  simp [SampleService.extractIDFromPath, h]

theorem examination_extractID_head (seg rest : GoString) (hseg : 47 ∉ seg)
    (hrest : rest = [] ∨ ∃ r, rest = 47 :: r) (hpat : Contains seg (str "patient") = false) :
    ExaminationService.extractIDFromPath (47 :: (seg ++ rest)) = seg := by
  obtain ⟨tl, h⟩ := Split_slash_head seg rest hseg hrest
  simp [ExaminationService.extractIDFromPath, h, hpat]

theorem parseID_decimal (n : Nat) (hn : n < 2 ^ 32) : parseID (decimal n) = .ok n := by
  simp [parseID, decimal_ne_nil, ParseUint_decimal n hn]

theorem parseID_nil : parseID [] = .ok 0 := by simp [parseID]

/-- The dispatch of `GET /n` by the three workers, in terms of `serve`. -/
theorem get_by_id_serve (f : GoString → Bool) (h : Handlers) (req : KafkaRequest) (n : Nat)
    (h1 : 1 ≤ n) (h2 : n ≤ 4294967295) (hm : req.Method = str "GET")
    (hp : req.Path = str "/" ++ decimal n) :
    PatientService.handleKafkaRequest f h req =
        serve h req .GetPatient
          ⟨some ⟨str "GET", req.Path, req.Headers.entries, req.Body⟩, [(str "id", decimal n)]⟩ ∧
      ExaminationService.handleKafkaRequest f h req =
        serve h req .GetExamination
          ⟨some ⟨str "GET", req.Path, req.Headers.entries, req.Body⟩, [(str "id", decimal n)]⟩ ∧
      SampleService.handleKafkaRequest f h req =
        serve h req .GetSample
          ⟨some ⟨str "GET", req.Path, req.Headers.entries, req.Body⟩, [(str "id", decimal n)]⟩ ∧
      ParseUint (decimal n) 10 32 = .ok n := by
  have hn : n < 2 ^ 32 := by norm_num; omega
  rw [str_slash, List.singleton_append] at hp
  have hctx := createMockGinContext_GET_plain f req (decimal n) hm hp (decimal_not_slash_head n)
    (plainPath_slash_decimal n)
  have hne : (47 :: decimal n) ≠ [] := by simp
  have hroot : (47 :: decimal n) ≠ str "/" := by
    rw [str_slash]; simp [decimal_ne_nil]
  have hpos : n > 0 := by omega
  have hP := patient_extractID_head (decimal n) [] (slash_not_mem_decimal n) (Or.inl rfl)
  have hS := sample_extractID_head (decimal n) [] (slash_not_mem_decimal n) (Or.inl rfl)
  have hnp : 112 ∉ decimal n := fun h => by have := decimal_digits n 112 h; omega
  have hne' : 101 ∉ decimal n := fun h => by have := decimal_digits n 101 h; omega
  have hE := examination_extractID_head (decimal n) [] (slash_not_mem_decimal n)
    (Or.inl rfl) (Contains_eq_false_of_not_mem 112 _ _ (by decide) hnp)
  have hEp : ExaminationService.extractPatientIDFromPath (47 :: decimal n) = [] := by
    have : Contains (47 :: decimal n) (str "/patient/") = false :=
      Contains_eq_false_of_not_mem 112 _ _ (by decide) (by simp [hnp])
    simp [ExaminationService.extractPatientIDFromPath, this]
  have hSe : SampleService.extractExaminationIDFromPath (47 :: decimal n) = [] := by
    have : Contains (47 :: decimal n) (str "/examination/") = false :=
      Contains_eq_false_of_not_mem 101 _ _ (by decide) (by simp [hne'])
    simp [SampleService.extractExaminationIDFromPath, this]
  simp only [List.append_nil] at hP hS hE
  refine ⟨?_, ?_, ?_, ParseUint_decimal n hn⟩
  · simp only [PatientService.handleKafkaRequest, hctx, hp, hne, if_false, hP, parseID_decimal n hn,
      hm, hroot, and_false, true_and, hpos, if_true, addParam, List.nil_append]
  · simp only [ExaminationService.handleKafkaRequest, hctx, hp, hne, if_false, hE, hEp, parseID_nil,
      parseID_decimal n hn, hm, hroot, and_false, true_and, hpos, if_true, addParam,
      List.nil_append]
  · simp only [SampleService.handleKafkaRequest, hctx, hp, hne, if_false, hS, hSe, parseID_nil,
      parseID_decimal n hn, hm, hroot, and_false, true_and, hpos, if_true, addParam,
      List.nil_append]

/-! ## The dispatchers -/

theorem verbs_distinct :
    str "GET" ≠ str "POST" ∧ str "GET" ≠ str "PUT" ∧ str "GET" ≠ str "DELETE" ∧
      str "POST" ≠ str "PUT" ∧ str "POST" ≠ str "DELETE" ∧ str "PUT" ≠ str "DELETE" := by
  decide

theorem firstMatch_eq (m p : GoString) (id par : Nat) :
    firstMatch m p id par =
      if m = str "GET" ∧ (p = str "/" ∨ p = []) then some .listAll
      else if m = str "GET" ∧ id > 0 then some .getByID
      else if m = str "POST" ∧ (p = str "/" ∨ p = []) then some .create
      else if m = str "PUT" ∧ id > 0 then some .update
      else if m = str "DELETE" ∧ id > 0 then some .delete
      else if m = str "GET" ∧ par > 0 then some .listByParent
      else none := by
  have e1 : (m = str "GET" ∧ (p = str "/" ∨ p = [])) ↔
      (m == str "GET" && (p == str "/" || p == [])) = true := by simp
  have e2 : (m = str "GET" ∧ id > 0) ↔ (m == str "GET" && decide (id > 0)) = true := by simp
  have e3 : (m = str "POST" ∧ (p = str "/" ∨ p = [])) ↔
      (m == str "POST" && (p == str "/" || p == [])) = true := by simp
  have e4 : (m = str "PUT" ∧ id > 0) ↔ (m == str "PUT" && decide (id > 0)) = true := by simp
  have e5 : (m = str "DELETE" ∧ id > 0) ↔ (m == str "DELETE" && decide (id > 0)) = true := by
    simp
  have e6 : (m = str "GET" ∧ par > 0) ↔ (m == str "GET" && decide (par > 0)) = true := by simp
  simp only [firstMatch, orderedRules, List.find?, ruleMatches, e1, e2, e3, e4, e5, e6]
  generalize (m == str "GET" && (p == str "/" || p == [])) = b1
  generalize (m == str "GET" && decide (id > 0)) = b2
  generalize (m == str "POST" && (p == str "/" || p == [])) = b3
  generalize (m == str "PUT" && decide (id > 0)) = b4
  generalize (m == str "DELETE" && decide (id > 0)) = b5
  generalize (m == str "GET" && decide (par > 0)) = b6
  cases b1 <;> cases b2 <;> cases b3 <;> cases b4 <;> cases b5 <;> cases b6 <;> rfl

theorem routedPath_eq_root (req : KafkaRequest) :
    (if req.Path = [] then str "/" else req.Path) = str "/" ↔
      (req.Path = str "/" ∨ req.Path = []) := by
  by_cases h : req.Path = []
  · simp [h]
  · simp [h]

/-- Once the mock context is built and the id segment parses, the patient
dispatcher runs the first matching rule of the ordered list. -/
theorem patient_route (f : GoString → Bool) (h : Handlers)
    (req : KafkaRequest) (c : GinContext) (id : Nat)
    (hc : createMockGinContext f req = some c)
    (hid : parseID (PatientService.extractIDFromPath (routedPath req)) = .ok id) :
    PatientService.handleKafkaRequest f h req =
      PatientService.routeRun h req c (PatientService.extractIDFromPath (routedPath req))
        (firstMatch req.Method req.Path id 0) := by
  unfold routedPath at hid
  simp only [PatientService.handleKafkaRequest, hc, hid, firstMatch_eq, routedPath,
    routedPath_eq_root, Nat.lt_irrefl, gt_iff_lt, and_false, if_false]
  split_ifs <;> simp only [PatientService.routeRun, notFound]

/-- The same for the examination dispatcher, once the patient id parses too. -/
theorem examination_route (f : GoString → Bool) (h : Handlers)
    (req : KafkaRequest) (c : GinContext) (id pid : Nat)
    (hc : createMockGinContext f req = some c)
    (hid : parseID (ExaminationService.extractIDFromPath (routedPath req)) = .ok id)
    (hpid : parseID (ExaminationService.extractPatientIDFromPath (routedPath req)) = .ok pid) :
    ExaminationService.handleKafkaRequest f h req =
      ExaminationService.routeRun h req c (ExaminationService.extractIDFromPath (routedPath req))
        (ExaminationService.extractPatientIDFromPath (routedPath req))
        (firstMatch req.Method req.Path id pid) := by
  unfold routedPath at hid hpid
  simp only [ExaminationService.handleKafkaRequest, hc, hid, hpid, firstMatch_eq, routedPath,
    routedPath_eq_root, gt_iff_lt]
  split_ifs <;> simp only [ExaminationService.routeRun, notFound]

/-- The same for the sample dispatcher, once the examination id parses too. -/
theorem sample_route (f : GoString → Bool) (h : Handlers)
    (req : KafkaRequest) (c : GinContext) (id pid : Nat)
    (hc : createMockGinContext f req = some c)
    (hid : parseID (SampleService.extractIDFromPath (routedPath req)) = .ok id)
    (hpid : parseID (SampleService.extractExaminationIDFromPath (routedPath req)) = .ok pid) :
    SampleService.handleKafkaRequest f h req =
      SampleService.routeRun h req c (SampleService.extractIDFromPath (routedPath req))
        (SampleService.extractExaminationIDFromPath (routedPath req))
        (firstMatch req.Method req.Path id pid) := by
  unfold routedPath at hid hpid
  simp only [SampleService.handleKafkaRequest, hc, hid, hpid, firstMatch_eq, routedPath,
    routedPath_eq_root, gt_iff_lt]
  split_ifs <;> simp only [SampleService.routeRun, notFound]

theorem serve_result_id (h : Handlers) (req : KafkaRequest) (n : HandlerName) (c : GinContext)
    (resp : KafkaResponse) (hr : (serve h req n c).result = some resp) :
    resp.RequestID = req.RequestID := by
  simp only [serve, Option.map_eq_some'] at hr
  obtain ⟨w, _, rfl⟩ := hr
  rfl

theorem error_result_id (req : KafkaRequest) (code : Int) (msg : GoString) (resp : KafkaResponse)
    (calls : List Call)
    (hr : (Run.mk calls (some (createErrorResponse req.RequestID code msg))).result = some resp) :
    resp.RequestID = req.RequestID := by
  simp only [Option.some.injEq] at hr
  subst hr
  rfl

/-- C5: whatever response `handleKafkaRequest` of the patient, examination or
sample service returns for a request, on a routed handler as on the
synthesized 400 and 404 responses, carries the request's `RequestID`. -/
theorem response_keeps_request_id (f : GoString → Bool) (h : Handlers) (req : KafkaRequest)
    (resp : KafkaResponse)
    (hr : (PatientService.handleKafkaRequest f h req).result = some resp ∨
      (ExaminationService.handleKafkaRequest f h req).result = some resp ∨
      (SampleService.handleKafkaRequest f h req).result = some resp) :
    resp.RequestID = req.RequestID := by
  rcases hr with hr | hr | hr
  · unfold PatientService.handleKafkaRequest at hr
    split at hr
    · simp at hr
    · dsimp only at hr
      split at hr
      · exact error_result_id req _ _ resp _ hr
      · split_ifs at hr
        all_goals first
          | exact serve_result_id _ _ _ _ _ hr
          | exact error_result_id req _ _ resp _ hr
  · unfold ExaminationService.handleKafkaRequest at hr
    split at hr
    · simp at hr
    · dsimp only at hr
      split at hr
      · exact error_result_id req _ _ resp _ hr
      · split at hr
        · exact error_result_id req _ _ resp _ hr
        · split_ifs at hr
          all_goals first
            | exact serve_result_id _ _ _ _ _ hr
            | exact error_result_id req _ _ resp _ hr
  · unfold SampleService.handleKafkaRequest at hr
    split at hr
    · simp at hr
    · dsimp only at hr
      split at hr
      · exact error_result_id req _ _ resp _ hr
      · split at hr
        · exact error_result_id req _ _ resp _ hr
        · split_ifs at hr
          all_goals first
            | exact serve_result_id _ _ _ _ _ hr
            | exact error_result_id req _ _ resp _ hr

/-- C5 on a routed handler: `GET /42` at the patient service, handler
answering 200. -/
theorem response_keeps_request_id_witness :
    ((PatientService.handleKafkaRequest (fun _ => true)
          (fun _ _ => some ⟨200, str "application/json", some (str "[]")⟩)
          ⟨str "ab12", str "GET", str "/42", none, none, []⟩).result =
        some ⟨str "ab12", 200, some [(str "Content-Type", str "application/json")],
          some (str "[]")⟩ ∨
      (ExaminationService.handleKafkaRequest (fun _ => true)
          (fun _ _ => some ⟨200, str "application/json", some (str "[]")⟩)
          ⟨str "ab12", str "GET", str "/42", none, none, []⟩).result =
        some ⟨str "ab12", 200, some [(str "Content-Type", str "application/json")],
          some (str "[]")⟩ ∨
      (SampleService.handleKafkaRequest (fun _ => true)
          (fun _ _ => some ⟨200, str "application/json", some (str "[]")⟩)
          ⟨str "ab12", str "GET", str "/42", none, none, []⟩).result =
        some ⟨str "ab12", 200, some [(str "Content-Type", str "application/json")],
          some (str "[]")⟩) ∧
      (KafkaResponse.mk (str "ab12") 200 (some [(str "Content-Type", str "application/json")])
          (some (str "[]"))).RequestID =
        (KafkaRequest.mk (str "ab12") (str "GET") (str "/42") none none []).RequestID :=
  ⟨Or.inl (by decide),
    response_keeps_request_id (fun _ => true)
      (fun _ _ => some ⟨200, str "application/json", some (str "[]")⟩)
      ⟨str "ab12", str "GET", str "/42", none, none, []⟩ _ (Or.inl (by decide))⟩

theorem serve_calls_length (h : Handlers) (req : KafkaRequest) (n : HandlerName)
    (c : GinContext) : (serve h req n c).calls.length ≤ 1 := by
  simp [serve]

/-- No run of a dispatcher invokes more than one handler. -/
theorem worker_calls_le_one (w : Worker) (f : GoString → Bool) (h : Handlers)
    (req : KafkaRequest) : (w.handleKafkaRequest f h req).calls.length ≤ 1 := by
  cases w
  · simp only [Worker.handleKafkaRequest, PatientService.handleKafkaRequest]
    split
    · simp
    · split
      · simp
      · split_ifs <;> first | exact serve_calls_length _ _ _ _ | simp
  · simp only [Worker.handleKafkaRequest, ExaminationService.handleKafkaRequest]
    split
    · simp
    · split
      · simp
      · split
        · simp
        · split_ifs <;> first | exact serve_calls_length _ _ _ _ | simp
  · simp only [Worker.handleKafkaRequest, SampleService.handleKafkaRequest]
    split
    · simp
    · split
      · simp
      · split
        · simp
        · split_ifs <;> first | exact serve_calls_length _ _ _ _ | simp

/-- First-match routing of a worker, once the mock context is built and both
id segments parse. -/
theorem worker_route (w : Worker) (f : GoString → Bool) (h : Handlers)
    (req : KafkaRequest) (c : GinContext) (id pid : Nat)
    (hc : createMockGinContext f req = some c)
    (hid : parseID (w.idStr (routedPath req)) = .ok id)
    (hpid : parseID (w.parentStr (routedPath req)) = .ok pid) :
    w.handleKafkaRequest f h req =
      w.routeRun h req c (w.idStr (routedPath req)) (w.parentStr (routedPath req))
        (firstMatch req.Method req.Path id pid) := by
  cases w
  · have : pid = 0 := by
      simp only [Worker.parentStr, parseID_nil] at hpid
      injection hpid with e
      exact e.symm
    subst this
    exact patient_route f h req c id hc hid
  · exact examination_route f h req c id pid hc hid hpid
  · exact sample_route f h req c id pid hc hid hpid

theorem worker_idStr_head (w : Worker) (seg rest : GoString) (hseg : 47 ∉ seg)
    (hrest : rest = [] ∨ ∃ r, rest = 47 :: r)
    (hpat : w = .examination → Contains seg (str "patient") = false) :
    w.idStr (47 :: (seg ++ rest)) = seg := by
  cases w
  · exact patient_extractID_head seg rest hseg hrest
  · exact examination_extractID_head seg rest hseg hrest (hpat rfl)
  · exact sample_extractID_head seg rest hseg hrest

theorem routedPath_cons (req : KafkaRequest) (b : Nat) (t : GoString) (hp : req.Path = b :: t) :
    routedPath req = b :: t := by
  simp [routedPath, hp]

/-- The synthesized 400 response for a bad id segment, outside the fault of
the mock context. -/
theorem worker_bad_id_400 (w : Worker) (f : GoString → Bool) (h : Handlers) (req : KafkaRequest)
    (c : GinContext) (seg rest : GoString) (hc : createMockGinContext f req = some c)
    (hp : req.Path = str "/" ++ seg ++ rest) (hseg : 47 ∉ seg)
    (hrest : rest = [] ∨ ∃ r, rest = str "/" ++ r) (hne : seg ≠ [])
    (hbad : ∀ n, ParseUint seg 10 32 ≠ .ok n)
    (hpat : w = .examination → Contains seg (str "patient") = false) :
    w.handleKafkaRequest f h req =
      ⟨[], some (createErrorResponse req.RequestID 400 (str "Invalid ID format"))⟩ := by
  rw [str_slash, List.singleton_append, List.cons_append] at hp
  simp only [str_slash, List.singleton_append] at hrest
  have hid := worker_idStr_head w seg rest hseg hrest hpat
  have hne' : (47 :: (seg ++ rest)) ≠ [] := List.cons_ne_nil _ _
  have hpe : ∃ e, parseID seg = .error e := by
    simp only [parseID, hne, ne_eq, not_false_eq_true, if_true]
    cases hx : ParseUint seg 10 32 with
    | ok n => exact absurd hx (hbad n)
    | error e => exact ⟨e, rfl⟩
  obtain ⟨e, he⟩ := hpe
  cases w
  · simp only [Worker.idStr] at hid
    simp only [Worker.handleKafkaRequest, PatientService.handleKafkaRequest, hc, hne', if_false,
      hp, hid, he]
  · simp only [Worker.idStr] at hid
    simp only [Worker.handleKafkaRequest, ExaminationService.handleKafkaRequest, hc, hp, hne',
      if_false, hid, he]
  · simp only [Worker.idStr] at hid
    simp only [Worker.handleKafkaRequest, SampleService.handleKafkaRequest, hc, hne', if_false,
      hp, hid, he]

/-- The fields of the synthesized bad-request response. -/
theorem createErrorResponse_invalid_id (rid : GoString) :
    createErrorResponse rid 400 (str "Invalid ID format") =
      ⟨rid, 400, some [(str "Content-Type", str "application/json")],
        some (str "\x7b\"error\":\"Invalid ID format\"\x7d")⟩ := by
  simp only [createErrorResponse, KafkaResponse.mk.injEq, true_and]
  decide

/-- The fields of the synthesized not-found response. -/
theorem createErrorResponse_not_found (rid : GoString) :
    createErrorResponse rid 404 (str "Route not found") =
      ⟨rid, 404, some [(str "Content-Type", str "application/json")],
        some (str "\x7b\"error\":\"Route not found\"\x7d")⟩ := by
  simp only [createErrorResponse, KafkaResponse.mk.injEq, true_and]
  decide

/-- The synthesized 404 response when no rule matches, outside the fault of
the mock context. -/
theorem worker_no_match_404 (w : Worker) (f : GoString → Bool) (h : Handlers)
    (req : KafkaRequest) (c : GinContext) (id pid : Nat)
    (hc : createMockGinContext f req = some c)
    (hid : parseID (w.idStr (routedPath req)) = .ok id)
    (hpid : parseID (w.parentStr (routedPath req)) = .ok pid)
    (hno : firstMatch req.Method req.Path id pid = none) :
    w.handleKafkaRequest f h req =
      ⟨[], some (createErrorResponse req.RequestID 404 (str "Route not found"))⟩ := by
  rw [worker_route w f h req c id pid hc hid hpid, hno]
  cases w <;> rfl

/-- C7: on `GET /%zz` with one header the dispatchers of the patient, sample
and examination service return no response at all: `http.NewRequest` returns
nil for the path, and copying the header onto the nil request faults before
the id segment `%zz` is looked at. -/
theorem bad_id_faults_when_request_unbuildable (f : GoString → Bool) (h : Handlers) :
    PatientService.handleKafkaRequest f h
        ⟨str "ab12", str "GET", str "/%zz", some [(str "Accept", str "*/*")], some [],
          str "/patients/%zz"⟩ = ⟨[], none⟩ ∧
      SampleService.handleKafkaRequest f h
        ⟨str "ab12", str "GET", str "/%zz", some [(str "Accept", str "*/*")], some [],
          str "/samples/%zz"⟩ = ⟨[], none⟩ ∧
      ExaminationService.handleKafkaRequest f h
        ⟨str "ab12", str "GET", str "/%zz", some [(str "Accept", str "*/*")], some [],
          str "/examinations/%zz"⟩ = ⟨[], none⟩ ∧
      Contains (str "%zz") (str "patient") = false ∧
      ParseUint (str "%zz") 10 32 = .error .invalid := by
  refine ⟨?_, ?_, ?_, by decide, by decide⟩ <;> rfl

/-- C8: on `POST /5/%zz` with one header, a request that matches no rule and
whose id segment `5` parses, the dispatchers return no response at all
instead of the 404: the mock request cannot be built and copying the header
onto it faults. -/
theorem no_match_faults_when_request_unbuildable (f : GoString → Bool) (h : Handlers) :
    PatientService.handleKafkaRequest f h
        ⟨str "ab12", str "POST", str "/5/%zz", some [(str "Accept", str "*/*")], some [],
          str "/patients/5/%zz"⟩ = ⟨[], none⟩ ∧
      ExaminationService.handleKafkaRequest f h
        ⟨str "ab12", str "POST", str "/5/%zz", some [(str "Accept", str "*/*")], some [],
          str "/examinations/5/%zz"⟩ = ⟨[], none⟩ ∧
      SampleService.handleKafkaRequest f h
        ⟨str "ab12", str "POST", str "/5/%zz", some [(str "Accept", str "*/*")], some [],
          str "/samples/5/%zz"⟩ = ⟨[], none⟩ ∧
      parseID (PatientService.extractIDFromPath (str "/5/%zz")) = .ok 5 ∧
      firstMatch (str "POST") (str "/5/%zz") 5 0 = none := by
  refine ⟨?_, ?_, ?_, by decide, by decide⟩ <;> rfl

/-- C9 as stated fails: for `GET /7/patient/abc` at the examination service
the first matching rule of the list is get-by-id (verb `GET`, id 7), yet the
dispatcher invokes no handler and answers 400, the patient id `abc` being
parsed before any rule is tried. -/
theorem route_is_first_match_counterexample :
    firstMatch (str "GET") (str "/7/patient/abc")
        (segmentID (Worker.examination.idStr (str "/7/patient/abc")))
        (segmentID (Worker.examination.parentStr (str "/7/patient/abc"))) = some .getByID ∧
      ExaminationService.handleKafkaRequest (fun _ => true) (fun _ _ => none)
        ⟨str "ab12", str "GET", str "/7/patient/abc", none, none, []⟩ =
        ⟨[], some (createErrorResponse (str "ab12") 400 (str "Invalid patient ID format"))⟩ := by
  constructor
  · decide
  · rfl

/-- C10 as stated fails: for `GET /7/42` the patient dispatcher invokes
get-by-id with the first segment `7` as id, not the trailing segment `42`. -/
theorem get_by_id_trailing_counterexample :
    (PatientService.handleKafkaRequest (fun _ => true) (fun _ _ => none)
        ⟨str "ab12", str "GET", str "/7/42", none, none, []⟩).calls =
      [⟨.GetPatient, ⟨some ⟨str "GET", str "/7/42", [], none⟩, [(str "id", decimal 7)]⟩⟩] ∧
      decimal 7 ≠ decimal 42 := by
  constructor
  · rfl
  · decide

/-- The dispatch of a `GET` whose first segment is a positive number, in terms
of `serve`. -/
theorem first_segment_serve (w : Worker) (f : GoString → Bool) (h : Handlers)
    (req : KafkaRequest) (c : GinContext) (n pid : Nat) (rest : GoString)
    (h1 : 1 ≤ n) (h2 : n ≤ 4294967295) (hm : req.Method = str "GET")
    (hp : req.Path = str "/" ++ decimal n ++ rest)
    (hrest : rest = [] ∨ ∃ r, rest = str "/" ++ r)
    (hc : createMockGinContext f req = some c)
    (hpid : parseID (w.parentStr req.Path) = .ok pid) :
    w.handleKafkaRequest f h req =
      serve h req w.getByID (addParam c (str "id") (decimal n)) := by
  have hn : n < 2 ^ 32 := by norm_num; omega
  rw [str_slash, List.singleton_append, List.cons_append] at hp
  simp only [str_slash, List.singleton_append] at hrest
  have hrp := routedPath_cons req _ _ hp
  have hnp : 112 ∉ decimal n := fun h => by have := decimal_digits n 112 h; omega
  have hid : w.idStr (47 :: (decimal n ++ rest)) = decimal n :=
    worker_idStr_head w (decimal n) rest (slash_not_mem_decimal n) hrest
      (fun _ => Contains_eq_false_of_not_mem 112 _ _ (by decide) hnp)
  have hroute := worker_route w f h req c n pid hc
    (by rw [hrp, hid]; exact parseID_decimal n hn) (by rw [hrp, ← hp]; exact hpid)
  have hnotroot : ¬ (req.Path = str "/" ∨ req.Path = []) := by
    rw [hp, str_slash]
    have := decimal_ne_nil n
    simp [this]
  have hfm : firstMatch req.Method req.Path n pid = some .getByID := by
    rw [firstMatch_eq]
    simp only [hm, hnotroot, and_false, if_false, true_and]
    rw [if_pos (by omega)]
  rw [hroute, hfm, hrp, hid]
  cases w <;> rfl

/-! ## The gateway client -/

theorem readLoop_ok_id (responseTopic : GoString) (req : KafkaRequest) (resp : KafkaResponse) :
    ∀ stream : List ReadResult, (readLoop responseTopic req stream).2 = .ok resp →
      resp.RequestID = req.RequestID := by
  intro stream
  induction stream with
  | nil => intro h; simp [readLoop] at h
  | cons r rest ih =>
    intro h
    cases r with
    | failure cause => simp [readLoop] at h
    | message value =>
      simp only [readLoop] at h
      split at h
      · exact ih h
      · split_ifs at h with he
        · injection h with h'
          rw [← h']
          exact he
        · exact ih h

/-- C1: whenever `SendKafkaRequest` returns a response without error, for any
service, any request and any sequence of messages and read failures on the
response topic, the response's `RequestID` equals the request's. -/
theorem send_returns_own_response (writeOk : Bool) (stream : List ReadResult)
    (service : GoString) (req : KafkaRequest) (resp : KafkaResponse)
    (h : (SendKafkaRequest writeOk stream service req).result = .ok resp) :
    resp.RequestID = req.RequestID := by
  unfold SendKafkaRequest at h
  split at h
  · simp at h
  · split at h
    · simp at h
    · split_ifs at h
      exact readLoop_ok_id _ req resp stream h

/-- C1 on a stream that first carries the reply to another request. -/
theorem send_returns_own_response_witness :
    (SendKafkaRequest true
        [.message (MarshalResponse ⟨str "ffff", 200, none, none⟩),
          .message (MarshalResponse ⟨str "ab12", 404, none, some (str "x")⟩)]
        (str "patients") ⟨str "ab12", str "GET", str "/1", none, none, []⟩).result =
        .ok ⟨str "ab12", 404, none, some (str "x")⟩ ∧
      (KafkaResponse.mk (str "ab12") 404 none (some (str "x"))).RequestID =
        (KafkaRequest.mk (str "ab12") (str "GET") (str "/1") none none []).RequestID :=
  ⟨by decide,
    send_returns_own_response true
      [.message (MarshalResponse ⟨str "ffff", 200, none, none⟩),
        .message (MarshalResponse ⟨str "ab12", 404, none, some (str "x")⟩)]
      (str "patients") ⟨str "ab12", str "GET", str "/1", none, none, []⟩ _ (by decide)⟩

theorem lookup_eq_none_of_not_mem (l : List (GoString × GoString)) (k : GoString)
    (h : k ∉ l.map Prod.fst) : l.lookup k = none := by
  induction l with
  | nil => rfl
  | cons a t ih =>
    obtain ⟨k1, v1⟩ := a
    simp only [List.map_cons, List.mem_cons, not_or] at h
    have hne : (k == k1) = false := by simpa using h.1
    simp [List.lookup, hne, ih h.2]

/-- C3: for a service name that is not a key of the table `topics`,
`SendKafkaRequest` returns the error `unknown service: <name>` and performs no
broker operation: no writer, no reader, no publish. -/
theorem unknown_service_fails_fast (writeOk : Bool) (stream : List ReadResult)
    (service : GoString) (req : KafkaRequest) (h : service ∉ topics.map Prod.fst) :
    SendKafkaRequest writeOk stream service req = ⟨[], .error (.unknownService service)⟩ ∧
      (SendError.unknownService service).message = str "unknown service: " ++ service := by
  constructor
  · simp [SendKafkaRequest, lookup_eq_none_of_not_mem topics service h]
  · rfl

/-- C3 for the service name `billing`. -/
theorem unknown_service_fails_fast_witness :
    str "billing" ∉ topics.map Prod.fst ∧
      SendKafkaRequest true [] (str "billing") ⟨str "ab12", str "GET", str "/", none, none, []⟩ =
        ⟨[], .error (.unknownService (str "billing"))⟩ ∧
      (SendError.unknownService (str "billing")).message =
        str "unknown service: " ++ str "billing" :=
  ⟨by decide,
    unknown_service_fails_fast true [] (str "billing")
      ⟨str "ab12", str "GET", str "/", none, none, []⟩ (by decide)⟩

/-- C4: the worker started with the service name `patients` consumes from
`patients-requests` and publishes to `patients-responses`, while the gateway
publishes the requests for `patients` to `patient-requests` and reads the
replies from `patient-responses`; the same holds for `examinations` and
`samples`, so for no worker do the topics agree. -/
theorem worker_and_gateway_topics_differ :
    workerRequestTopic (str "patients") = str "patients-requests" ∧
      topics.lookup (str "patients") = some (str "patient-requests") ∧
      workerResponseTopic (str "patients") = str "patients-responses" ∧
      responseTopics.lookup (str "patients") = some (str "patient-responses") ∧
      ∀ w : Worker, topics.lookup w.serviceName ≠ some (workerRequestTopic w.serviceName) ∧
        responseTopics.lookup w.serviceName ≠ some (workerResponseTopic w.serviceName) := by
  refine ⟨by decide, by decide, by decide, by decide, ?_⟩
  intro w
  cases w <;> decide

/-! ## JSON round trip: UTF-8 -/

theorem leadInfo_cases (s0 sz lo hi : Nat) (h : leadInfo s0 = some (sz, lo, hi)) :
    (sz = 2 ∨ sz = 3 ∨ sz = 4) ∧ 0x80 ≤ lo ∧ hi ≤ 0xBF ∧
      (sz = 2 → 0xC2 ≤ s0 ∧ s0 < 0xE0) ∧
      (sz = 3 → 0xE0 ≤ s0 ∧ s0 < 0xF0 ∧ (s0 = 0xE0 → 0xA0 ≤ lo) ∧ (s0 = 0xED → hi ≤ 0x9F)) ∧
      (sz = 4 → 0xF0 ≤ s0 ∧ s0 ≤ 0xF4 ∧ (s0 = 0xF0 → 0x90 ≤ lo) ∧ (s0 = 0xF4 → hi ≤ 0x8F)) := by
  unfold leadInfo at h
  split_ifs at h
  all_goals
    simp only [Option.some.injEq, Prod.mk.injEq] at h
    obtain ⟨rfl, rfl, rfl⟩ := h
    refine ⟨?_, ?_, ?_, ?_, ?_, ?_⟩ <;> omega

/-- What a successful `DecodeRune` says about the head of the text. -/
theorem DecodeRune_valid (l : List Nat) (r k : Nat) (h : DecodeRune l = (r, k))
    (hv : ¬ (r = RuneError ∧ k = 1)) (hne : l ≠ []) :
    1 ≤ k ∧ k ≤ 4 ∧ k ≤ l.length ∧ EncodeRune r = l.take k ∧
      (∀ x, DecodeRune (l.take k ++ x) = (r, k)) ∧ (k = 1 → r < 0x80) ∧
      (1 < k → 0x80 ≤ r) := by
  have bad : ∀ {P : Prop}, (RuneError, 1) = (r, k) → P := by
    intro P e
    simp only [Prod.mk.injEq] at e
    exact absurd ⟨e.1.symm, e.2.symm⟩ hv
  cases l with
  | nil => exact absurd rfl hne
  | cons s0 t =>
    unfold DecodeRune at h
    by_cases h0 : s0 < 0x80
    · simp only [h0, if_true, Prod.mk.injEq] at h
      obtain ⟨rfl, rfl⟩ := h
      refine ⟨le_refl _, by omega, by simp, by simp [EncodeRune, h0], ?_, fun _ => h0,
        fun hk => by omega⟩
      intro x
      simp [DecodeRune, h0]
    · simp only [h0, if_false] at h
      cases hl : leadInfo s0 with
      | none =>
        simp only [hl] at h
        exact bad h
      | some info =>
        obtain ⟨sz, lo, hi⟩ := info
        simp only [hl] at h
        obtain ⟨hsz, hlo, hhi, c2, c3, c4⟩ := leadInfo_cases s0 sz lo hi hl
        by_cases hlen : t.length + 1 < sz
        · simp only [hlen, if_true] at h
          exact bad h
        simp only [hlen, if_false] at h
        cases t with
        | nil => exact bad h
        | cons s1 t1 =>
          simp only at h
          by_cases hs1 : s1 < lo ∨ hi < s1
          · simp only [hs1, if_true] at h
            exact bad h
          simp only [hs1, if_false] at h
          by_cases hsz2 : sz ≤ 2
          · simp only [hsz2, if_true, Prod.mk.injEq] at h
            obtain ⟨rfl, rfl⟩ := h
            have hsz' : sz = 2 := by omega
            obtain ⟨b1, b2⟩ := c2 hsz'
            refine ⟨by omega, by omega, by simp, ?_, ?_, by omega, fun _ => by omega⟩
            · simp only [EncodeRune, List.take_succ_cons, List.take_zero]
              rw [if_neg (by omega), if_pos (by omega)]
              congr 1
              · omega
              · congr 1
                omega
            · intro x
              simp only [List.take_succ_cons, List.take_zero, List.cons_append, List.nil_append,
                DecodeRune, h0, if_false, hl, hs1, hsz2, if_true, List.length_cons]
              rw [if_neg (by omega)]
          simp only [hsz2, if_false] at h
          cases t1 with
          | nil => exact bad h
          | cons s2 t2 =>
            simp only at h
            by_cases hs2 : s2 < 0x80 ∨ 0xBF < s2
            · simp only [hs2, if_true] at h
              exact bad h
            simp only [hs2, if_false] at h
            by_cases hsz3 : sz ≤ 3
            · simp only [hsz3, if_true, Prod.mk.injEq] at h
              obtain ⟨rfl, rfl⟩ := h
              have hsz' : sz = 3 := by omega
              obtain ⟨b1, b2, b3, b4⟩ := c3 hsz'
              refine ⟨by omega, by omega, by simp, ?_, ?_, by omega, fun _ => by omega⟩
              · simp only [EncodeRune, List.take_succ_cons, List.take_zero, RuneError]
                rw [if_neg (by omega), if_neg (by omega), if_neg (by omega), if_pos (by omega)]
                congr 1
                · omega
                · congr 1
                  · omega
                  · congr 1
                    omega
              · intro x
                simp only [List.take_succ_cons, List.take_zero, List.cons_append,
                  List.nil_append, DecodeRune, h0, if_false, hl, hs1, hsz2, hs2, hsz3, if_true,
                  List.length_cons]
                rw [if_neg (by omega)]
            simp only [hsz3, if_false] at h
            cases t2 with
            | nil => exact bad h
            | cons s3 t3 =>
              simp only at h
              by_cases hs3 : s3 < 0x80 ∨ 0xBF < s3
              · simp only [hs3, if_true] at h
                exact bad h
              simp only [hs3, if_false, Prod.mk.injEq] at h
              obtain ⟨rfl, rfl⟩ := h
              have hsz' : sz = 4 := by omega
              obtain ⟨b1, b2, b3, b4⟩ := c4 hsz'
              refine ⟨by omega, by omega, by simp, ?_, ?_, by omega, fun _ => by omega⟩
              · simp only [EncodeRune, List.take_succ_cons, List.take_zero, RuneError]
                rw [if_neg (by omega), if_neg (by omega), if_neg (by omega), if_neg (by omega)]
                congr 1
                · omega
                · congr 1
                  · omega
                  · congr 1
                    · omega
                    · congr 1
                      omega
              · intro x
                simp only [List.take_succ_cons, List.take_zero, List.cons_append,
                  List.nil_append, DecodeRune, h0, if_false, hl, hs1, hsz2, hs2, hsz3, hs3,
                  List.length_cons]
                rw [if_neg (by omega)]

theorem DecodeRune_nil : DecodeRune [] = (RuneError, 0) := rfl

/-- `DecodeRune` looks at no more than the first four bytes. -/
theorem DecodeRune_take_four (l : List Nat) : DecodeRune (l.take 4) = DecodeRune l := by
  by_cases hne : l = []
  · subst hne; rfl
  have hne4 : l.take 4 ≠ [] := by
    cases l with
    | nil => exact absurd rfl hne
    | cons a t => simp
  rcases hd : DecodeRune l with ⟨r, k⟩
  rcases hd4 : DecodeRune (l.take 4) with ⟨r4, k4⟩
  by_cases hv : r = RuneError ∧ k = 1
  · by_cases hv4 : r4 = RuneError ∧ k4 = 1
    · rw [hv.1, hv.2, hv4.1, hv4.2]
    · obtain ⟨_, kle, _, _, hx, _, _⟩ := DecodeRune_valid (l.take 4) r4 k4 hd4 hv4 hne4
      have e : (l.take 4).take k4 ++ l.drop k4 = l := by
        rw [List.take_take, Nat.min_eq_left kle, List.take_append_drop]
      have := hx (l.drop k4)
      rw [e, hd] at this
      injection this with e1 e2
      exact absurd ⟨e1 ▸ hv.1, e2 ▸ hv.2⟩ hv4
  · obtain ⟨_, kle, _, _, hx, _, _⟩ := DecodeRune_valid l r k hd hv hne
    have e : l.take k ++ (l.take 4).drop k = l.take 4 := by
      have : l.take k = (l.take 4).take k := by
        rw [List.take_take, Nat.min_eq_left kle]
      rw [this, List.take_append_drop]
    have := hx ((l.take 4).drop k)
    rw [e, hd4] at this
    exact this

/-! ## JSON round trip: strings -/

theorem hexVal_hexDigit (x : Nat) (h : x < 16) : hexVal (hexDigit x) = some x := by
  unfold hexDigit hexVal
  by_cases h10 : x < 10
  · rw [if_pos h10, if_pos (by omega)]
    congr 1
    omega
  · rw [if_neg h10, if_neg (by omega), if_pos (by omega)]
    congr 1
    omega

theorem str_esc_b : str "\\b" = [92, 98] := by decide
theorem str_esc_f : str "\\f" = [92, 102] := by decide
theorem str_esc_n : str "\\n" = [92, 110] := by decide
theorem str_esc_r : str "\\r" = [92, 114] := by decide
theorem str_esc_t : str "\\t" = [92, 116] := by decide
theorem str_esc_u00 : str "\\u00" = [92, 117, 48, 48] := by decide
theorem str_esc_u202 : str "\\u202" = [92, 117, 50, 48, 50] := by decide
theorem str_esc_ufffd : str "\\ufffd" = [92, 117, 102, 102, 102, 100] := by decide

theorem parseStringBody_plain (c f : Nat) (x : GoString) (h1 : 0x20 ≤ c) (h2 : c < 0x80)
    (h3 : c ≠ 34) (h4 : c ≠ 92) :
    parseStringBody (f + 1) (c :: x) = (parseStringBody f x).map fun (bs, r) => (c :: bs, r) := by
  have h5 : ¬ c < 0x20 := by omega
  simp only [parseStringBody, h3, h4, h5, h2, if_false, if_true]

theorem parseStringBody_escape (e b f : Nat) (x : GoString)
    (h : (e = 34 ∧ b = 34) ∨ (e = 92 ∧ b = 92) ∨ (e = 98 ∧ b = 8) ∨ (e = 102 ∧ b = 12) ∨
      (e = 110 ∧ b = 10) ∨ (e = 114 ∧ b = 13) ∨ (e = 116 ∧ b = 9)) :
    parseStringBody (f + 1) (92 :: e :: x) =
      (parseStringBody f x).map fun (bs, r) => (b :: bs, r) := by
  rcases h with ⟨rfl, rfl⟩ | ⟨rfl, rfl⟩ | ⟨rfl, rfl⟩ | ⟨rfl, rfl⟩ | ⟨rfl, rfl⟩ | ⟨rfl, rfl⟩ |
    ⟨rfl, rfl⟩ <;> simp [parseStringBody]

theorem parseStringBody_u4 (a b c d va vb vc vd f : Nat) (x : GoString)
    (ha : hexVal a = some va) (hb : hexVal b = some vb) (hc : hexVal c = some vc)
    (hd : hexVal d = some vd)
    (hs : ¬ (0xD800 ≤ va * 4096 + vb * 256 + vc * 16 + vd ∧
      va * 4096 + vb * 256 + vc * 16 + vd < 0xE000)) :
    parseStringBody (f + 1) (92 :: 117 :: a :: b :: c :: d :: x) =
      (parseStringBody f x).map fun (bs, r) =>
        (EncodeRune (va * 4096 + vb * 256 + vc * 16 + vd) ++ bs, r) := by
  simp only [parseStringBody, getu4, ha, hb, hc, hd, hs, if_false, if_true]
  simp

theorem parseStringBody_multibyte (c f rr size : Nat) (x : GoString) (h : 0x80 ≤ c)
    (hd : DecodeRune (c :: x) = (rr, size)) :
    parseStringBody (f + 1) (c :: x) =
      (parseStringBody f ((c :: x).drop size)).map fun (bs, r) => (EncodeRune rr ++ bs, r) := by
  have h1 : c ≠ 34 := by omega
  have h2 : c ≠ 92 := by omega
  have h3 : ¬ c < 0x20 := by omega
  have h4 : ¬ c < 0x80 := by omega
  simp only [parseStringBody, h1, h2, h3, h4, if_false, hd]

theorem htmlSafe_iff (b : Nat) :
    htmlSafe b = true ↔ (0x20 ≤ b ∧ b < 0x80 ∧ b ≠ 34 ∧ b ≠ 92 ∧ b ≠ 60 ∧ b ≠ 62 ∧ b ≠ 38) := by
  simp only [htmlSafe, Bool.and_eq_true, decide_eq_true_eq, Bool.not_eq_true', Bool.or_eq_false_iff,
    beq_eq_false_iff_ne, ne_eq]
  tauto

theorem quoteLoop_ascii (b fq : Nat) (t : GoString) (hb : b < 0x80) :
    quoteLoop (fq + 1) (b :: t) = asciiQuoted b ++ quoteLoop fq t := by
  simp only [quoteLoop, hb, if_true, asciiQuoted, str_esc_b, str_esc_f, str_esc_n, str_esc_r,
    str_esc_t, str_esc_u00]
  split_ifs <;> simp

theorem parseStringBody_asciiQuoted (b f : Nat) (x : GoString) (hb : b < 0x80) :
    parseStringBody (f + 1) (asciiQuoted b ++ x) =
      (parseStringBody f x).map fun (bs, r) => (b :: bs, r) := by
  unfold asciiQuoted
  by_cases hs : htmlSafe b = true
  · obtain ⟨h1, h2, h3, h4, _⟩ := (htmlSafe_iff b).1 hs
    rw [if_pos hs]
    exact parseStringBody_plain b f x h1 h2 h3 h4
  rw [if_neg hs]
  by_cases h1 : b = 92 ∨ b = 34
  · rw [if_pos h1]
    exact parseStringBody_escape b b f x (by rcases h1 with h1 | h1 <;> simp [h1])
  rw [if_neg h1]
  by_cases h2 : b = 8
  · rw [if_pos h2]; exact parseStringBody_escape 98 b f x (by simp [h2])
  rw [if_neg h2]
  by_cases h3 : b = 12
  · rw [if_pos h3]; exact parseStringBody_escape 102 b f x (by simp [h3])
  rw [if_neg h3]
  by_cases h4 : b = 10
  · rw [if_pos h4]; exact parseStringBody_escape 110 b f x (by simp [h4])
  rw [if_neg h4]
  by_cases h5 : b = 13
  · rw [if_pos h5]; exact parseStringBody_escape 114 b f x (by simp [h5])
  rw [if_neg h5]
  by_cases h6 : b = 9
  · rw [if_pos h6]; exact parseStringBody_escape 116 b f x (by simp [h6])
  rw [if_neg h6]
  have e0 : hexVal 48 = some 0 := by decide
  have e1 := hexVal_hexDigit (b / 16) (by omega)
  have e2 := hexVal_hexDigit (b % 16) (by omega)
  have key := parseStringBody_u4 48 48 (hexDigit (b / 16)) (hexDigit (b % 16)) 0 0 (b / 16)
    (b % 16) f x e0 e0 e1 e2 (by clear hs h1 h2 h3 h4 h5 h6; omega)
  have hval : 0 * 4096 + 0 * 256 + b / 16 * 16 + b % 16 = b := by omega
  rw [hval] at key
  have henc : EncodeRune b = [b] := by simp [EncodeRune, hb]
  simp only [henc, List.singleton_append] at key
  exact key

theorem ValidString_ascii (fv b : Nat) (t : GoString) (hb : b < 0x80)
    (h : ValidString (fv + 1) (b :: t) = true) : ValidString fv t = true := by
  have hd : DecodeRune (b :: t) = (b, 1) := by simp [DecodeRune, hb]
  simp only [ValidString, hd] at h
  split_ifs at h
  simpa using h

theorem ValidString_multibyte (fv b r size : Nat) (t : GoString)
    (hd : DecodeRune (b :: t) = (r, size))
    (h : ValidString (fv + 1) (b :: t) = true) :
    ¬ (r = RuneError ∧ size = 1) ∧ ValidString fv ((b :: t).drop size) = true := by
  simp only [ValidString, hd] at h
  by_cases hv : r = RuneError ∧ size = 1
  · simp [hv] at h
  · simp only [hv, if_false] at h
    exact ⟨hv, h⟩

/-- What `quoteLoop` writes for a valid multi-byte rune. -/
theorem quoteLoop_multibyte (b fq r size : Nat) (t : GoString) (hb : ¬ b < 0x80)
    (hd : DecodeRune (b :: t) = (r, size)) (hv : ¬ (r = RuneError ∧ size = 1)) :
    quoteLoop (fq + 1) (b :: t) =
      (if r = 0x2028 ∨ r = 0x2029 then [92, 117, 50, 48, 50, hexDigit (r % 16)]
        else (b :: t).take size) ++ quoteLoop fq ((b :: t).drop size) := by
  have h4 := DecodeRune_take_four (b :: t)
  rw [hd] at h4
  simp only [quoteLoop, hb, if_false, h4, hv, str_esc_u202]
  split_ifs <;> simp

/-- Reading back a JSON string literal written by `quoteLoop`: a valid UTF-8
string comes back byte for byte. -/
theorem parseStringBody_quoteLoop : ∀ (n : Nat) (s : GoString), s.length ≤ n →
    ∀ (fv fq fp : Nat) (rest : GoString), s.length ≤ fv → s.length ≤ fq →
      (quoteLoop fq s).length < fp → ValidString fv s = true →
      parseStringBody fp (quoteLoop fq s ++ 34 :: rest) = some (s, rest) := by
  intro n
  induction n with
  | zero =>
    intro s hs fv fq fp rest _ _ hfp _
    have : s = [] := List.eq_nil_of_length_eq_zero (by omega)
    subst this
    have hq : quoteLoop fq [] = [] := by cases fq <;> rfl
    rw [hq] at hfp ⊢
    obtain ⟨f, rfl⟩ : ∃ f, fp = f + 1 := ⟨fp - 1, by simp at hfp; omega⟩
    simp [parseStringBody]
  | succ n ih =>
    intro s hs fv fq fp rest hfv hfq hfp hvalid
    cases s with
    | nil =>
      have hq : quoteLoop fq [] = [] := by cases fq <;> rfl
      rw [hq] at hfp ⊢
      obtain ⟨f, rfl⟩ : ∃ f, fp = f + 1 := ⟨fp - 1, by simp at hfp; omega⟩
      simp [parseStringBody]
    | cons b t =>
      simp only [List.length_cons] at hs hfv hfq
      obtain ⟨fv, rfl⟩ : ∃ f, fv = f + 1 := ⟨fv - 1, by omega⟩
      obtain ⟨fq, rfl⟩ : ∃ f, fq = f + 1 := ⟨fq - 1, by omega⟩
      obtain ⟨fp, rfl⟩ : ∃ f, fp = f + 1 := ⟨fp - 1, by omega⟩
      by_cases hb : b < 0x80
      · have hvt := ValidString_ascii fv b t hb hvalid
        rw [quoteLoop_ascii b fq t hb] at hfp ⊢
        rw [List.append_assoc, parseStringBody_asciiQuoted b fp _ hb]
        have hpos : 0 < (asciiQuoted b).length := by
          unfold asciiQuoted; split_ifs <;> simp
        rw [ih t (by omega) fv fq fp rest (by omega) (by omega)
          (by simp only [List.length_append] at hfp; omega) hvt]
        rfl
      · rcases hd : DecodeRune (b :: t) with ⟨r, size⟩
        obtain ⟨hv, hvt⟩ := ValidString_multibyte fv b r size t hd hvalid
        obtain ⟨k1, k4, klen, henc, hx, hk1, hk2⟩ :=
          DecodeRune_valid (b :: t) r size hd hv (List.cons_ne_nil _ _)
        have klen' : size ≤ t.length + 1 := by simpa using klen
        have htl : ((b :: t).take size).length = size := by
          rw [List.length_take, List.length_cons]
          exact Nat.min_eq_left klen'
        have hdl : ((b :: t).drop size).length ≤ n := by
          simp only [List.length_drop, List.length_cons]; omega
        rw [quoteLoop_multibyte b fq r size t hb hd hv] at hfp ⊢
        have hrec := ih ((b :: t).drop size) hdl fv fq fp rest
          (by simp only [List.length_drop, List.length_cons]; omega)
          (by simp only [List.length_drop, List.length_cons]; omega)
        by_cases hls : r = 0x2028 ∨ r = 0x2029
        · simp only [hls, if_true] at hfp ⊢
          have e2 : hexVal 50 = some 2 := by decide
          have e0 : hexVal 48 = some 0 := by decide
          have e3 := hexVal_hexDigit (r % 16) (by omega)
          have key := parseStringBody_u4 50 48 50 (hexDigit (r % 16)) 2 0 2 (r % 16) fp
            (quoteLoop fq ((b :: t).drop size) ++ 34 :: rest) e2 e0 e2 e3
            (by rcases hls with h | h <;> subst h <;> decide)
          have hval : 2 * 4096 + 0 * 256 + 2 * 16 + r % 16 = r := by
            rcases hls with h | h <;> subst h <;> rfl
          rw [hval] at key
          simp only [List.cons_append, List.nil_append] at key ⊢
          rw [key, hrec (by simp only [List.length_append, List.length_cons] at hfp; omega) hvt,
            henc]
          simp
        · simp only [hls, if_false] at hfp ⊢
          have hfirst : (b :: t).take size ++ (quoteLoop fq ((b :: t).drop size) ++ 34 :: rest) =
              b :: ((b :: t).take size ++
                (quoteLoop fq ((b :: t).drop size) ++ 34 :: rest)).tail := by
            obtain ⟨m, rfl⟩ : ∃ m, size = m + 1 := ⟨size - 1, by omega⟩
            simp
          have hdx := hx (quoteLoop fq ((b :: t).drop size) ++ 34 :: rest)
          rw [List.append_assoc, hfirst]
          rw [hfirst] at hdx
          rw [parseStringBody_multibyte b fp r size _ (by omega) hdx, ← hfirst]
          have hdrop : ((b :: t).take size ++
              (quoteLoop fq ((b :: t).drop size) ++ 34 :: rest)).drop size =
              quoteLoop fq ((b :: t).drop size) ++ 34 :: rest := by
            exact List.drop_left' htl
          have hfp' : (quoteLoop fq ((b :: t).drop size)).length < fp := by
            rw [List.length_append, htl] at hfp
            omega
          rw [hdrop, hrec hfp' hvt, henc]
          simp

/-! ## JSON round trip: base64 bodies -/

theorem b64Val_b64Char (v : Nat) (h : v < 64) : b64Val (b64Char v) = some v := by
  unfold b64Char b64Val
  by_cases h1 : v < 26
  · rw [if_pos h1, if_pos (by omega)]; congr 1; omega
  rw [if_neg h1]
  by_cases h2 : v < 52
  · rw [if_pos h2, if_neg (by omega), if_pos (by omega)]; congr 1; omega
  rw [if_neg h2]
  by_cases h3 : v < 62
  · rw [if_pos h3, if_neg (by omega), if_neg (by omega), if_pos (by omega)]; congr 1; omega
  rw [if_neg h3]
  by_cases h4 : v = 62
  · rw [if_pos h4, if_neg (by omega), if_neg (by omega), if_neg (by omega), if_pos rfl, h4]
  · rw [if_neg h4, if_neg (by omega), if_neg (by omega), if_neg (by omega), if_neg (by omega),
      if_pos rfl]
    congr 1; omega

theorem b64Char_plain (v : Nat) : PlainByte (b64Char v) ∧ b64Char v ≠ 61 := by
  unfold b64Char PlainByte
  split_ifs <;> omega

theorem plain_61 : PlainByte 61 := by unfold PlainByte; omega

theorem b64Encode_plain : ∀ (n : Nat) (bs : List Nat), bs.length ≤ n →
    ∀ c ∈ b64Encode bs, PlainByte c := by
  intro n
  induction n using Nat.strong_induction_on with
  | _ n ih =>
    intro bs hn c hc
    match bs, hn, hc with
    | [], _, hc => simp [b64Encode] at hc
    | [a], _, hc =>
      simp only [b64Encode, List.mem_cons, List.mem_singleton, List.not_mem_nil, or_false] at hc
      rcases hc with rfl | rfl | rfl | rfl
      · exact (b64Char_plain _).1
      · exact (b64Char_plain _).1
      · exact plain_61
      · exact plain_61
    | [a, b], _, hc =>
      simp only [b64Encode, List.mem_cons, List.mem_singleton, List.not_mem_nil, or_false] at hc
      rcases hc with rfl | rfl | rfl | rfl
      · exact (b64Char_plain _).1
      · exact (b64Char_plain _).1
      · exact (b64Char_plain _).1
      · exact plain_61
    | a :: b :: c3 :: t, hn, hc =>
      simp only [b64Encode, List.mem_cons] at hc
      rcases hc with rfl | rfl | rfl | rfl | hc
      · exact (b64Char_plain _).1
      · exact (b64Char_plain _).1
      · exact (b64Char_plain _).1
      · exact (b64Char_plain _).1
      · simp only [List.length_cons] at hn
        exact ih (n - 3) (by omega) t (by omega) c hc

/-- A run of plain bytes is read back from a JSON string literal as it is. -/
theorem parseStringBody_plain_run : ∀ (p : GoString), (∀ c ∈ p, PlainByte c) →
    ∀ (f : Nat) (rest : GoString), p.length < f →
      parseStringBody f (p ++ 34 :: rest) = some (p, rest) := by
  intro p
  induction p with
  | nil =>
    intro _ f rest hf
    obtain ⟨f, rfl⟩ : ∃ g, f = g + 1 := ⟨f - 1, by simp at hf; omega⟩
    simp [parseStringBody]
  | cons c t ih =>
    intro hp f rest hf
    obtain ⟨f, rfl⟩ : ∃ g, f = g + 1 := ⟨f - 1, by simp at hf; omega⟩
    obtain ⟨h1, h2, h3, h4, _, _⟩ := hp c (by simp)
    rw [List.cons_append, parseStringBody_plain c f _ h1 h2 h3 h4,
      ih (fun x hx => hp x (List.mem_cons_of_mem _ hx)) f rest (by simp at hf; omega)]
    rfl

theorem b64DecodeQuanta_encode : ∀ (n : Nat) (bs : List Nat), bs.length ≤ n → IsBytes bs →
    b64DecodeQuanta (b64Encode bs) = some bs := by
  intro n
  induction n using Nat.strong_induction_on with
  | _ n ih =>
    intro bs hn hb
    match bs, hn, hb with
    | [], _, _ => rfl
    | [a], _, hb =>
      have ha : a < 256 := hb a (by simp)
      have e1 := b64Val_b64Char (a / 4) (by omega)
      have e2 := b64Val_b64Char (a % 4 * 16) (by omega)
      simp only [b64Encode, b64DecodeQuanta, e1, e2, if_true, and_self]
      congr 2
      omega
    | [a, b], _, hb =>
      have ha : a < 256 := hb a (by simp)
      have hb' : b < 256 := hb b (by simp)
      have e1 := b64Val_b64Char (a / 4) (by omega)
      have e2 := b64Val_b64Char (a % 4 * 16 + b / 16) (by omega)
      have e3 := b64Val_b64Char (b % 16 * 4) (by omega)
      have n3 := (b64Char_plain (b % 16 * 4)).2
      simp only [b64Encode, b64DecodeQuanta, e1, e2, e3, n3, if_false, if_true]
      congr 2
      · omega
      · congr 1
        omega
    | a :: b :: c :: t, hn, hb =>
      have ha : a < 256 := hb a (by simp)
      have hb' : b < 256 := hb b (by simp)
      have hc : c < 256 := hb c (by simp)
      have e1 := b64Val_b64Char (a / 4) (by omega)
      have e2 := b64Val_b64Char (a % 4 * 16 + b / 16) (by omega)
      have e3 := b64Val_b64Char (b % 16 * 4 + c / 64) (by omega)
      have e4 := b64Val_b64Char (c % 64) (by omega)
      have n3 := (b64Char_plain (b % 16 * 4 + c / 64)).2
      have n4 := (b64Char_plain (c % 64)).2
      simp only [List.length_cons] at hn
      have ht := ih (n - 3) (by omega) t (by omega)
        (fun x hx => hb x (by simp [hx]))
      simp only [b64Encode, b64DecodeQuanta, e1, e2, e3, e4, n3, n4, if_false, ht, Option.map_some']
      congr 2
      · omega
      · congr 1
        · omega
        · congr 1
          omega

/-- Decoding the base64 text of a byte slice gives the slice back. -/
theorem b64Decode_encode (bs : List Nat) (hb : IsBytes bs) :
    b64Decode (b64Encode bs) = some bs := by
  unfold b64Decode
  have hf : (b64Encode bs).filter (fun c => !(c == 10 || c == 13)) = b64Encode bs := by
    apply List.filter_eq_self.2
    intro c hc
    obtain ⟨_, _, _, _, h10, h13⟩ := b64Encode_plain _ bs (le_refl _) c hc
    simp [h10, h13]
  rw [hf]
  exact b64DecodeQuanta_encode _ bs (le_refl _) hb

/-! ## JSON round trip: the status code -/

theorem parseUintLoop_digit64 (n d : Nat) (cs : GoString) (hd : d < 10)
    (hn : n * 10 + d < 2 ^ 64) :
    parseUintLoop 10 64 n ((48 + d) :: cs) = parseUintLoop 10 64 (n * 10 + d) cs := by
  have h1 : 48 ≤ 48 + d ∧ 48 + d ≤ 57 := by omega
  have h2 : ¬ (n ≥ (2 ^ 64 - 1) / 10 + 1) := by norm_num at hn ⊢; omega
  have h3 : n * 10 % 2 ^ 64 = n * 10 := Nat.mod_eq_of_lt (by norm_num at hn ⊢; omega)
  have h4 : (n * 10 + d) % 2 ^ 64 = n * 10 + d := Nat.mod_eq_of_lt (by norm_num at hn ⊢; omega)
  have h5 : ¬ (n * 10 + d < n * 10 ∨ n * 10 + d > 2 ^ 64 - 1) := by norm_num at hn ⊢; omega
  have h6 : ¬ (d ≥ 10) := by omega
  simp only [parseUintLoop, h1, and_self, if_true, Nat.add_sub_cancel_left, h6, if_false, h2, h3,
    h4, h5]

theorem parseUintLoop_decimal64 (n : Nat) : n < 2 ^ 64 → ∀ cs : GoString,
    parseUintLoop 10 64 0 (decimal n ++ cs) = parseUintLoop 10 64 n cs := by
  induction n using Nat.strong_induction_on with
  | _ n ih =>
    intro hn cs
    by_cases h : n < 10
    · rw [decimal_lt_ten n h]
      have := parseUintLoop_digit64 0 n cs h (by norm_num at hn ⊢; omega)
      simpa using this
    · rw [decimal_ge_ten n (by omega), List.append_assoc]
      have h10 : n / 10 < 2 ^ 64 := lt_of_le_of_lt (Nat.div_le_self n 10) hn
      rw [List.singleton_append, ih (n / 10) (by omega) h10,
        parseUintLoop_digit64 (n / 10) (n % 10) cs (by omega) (by omega)]
      congr 1
      omega

theorem ParseUint_decimal64 (n : Nat) (hn : n < 2 ^ 64) : ParseUint (decimal n) 10 64 = .ok n := by
  have := parseUintLoop_decimal64 n hn []
  simp only [List.append_nil] at this
  simp [ParseUint, decimal_ne_nil, this, parseUintLoop]

/-- The decimal text of a positive number starts with a digit from 1 to 9. -/
theorem decimal_head (n : Nat) : 1 ≤ n →
    ∃ c ds, decimal n = c :: ds ∧ 49 ≤ c ∧ c ≤ 57 ∧ ∀ d ∈ ds, 48 ≤ d ∧ d ≤ 57 := by
  induction n using Nat.strong_induction_on with
  | _ n ih =>
    intro h1
    by_cases h : n < 10
    · exact ⟨48 + n, [], decimal_lt_ten n h, by omega, by omega, by simp⟩
    · obtain ⟨c, ds, e, hc1, hc2, hds⟩ := ih (n / 10) (by omega) (by omega)
      refine ⟨c, ds ++ [48 + n % 10], ?_, hc1, hc2, ?_⟩
      · rw [decimal_ge_ten n (by omega), e]; rfl
      · intro d hd
        rcases List.mem_append.1 hd with hd | hd
        · exact hds d hd
        · simp at hd; omega

/-- Parsing the text of a 64-bit integer gives the integer back. -/
theorem ParseInt_formatInt (i : Int) (h1 : -(2 : Int) ^ 63 ≤ i) (h2 : i < (2 : Int) ^ 63) :
    ParseInt (formatInt i) 10 64 = .ok i := by
  unfold formatInt
  by_cases hneg : i < 0
  · rw [if_pos hneg]
    have hn : (-i).toNat ≤ 2 ^ 63 := by
      have : ((-i).toNat : Int) = -i := Int.toNat_of_nonneg (by omega)
      have h3 : ((2 : Nat) ^ 63 : Int) = (2 : Int) ^ 63 := by norm_num
      omega
    have hp := ParseUint_decimal64 (-i).toNat (by
      have : (2 : Nat) ^ 63 < 2 ^ 64 := by norm_num
      omega)
    have hback : -(((-i).toNat : Nat) : Int) = i := by
      have : ((-i).toNat : Int) = -i := Int.toNat_of_nonneg (by omega)
      omega
    have hc : ¬ ((-i).toNat > 2 ^ (64 - 1)) := by
      have : (2 : Nat) ^ (64 - 1) = 2 ^ 63 := by norm_num
      omega
    simp only [ParseInt, List.cons_ne_nil, if_false, List.head?_cons, beq_self_eq_true,
      Bool.or_true, if_true, List.tail_cons, hp, Bool.not_true, Bool.false_eq_true, false_and,
      true_and, hc, hback]
  · rw [if_neg hneg]
    have hcast : (i.toNat : Int) = i := Int.toNat_of_nonneg (by omega)
    have hn : i.toNat < 2 ^ 63 := by
      have h3 : ((2 : Nat) ^ 63 : Int) = (2 : Int) ^ 63 := by norm_num
      omega
    have hp := ParseUint_decimal64 i.toNat (by
      have : (2 : Nat) ^ 63 < 2 ^ 64 := by norm_num
      omega)
    have hne := decimal_ne_nil i.toNat
    have hdig := decimal_digits i.toNat
    cases hd : decimal i.toNat with
    | nil => exact absurd hd hne
    | cons c ds =>
      have hc := hdig c (by rw [hd]; simp)
      have h45 : (some c == some 45) = false := by
        simp only [beq_eq_false_iff_ne, ne_eq, Option.some.injEq]; omega
      have h43 : (some c == some 43) = false := by
        simp only [beq_eq_false_iff_ne, ne_eq, Option.some.injEq]; omega
      have hcut : ¬ (i.toNat ≥ 2 ^ (64 - 1)) := by
        have : (2 : Nat) ^ (64 - 1) = 2 ^ 63 := by norm_num
        omega
      rw [hd] at hp
      simp only [ParseInt, List.cons_ne_nil, if_false, List.head?_cons, h45, h43, Bool.or_false,
        Bool.false_eq_true, hp, Bool.not_false, true_and, hcut, false_and, hcast]

/-! ## JSON round trip: values and members -/

theorem skipWS_cons (c : Nat) (t : GoString) (h : isSpace c = false) : skipWS (c :: t) = c :: t := by
  simp [skipWS, h]

theorem jsonQuote_eq (s : GoString) : jsonQuote s = 34 :: (quoteLoop s.length s ++ [34]) := rfl

theorem parseStringBody_jsonQuote_tail (s rest : GoString) (hv : validUTF8 s = true) :
    parseStringBody ((quoteLoop s.length s ++ 34 :: rest).length + 1)
      (quoteLoop s.length s ++ 34 :: rest) = some (s, rest) :=
  parseStringBody_quoteLoop s.length s (le_refl _) s.length s.length _ rest (le_refl _) (le_refl _)
    (by simp only [List.length_append, List.length_cons]; omega) hv

/-- A string value written by `jsonQuote` parses to the string. -/
theorem parseValue_string (s rest : GoString) (hv : validUTF8 s = true) (f d : Nat) :
    parseValue (f + 1) d (jsonQuote s ++ rest) = some (JSON.string s, rest) := by
  have e : jsonQuote s ++ rest = 34 :: (quoteLoop s.length s ++ 34 :: rest) := by
    simp [jsonQuote_eq]
  rw [e]
  simp only [parseValue, skipWS_cons 34 _ (by decide), if_true,
    parseStringBody_jsonQuote_tail s rest hv, Option.map_some']

theorem str_null : str "null" = [110, 117, 108, 108] := by decide

/-- The literal `null` parses to the null value. -/
theorem parseValue_null (rest : GoString) (f d : Nat) :
    parseValue (f + 1) d (str "null" ++ rest) = some (JSON.null, rest) := by
  have e1 : str "true" = [116, 114, 117, 101] := by decide
  have e2 : str "false" = [102, 97, 108, 115, 101] := by decide
  simp [parseValue, str_null, e1, e2, skipWS_cons 110 _ (by decide), HasPrefix, List.isPrefixOf]

/-- A base64 body parses to the string of its text. -/
theorem parseValue_bytes (bs : List Nat) (rest : GoString) (f d : Nat) :
    parseValue (f + 1) d (marshalBytes (some bs) ++ rest) =
      some (JSON.string (b64Encode bs), rest) := by
  have e : marshalBytes (some bs) ++ rest = 34 :: (b64Encode bs ++ 34 :: rest) := by
    simp [marshalBytes]
  rw [e]
  simp only [parseValue, skipWS_cons 34 _ (by decide), if_true]
  rw [parseStringBody_plain_run (b64Encode bs) (b64Encode_plain _ bs (le_refl _)) _ rest
    (by simp only [List.length_append, List.length_cons]; omega)]
  rfl

theorem spanDigits_run : ∀ (ds : GoString), (∀ d ∈ ds, 48 ≤ d ∧ d ≤ 57) → ∀ (c : Nat)
    (r : GoString), ¬ (48 ≤ c ∧ c ≤ 57) → spanDigits (ds ++ c :: r) = (ds, c :: r) := by
  intro ds
  induction ds with
  | nil => intro _ c r hc; simp [spanDigits, hc]
  | cons d t ih =>
    intro hd c r hc
    have h1 := hd d (by simp)
    have h2 := ih (fun x hx => hd x (List.mem_cons_of_mem _ hx)) c r hc
    simp [spanDigits, h1, h2]

theorem scanNumber_decimal (n : Nat) (r : GoString) :
    scanNumber (decimal n ++ 44 :: r) = some (decimal n, 44 :: r) := by
  by_cases h0 : n = 0
  · subst h0
    have : decimal 0 = [48] := by decide
    rw [this]
    simp [scanNumber, scanFraction, scanExponent]
  · obtain ⟨c, ds, e, hc1, hc2, hds⟩ := decimal_head n (by omega)
    rw [e]
    have h45 : c ≠ 45 := by omega
    have h48 : c ≠ 48 := by omega
    have hsp := spanDigits_run ds hds 44 r (by omega)
    simp [scanNumber, h45, h48, hc1, hc2, hsp, scanFraction, scanExponent]

theorem scanNumber_formatInt (i : Int) (r : GoString) :
    scanNumber (formatInt i ++ 44 :: r) = some (formatInt i, 44 :: r) := by
  unfold formatInt
  by_cases hneg : i < 0
  · rw [if_pos hneg]
    have hpos : 1 ≤ (-i).toNat := by omega
    obtain ⟨c, ds, e, hc1, hc2, hds⟩ := decimal_head (-i).toNat hpos
    rw [e]
    have h48 : c ≠ 48 := by omega
    have hsp := spanDigits_run ds hds 44 r (by omega)
    simp [scanNumber, h48, hc1, hc2, hsp, scanFraction, scanExponent]
  · rw [if_neg hneg]
    exact scanNumber_decimal _ r

theorem formatInt_head (i : Int) :
    ∃ c t, formatInt i = c :: t ∧ (c = 45 ∨ (48 ≤ c ∧ c ≤ 57)) := by
  unfold formatInt
  by_cases hneg : i < 0
  · rw [if_pos hneg]; exact ⟨45, _, rfl, Or.inl rfl⟩
  · rw [if_neg hneg]
    cases hd : decimal i.toNat with
    | nil => exact absurd hd (decimal_ne_nil _)
    | cons c ds =>
      exact ⟨c, ds, rfl, Or.inr (decimal_digits i.toNat c (by rw [hd]; simp))⟩

/-- A status code followed by a comma parses to the number of its text. -/
theorem parseValue_int (i : Int) (r : GoString) (f d : Nat) :
    parseValue (f + 1) d (formatInt i ++ 44 :: r) = some (JSON.number (formatInt i), 44 :: r) := by
  have hscan := scanNumber_formatInt i r
  obtain ⟨c, t, e, hc⟩ := formatInt_head i
  rw [e] at hscan ⊢
  have e1 : str "true" = [116, 114, 117, 101] := by decide
  have e2 : str "false" = [102, 97, 108, 115, 101] := by decide
  have hsp : isSpace c = false := by
    simp only [isSpace, Bool.or_eq_false_iff, beq_eq_false_iff_ne, ne_eq]
    omega
  have h34 : c ≠ 34 := by omega
  have h123 : c ≠ 123 := by omega
  have h91 : c ≠ 91 := by omega
  have h116 : c ≠ 116 := by omega
  have h102 : c ≠ 102 := by omega
  have h110 : c ≠ 110 := by omega
  rw [List.cons_append] at hscan ⊢
  have p1 : HasPrefix (c :: (t ++ 44 :: r)) (str "true") = false := by
    simp [HasPrefix, e1, List.isPrefixOf, h116.symm]
  have p2 : HasPrefix (c :: (t ++ 44 :: r)) (str "false") = false := by
    simp [HasPrefix, e2, List.isPrefixOf, h102.symm]
  have p3 : HasPrefix (c :: (t ++ 44 :: r)) (str "null") = false := by
    simp [HasPrefix, str_null, List.isPrefixOf, h110.symm]
  simp only [parseValue, skipWS_cons c _ hsp, h34, h123, h91, if_false, p1, p2, p3,
    Bool.false_eq_true, hscan, Option.map_some']

/-- One member followed by a comma: the key, the value, then the members
after it. -/
theorem parseMembers_comma (k vtext r4 : GoString) (v : JSON) (f d : Nat)
    (hk : validUTF8 k = true)
    (hv : parseValue f d (vtext ++ 44 :: r4) = some (v, 44 :: r4)) :
    parseMembers (f + 1) d (jsonQuote k ++ 58 :: (vtext ++ 44 :: r4)) =
      (parseMembers f d r4).map fun (ms, r5) => ((k, v) :: ms, r5) := by
  have e : jsonQuote k ++ 58 :: (vtext ++ 44 :: r4) =
      34 :: (quoteLoop k.length k ++ 34 :: 58 :: (vtext ++ 44 :: r4)) := by
    simp [jsonQuote_eq]
  rw [e]
  simp only [parseMembers, skipWS_cons 34 _ (by decide),
    parseStringBody_jsonQuote_tail k _ hk, skipWS_cons 58 _ (by decide), hv,
    skipWS_cons 44 _ (by decide)]

/-- The last member of an object, followed by the closing brace. -/
theorem parseMembers_last (k vtext r4 : GoString) (v : JSON) (f d : Nat)
    (hk : validUTF8 k = true)
    (hv : parseValue f d (vtext ++ 125 :: r4) = some (v, 125 :: r4)) :
    parseMembers (f + 1) d (jsonQuote k ++ 58 :: (vtext ++ 125 :: r4)) =
      some ([(k, v)], r4) := by
  have e : jsonQuote k ++ 58 :: (vtext ++ 125 :: r4) =
      34 :: (quoteLoop k.length k ++ 34 :: 58 :: (vtext ++ 125 :: r4)) := by
    simp [jsonQuote_eq]
  rw [e]
  simp only [parseMembers, skipWS_cons 34 _ (by decide),
    parseStringBody_jsonQuote_tail k _ hk, skipWS_cons 58 _ (by decide), hv,
    skipWS_cons 125 _ (by decide)]

theorem str_colon : str ":" = [58] := by decide
theorem str_comma : str "," = [44] := by decide
theorem str_lbrace : str "\x7b" = [123] := by decide
theorem str_rbrace : str "\x7d" = [125] := by decide

/-- The entries of a map, as written by `marshalEntries`, parse to the
members they stand for. -/
theorem parseMembers_entries : ∀ (kvs : List (GoString × GoString)), kvs ≠ [] →
    (∀ kv ∈ kvs, validUTF8 kv.1 = true ∧ validUTF8 kv.2 = true) →
    ∀ (f d : Nat) (rest : GoString), kvs.length < f →
      parseMembers f d (marshalEntries kvs ++ 125 :: rest) =
        some (kvs.map fun kv => (kv.1, JSON.string kv.2), rest) := by
  intro kvs
  induction kvs with
  | nil => intro h; exact absurd rfl h
  | cons kv t ih =>
    intro _ hval f d rest hf
    obtain ⟨k, v⟩ := kv
    obtain ⟨hk, hv⟩ := hval (k, v) (by simp)
    simp only [List.length_cons] at hf
    obtain ⟨f, rfl⟩ : ∃ g, f = g + 1 := ⟨f - 1, by omega⟩
    obtain ⟨f, rfl⟩ : ∃ g, f = g + 1 := ⟨f - 1, by omega⟩
    cases t with
    | nil =>
      have e : marshalEntries [(k, v)] ++ 125 :: rest =
          jsonQuote k ++ 58 :: (jsonQuote v ++ 125 :: rest) := by
        simp [marshalEntries, str_colon]
      rw [e, parseMembers_last k (jsonQuote v) rest (JSON.string v) (f + 1) d hk
        (parseValue_string v _ hv f d)]
      rfl
    | cons kv2 t2 =>
      have e : marshalEntries ((k, v) :: kv2 :: t2) ++ 125 :: rest =
          jsonQuote k ++ 58 :: (jsonQuote v ++ 44 :: (marshalEntries (kv2 :: t2) ++ 125 :: rest)) := by
        simp [marshalEntries, str_colon, str_comma]
      rw [e, parseMembers_comma k (jsonQuote v) _ (JSON.string v) (f + 1) d hk
        (parseValue_string v _ hv f d),
        ih (List.cons_ne_nil _ _) (fun x hx => hval x (List.mem_cons_of_mem _ hx)) (f + 1) d rest
          (by simp only [List.length_cons] at hf ⊢; omega)]
      rfl

/-- A map written by `marshalMap`, keys already in order, parses to an object
of string members. -/
theorem parseValue_entries (kvs : List (GoString × GoString))
    (hval : ∀ kv ∈ kvs, validUTF8 kv.1 = true ∧ validUTF8 kv.2 = true)
    (f d : Nat) (rest : GoString) (hf : kvs.length < f) (hd : d + 1 ≤ maxNestingDepth) :
    parseValue (f + 1) d (123 :: (marshalEntries kvs ++ 125 :: rest)) =
      some (JSON.object (kvs.map fun kv => (kv.1, JSON.string kv.2)), rest) := by
  have hdepth : ¬ (d + 1 > maxNestingDepth) := by omega
  cases kvs with
  | nil =>
    simp [parseValue, skipWS_cons 123 _ (by decide), hdepth, marshalEntries,
      skipWS_cons 125 _ (by decide)]
  | cons kv t =>
    have hm := parseMembers_entries (kv :: t) (List.cons_ne_nil _ _) hval f (d + 1) rest hf
    obtain ⟨k, v⟩ := kv
    have h34 : ∃ x, marshalEntries ((k, v) :: t) ++ 125 :: rest = 34 :: x := by
      cases t with
      | nil => exact ⟨_, by simp [marshalEntries, jsonQuote_eq]; rfl⟩
      | cons a b => exact ⟨_, by simp [marshalEntries, jsonQuote_eq]; rfl⟩
    obtain ⟨x, hx⟩ := h34
    rw [hx] at hm ⊢
    simp only [parseValue, skipWS_cons 123 _ (by decide), hdepth, if_false,
      skipWS_cons 34 _ (by decide), hm, Option.map_some']
    simp

/-! ## JSON round trip: maps and bodies -/

theorem bytesLess_asymm : ∀ (a b : GoString), bytesLess a b = true → bytesLess b a = false := by
  intro a
  induction a with
  | nil => intro b h; cases b <;> simp [bytesLess] at h ⊢
  | cons x s ih =>
    intro b h
    cases b with
    | nil => simp [bytesLess] at h
    | cons y t =>
      simp only [bytesLess] at h ⊢
      by_cases h1 : x < y
      · have h2 : ¬ y < x := by omega
        simp [h1, h2]
      · simp only [h1, if_false] at h
        by_cases h2 : y < x
        · simp [h2] at h
        · simp only [h2, if_false] at h
          simp [h1, h2, ih t h]

theorem bytesLess_irrefl (a : GoString) : bytesLess a a = false := by
  cases h : bytesLess a a with
  | false => rfl
  | true => have := bytesLess_asymm a a h; rw [h] at this; exact absurd this (by decide)

theorem sortEntries_sorted (kvs : List (GoString × GoString))
    (h : kvs.Pairwise (fun a b => bytesLess a.1 b.1 = true)) : sortEntries kvs = kvs := by
  unfold sortEntries
  apply List.Sorted.insertionSort_eq
  exact List.Pairwise.imp (fun {a b} hab => bytesLess_asymm a.1 b.1 hab) h

theorem setEntry_append (k v : GoString) : ∀ (m : List (GoString × GoString)),
    (∀ x ∈ m, bytesLess x.1 k = true) → setEntry k v m = m ++ [(k, v)] := by
  intro m
  induction m with
  | nil => intro _; rfl
  | cons a t ih =>
    intro h
    obtain ⟨k1, v1⟩ := a
    have h1 : bytesLess k1 k = true := h (k1, v1) (by simp)
    have hne : k ≠ k1 := by
      intro e
      rw [e, bytesLess_irrefl] at h1
      exact absurd h1 (by decide)
    have h2 : bytesLess k k1 = false := bytesLess_asymm k1 k h1
    simp [setEntry, hne, h2, ih (fun x hx => h x (List.mem_cons_of_mem _ hx))]

theorem decodeMembers_entries : ∀ (t m : List (GoString × GoString)),
    (m ++ t).Pairwise (fun a b => bytesLess a.1 b.1 = true) →
    decodeMembers m (t.map fun kv => (kv.1, JSON.string kv.2)) = some (m ++ t) := by
  intro t
  induction t with
  | nil => intro m _; simp [decodeMembers]
  | cons kv t ih =>
    intro m h
    obtain ⟨k, v⟩ := kv
    have hlt : ∀ x ∈ m, bytesLess x.1 k = true := by
      intro x hx
      have := List.pairwise_append.1 h
      exact this.2.2 x hx (k, v) (by simp)
    have h' : ((m ++ [(k, v)]) ++ t).Pairwise (fun a b => bytesLess a.1 b.1 = true) := by
      simpa using h
    simp only [List.map_cons, decodeMembers, decodeString, setEntry_append k v m hlt]
    rw [ih (m ++ [(k, v)]) h']
    simp

/-- Decoding the value a well-formed header map is written as gives the map. -/
theorem decodeMap_mapJSON (m cur : GoMap) (h : MapWF m) (hc : cur = none) :
    decodeMap cur (mapJSON m) = some m := by
  subst hc
  cases m with
  | none => rfl
  | some kvs =>
    have := decodeMembers_entries kvs [] (by simpa using h.1)
    simp only [mapJSON, decodeMap, GoMap.entries, this]
    simp

/-- Decoding the value a body is written as gives the body. -/
theorem decodeBytes_bytesJSON (b : GoBytes) (h : BytesWF b) : decodeBytes (bytesJSON b) = some b := by
  cases b with
  | none => rfl
  | some bs => simp [bytesJSON, decodeBytes, b64Decode_encode bs h]

/-- A header map written by `marshalMap` parses to its JSON value. -/
theorem parseValue_map (m : GoMap) (h : MapWF m) (f d : Nat) (rest : GoString)
    (hf : m.len < f) (hd : d + 1 ≤ maxNestingDepth) :
    parseValue (f + 1) d (marshalMap m ++ rest) = some (mapJSON m, rest) := by
  cases m with
  | none => exact parseValue_null rest f d
  | some kvs =>
    have e : marshalMap (some kvs) ++ rest = 123 :: (marshalEntries kvs ++ 125 :: rest) := by
      simp [marshalMap, sortEntries_sorted kvs h.1, str_lbrace, str_rbrace]
    rw [e]
    exact parseValue_entries kvs h.2 f d rest hf hd

/-- A body written by `marshalBytes` parses to its JSON value. -/
theorem parseValue_body (b : GoBytes) (f d : Nat) (rest : GoString) :
    parseValue (f + 1) d (marshalBytes b ++ rest) = some (bytesJSON b, rest) := by
  cases b with
  | none => exact parseValue_null rest f d
  | some bs => exact parseValue_bytes bs rest f d

theorem marshalEntries_length : ∀ (kvs : List (GoString × GoString)),
    kvs.length ≤ (marshalEntries kvs).length := by
  intro kvs
  induction kvs with
  | nil => simp [marshalEntries]
  | cons kv t ih =>
    obtain ⟨k, v⟩ := kv
    cases t with
    | nil => simp [marshalEntries, jsonQuote_eq]
    | cons a b =>
      simp only [marshalEntries, List.length_append, List.length_cons, jsonQuote_eq] at ih ⊢
      omega

theorem marshalMap_length (m : GoMap) (h : MapWF m) : m.len ≤ (marshalMap m).length := by
  cases m with
  | none => simp [GoMap.len]
  | some kvs =>
    have := marshalEntries_length kvs
    simp only [GoMap.len, marshalMap, sortEntries_sorted kvs h.1, List.length_append]
    omega

/-! ## JSON round trip: the envelopes -/

theorem parseValue_object (x : GoString) (f d : Nat) (hd : d + 1 ≤ maxNestingDepth) :
    parseValue (f + 1) d (123 :: 34 :: x) =
      (parseMembers f (d + 1) (34 :: x)).map fun (ms, r) => (JSON.object ms, r) := by
  have hdepth : ¬ (d + 1 > maxNestingDepth) := by omega
  simp only [parseValue, skipWS_cons 123 _ (by decide), hdepth, if_false,
    skipWS_cons 34 _ (by decide)]
  simp

theorem MarshalRequest_eq (r : KafkaRequest) :
    MarshalRequest r =
      123 :: (jsonQuote (str "requestId") ++ 58 :: (jsonQuote r.RequestID ++ 44 ::
        (jsonQuote (str "method") ++ 58 :: (jsonQuote r.Method ++ 44 ::
        (jsonQuote (str "path") ++ 58 :: (jsonQuote r.Path ++ 44 ::
        (jsonQuote (str "headers") ++ 58 :: (marshalMap r.Headers ++ 44 ::
        (jsonQuote (str "body") ++ 58 :: (marshalBytes r.Body ++ 44 ::
        (jsonQuote (str "servicePath") ++ 58 :: (jsonQuote r.ServicePath ++ 125 :: []))))))))))))
      := by
  have e1 : str "\x7b\"requestId\":" = 123 :: (jsonQuote (str "requestId") ++ [58]) := by decide
  have e2 : str ",\"method\":" = 44 :: (jsonQuote (str "method") ++ [58]) := by decide
  have e3 : str ",\"path\":" = 44 :: (jsonQuote (str "path") ++ [58]) := by decide
  have e4 : str ",\"headers\":" = 44 :: (jsonQuote (str "headers") ++ [58]) := by decide
  have e5 : str ",\"body\":" = 44 :: (jsonQuote (str "body") ++ [58]) := by decide
  have e6 : str ",\"servicePath\":" = 44 :: (jsonQuote (str "servicePath") ++ [58]) := by decide
  simp only [MarshalRequest, e1, e2, e3, e4, e5, e6, str_rbrace, List.cons_append,
    List.append_assoc, List.nil_append, List.singleton_append]

theorem MarshalResponse_eq (r : KafkaResponse) :
    MarshalResponse r =
      123 :: (jsonQuote (str "requestId") ++ 58 :: (jsonQuote r.RequestID ++ 44 ::
        (jsonQuote (str "statusCode") ++ 58 :: (formatInt r.StatusCode ++ 44 ::
        (jsonQuote (str "headers") ++ 58 :: (marshalMap r.Headers ++ 44 ::
        (jsonQuote (str "body") ++ 58 :: (marshalBytes r.Body ++ 125 :: [])))))))) := by
  have e1 : str "\x7b\"requestId\":" = 123 :: (jsonQuote (str "requestId") ++ [58]) := by decide
  have e2 : str ",\"statusCode\":" = 44 :: (jsonQuote (str "statusCode") ++ [58]) := by decide
  have e4 : str ",\"headers\":" = 44 :: (jsonQuote (str "headers") ++ [58]) := by decide
  have e5 : str ",\"body\":" = 44 :: (jsonQuote (str "body") ++ [58]) := by decide
  simp only [MarshalResponse, e1, e2, e4, e5, str_rbrace, List.cons_append,
    List.append_assoc, List.nil_append, List.singleton_append]

/-- The members a marshalled request parses to. -/
theorem parseJSON_MarshalRequest (r : KafkaRequest) (h : r.WellFormed) :
    parseJSON (MarshalRequest r) =
      some (JSON.object
        [(str "requestId", JSON.string r.RequestID), (str "method", JSON.string r.Method),
          (str "path", JSON.string r.Path), (str "headers", mapJSON r.Headers),
          (str "body", bytesJSON r.Body), (str "servicePath", JSON.string r.ServicePath)]) := by
  obtain ⟨h1, h2, h3, h4, h5, h6⟩ := h
  have hlen : r.Headers.len + 8 ≤ (MarshalRequest r).length := by
    have := marshalMap_length r.Headers h4
    rw [MarshalRequest_eq]
    simp only [List.length_append, List.length_cons, jsonQuote_eq]
    omega
  obtain ⟨g, hg⟩ : ∃ g, (MarshalRequest r).length = g + (r.Headers.len + 8) :=
    ⟨(MarshalRequest r).length - (r.Headers.len + 8), by omega⟩
  unfold parseJSON
  rw [hg, MarshalRequest_eq]
  have k1 : validUTF8 (str "requestId") = true := by decide
  have k2 : validUTF8 (str "method") = true := by decide
  have k3 : validUTF8 (str "path") = true := by decide
  have k4 : validUTF8 (str "headers") = true := by decide
  have k5 : validUTF8 (str "body") = true := by decide
  have k6 : validUTF8 (str "servicePath") = true := by decide
  have q : jsonQuote (str "requestId") = 34 :: (quoteLoop (str "requestId").length
      (str "requestId") ++ [34]) := rfl
  rw [q, List.cons_append, parseValue_object _ _ 0 (by decide), ← List.cons_append, ← q]
  rw [show g + (r.Headers.len + 8) = (g + r.Headers.len + 7) + 1 by omega,
    parseMembers_comma _ _ _ _ _ _ k1 (parseValue_string r.RequestID _ h1 _ _),
    show g + r.Headers.len + 7 = (g + r.Headers.len + 6) + 1 by omega,
    parseMembers_comma _ _ _ _ _ _ k2 (parseValue_string r.Method _ h2 _ _),
    show g + r.Headers.len + 6 = (g + r.Headers.len + 5) + 1 by omega,
    parseMembers_comma _ _ _ _ _ _ k3 (parseValue_string r.Path _ h3 _ _),
    show g + r.Headers.len + 5 = (g + r.Headers.len + 4) + 1 by omega,
    parseMembers_comma _ _ _ _ _ _ k4
      (by
        rw [show g + r.Headers.len + 4 = (g + r.Headers.len + 3) + 1 by omega]
        exact parseValue_map r.Headers h4 _ _ _ (by omega) (by decide)),
    show g + r.Headers.len + 4 = (g + r.Headers.len + 3) + 1 by omega,
    parseMembers_comma _ _ _ _ _ _ k5
      (by
        rw [show g + r.Headers.len + 3 = (g + r.Headers.len + 2) + 1 by omega]
        exact parseValue_body r.Body _ _ _),
    show g + r.Headers.len + 3 = (g + r.Headers.len + 2) + 1 by omega,
    parseMembers_last _ _ _ _ _ _ k6
      (by
        rw [show g + r.Headers.len + 2 = (g + r.Headers.len + 1) + 1 by omega]
        exact parseValue_string r.ServicePath _ h6 _ _)]
  simp [skipWS]

theorem parseJSON_MarshalResponse (r : KafkaResponse) (h : r.WellFormed) :
    parseJSON (MarshalResponse r) =
      some (JSON.object
        [(str "requestId", JSON.string r.RequestID),
          (str "statusCode", JSON.number (formatInt r.StatusCode)),
          (str "headers", mapJSON r.Headers), (str "body", bytesJSON r.Body)]) := by
  obtain ⟨h1, _, _, h4, h5⟩ := h
  have hlen : r.Headers.len + 8 ≤ (MarshalResponse r).length := by
    have := marshalMap_length r.Headers h4
    rw [MarshalResponse_eq]
    simp only [List.length_append, List.length_cons, jsonQuote_eq]
    omega
  obtain ⟨g, hg⟩ : ∃ g, (MarshalResponse r).length = g + (r.Headers.len + 8) :=
    ⟨(MarshalResponse r).length - (r.Headers.len + 8), by omega⟩
  unfold parseJSON
  rw [hg, MarshalResponse_eq]
  have k1 : validUTF8 (str "requestId") = true := by decide
  have k2 : validUTF8 (str "statusCode") = true := by decide
  have k4 : validUTF8 (str "headers") = true := by decide
  have k5 : validUTF8 (str "body") = true := by decide
  have q : jsonQuote (str "requestId") = 34 :: (quoteLoop (str "requestId").length
      (str "requestId") ++ [34]) := rfl
  rw [q, List.cons_append, parseValue_object _ _ 0 (by decide), ← List.cons_append, ← q]
  rw [show g + (r.Headers.len + 8) = (g + r.Headers.len + 7) + 1 by omega,
    parseMembers_comma _ _ _ _ _ _ k1 (parseValue_string r.RequestID _ h1 _ _),
    show g + r.Headers.len + 7 = (g + r.Headers.len + 6) + 1 by omega,
    parseMembers_comma _ _ _ _ _ _ k2 (parseValue_int r.StatusCode _ _ _),
    show g + r.Headers.len + 6 = (g + r.Headers.len + 5) + 1 by omega,
    parseMembers_comma _ _ _ _ _ _ k4
      (by
        rw [show g + r.Headers.len + 5 = (g + r.Headers.len + 4) + 1 by omega]
        exact parseValue_map r.Headers h4 _ _ _ (by omega) (by decide)),
    show g + r.Headers.len + 5 = (g + r.Headers.len + 4) + 1 by omega,
    parseMembers_last _ _ _ _ _ _ k5
      (by
        rw [show g + r.Headers.len + 4 = (g + r.Headers.len + 3) + 1 by omega]
        exact parseValue_body r.Body _ _ _)]
  simp [skipWS]

/-- Unmarshalling what `json.Marshal` wrote for a well-formed request gives
the request back. -/
theorem UnmarshalRequest_MarshalRequest (r : KafkaRequest) (h : r.WellFormed) :
    UnmarshalRequest (MarshalRequest r) = some r := by
  have hp := parseJSON_MarshalRequest r h
  obtain ⟨_, _, _, h4, h5, _⟩ := h
  have a1 : keyIs (str "requestId") "requestId" = true := by decide
  have b1 : keyIs (str "method") "requestId" = false := by decide
  have b2 : keyIs (str "method") "method" = true := by decide
  have c1 : keyIs (str "path") "requestId" = false := by decide
  have c2 : keyIs (str "path") "method" = false := by decide
  have c3 : keyIs (str "path") "path" = true := by decide
  have d1 : keyIs (str "headers") "requestId" = false := by decide
  have d2 : keyIs (str "headers") "method" = false := by decide
  have d3 : keyIs (str "headers") "path" = false := by decide
  have d4 : keyIs (str "headers") "headers" = true := by decide
  have e1 : keyIs (str "body") "requestId" = false := by decide
  have e2 : keyIs (str "body") "method" = false := by decide
  have e3 : keyIs (str "body") "path" = false := by decide
  have e4 : keyIs (str "body") "headers" = false := by decide
  have e5 : keyIs (str "body") "body" = true := by decide
  have f1 : keyIs (str "servicePath") "requestId" = false := by decide
  have f2 : keyIs (str "servicePath") "method" = false := by decide
  have f3 : keyIs (str "servicePath") "path" = false := by decide
  have f4 : keyIs (str "servicePath") "headers" = false := by decide
  have f5 : keyIs (str "servicePath") "body" = false := by decide
  have f6 : keyIs (str "servicePath") "servicePath" = true := by decide
  simp only [UnmarshalRequest, hp, List.foldlM, decodeRequestMember, a1, b1, b2, c1, c2, c3, d1,
    d2, d3, d4, e1, e2, e3, e4, e5, f1, f2, f3, f4, f5, f6, if_true, if_false,
    Bool.false_eq_true, decodeString, Option.map_some', decodeMap_mapJSON r.Headers none h4 rfl,
    decodeBytes_bytesJSON r.Body h5, Option.bind_eq_bind, Option.some_bind, Option.pure_def,
    bind, pure]

/-- Unmarshalling what `json.Marshal` wrote for a well-formed response gives
the response back. -/
theorem UnmarshalResponse_MarshalResponse (r : KafkaResponse) (h : r.WellFormed) :
    UnmarshalResponse (MarshalResponse r) = some r := by
  have hp := parseJSON_MarshalResponse r h
  obtain ⟨_, hlo, hhi, h4, h5⟩ := h
  have a1 : keyIs (str "requestId") "requestId" = true := by decide
  have b1 : keyIs (str "statusCode") "requestId" = false := by decide
  have b2 : keyIs (str "statusCode") "statusCode" = true := by decide
  have d1 : keyIs (str "headers") "requestId" = false := by decide
  have d2 : keyIs (str "headers") "statusCode" = false := by decide
  have d4 : keyIs (str "headers") "headers" = true := by decide
  have e1 : keyIs (str "body") "requestId" = false := by decide
  have e2 : keyIs (str "body") "statusCode" = false := by decide
  have e4 : keyIs (str "body") "headers" = false := by decide
  have e5 : keyIs (str "body") "body" = true := by decide
  simp only [UnmarshalResponse, hp, List.foldlM, decodeResponseMember, a1, b1, b2, d1, d2, d4,
    e1, e2, e4, e5, if_true, if_false, Bool.false_eq_true, decodeString, decodeInt,
    ParseInt_formatInt r.StatusCode hlo hhi, Option.map_some',
    decodeMap_mapJSON r.Headers none h4 rfl, decodeBytes_bytesJSON r.Body h5,
    Option.bind_eq_bind, Option.some_bind, Option.pure_def, bind, pure]

/-- C2 as stated fails: a request whose path holds the byte 0xff, which is not
valid UTF-8 (the gateway builds it for `GET /api/patients/%ff`), does not come
back equal: `json.Marshal` writes the byte as the escape of U+FFFD and the
worker reads the three bytes of U+FFFD. -/
theorem envelope_round_trip_counterexample :
    UnmarshalRequest (MarshalRequest
        ⟨str "ab12", str "GET", [47, 0xff], some [], some [], str "/patients/" ++ [0xff]⟩) =
      some ⟨str "ab12", str "GET", [47, 0xef, 0xbf, 0xbd], some [], some [],
        str "/patients/" ++ [0xef, 0xbf, 0xbd]⟩ ∧
      UnmarshalRequest (MarshalRequest
        ⟨str "ab12", str "GET", [47, 0xff], some [], some [], str "/patients/" ++ [0xff]⟩) ≠
      some ⟨str "ab12", str "GET", [47, 0xff], some [], some [], str "/patients/" ++ [0xff]⟩ := by
  decide

/-- C2 (amended): for every request envelope and every response envelope
whose strings (correlation id, verb, path, service path, header names and
values) are valid UTF-8, serializing it with `json.Marshal` and deserializing
the result with `json.Unmarshal` yields the original envelope field for field,
whatever the body: nil, empty or arbitrary bytes. -/
theorem envelope_round_trip (req : KafkaRequest) (resp : KafkaResponse)
    (hq : req.WellFormed) (hp : resp.WellFormed) :
    UnmarshalRequest (MarshalRequest req) = some req ∧
      UnmarshalResponse (MarshalResponse resp) = some resp :=
  ⟨UnmarshalRequest_MarshalRequest req hq, UnmarshalResponse_MarshalResponse resp hp⟩

/-- C2 on a request with an empty body and a response whose body is not
text. -/
theorem envelope_round_trip_witness :
    (KafkaRequest.mk (str "ab12") (str "GET") (str "/42")
        (some [(str "Accept", str "*/*"), (str "X-Id", [0xc3, 0xa9])]) (some [])
        (str "/patients/42")).WellFormed ∧
      (KafkaResponse.mk (str "ab12") 200 (some [(str "Content-Type", str "image/png")])
        (some [0, 255, 137, 80, 10])).WellFormed ∧
      UnmarshalRequest (MarshalRequest ⟨str "ab12", str "GET", str "/42",
        some [(str "Accept", str "*/*"), (str "X-Id", [0xc3, 0xa9])], some [],
        str "/patients/42"⟩) =
        some ⟨str "ab12", str "GET", str "/42",
          some [(str "Accept", str "*/*"), (str "X-Id", [0xc3, 0xa9])], some [],
          str "/patients/42"⟩ ∧
      UnmarshalResponse (MarshalResponse ⟨str "ab12", 200,
        some [(str "Content-Type", str "image/png")], some [0, 255, 137, 80, 10]⟩) =
        some ⟨str "ab12", 200, some [(str "Content-Type", str "image/png")],
          some [0, 255, 137, 80, 10]⟩ :=
  ⟨by decide, by decide,
    envelope_round_trip
      ⟨str "ab12", str "GET", str "/42",
        some [(str "Accept", str "*/*"), (str "X-Id", [0xc3, 0xa9])], some [],
        str "/patients/42"⟩
      ⟨str "ab12", 200, some [(str "Content-Type", str "image/png")],
        some [0, 255, 137, 80, 10]⟩ (by decide) (by decide)⟩

/-! ## The parent-scoped listings -/

theorem Index_of_prefix (s sep : GoString) (h : HasPrefix s sep = true) : Index s sep = some 0 := by
  cases s with
  | nil => simp [Index, h]
  | cons c t => simp [Index, h]

theorem HasPrefix_append (sep t : GoString) : HasPrefix (sep ++ t) sep = true := by
  simp [HasPrefix]

/-- Splitting `sep ++ t` at `sep`, when `t` holds no first byte of `sep`. -/
theorem Split_prefix (c : Nat) (sep' t : GoString) (hc : c ∉ t) :
    Split ((c :: sep') ++ t) (c :: sep') = [[], t] := by
  have h0 := Index_of_prefix _ _ (HasPrefix_append (c :: sep') t)
  have hn : Index t (c :: sep') = none := Index_eq_none_of_not_mem c _ (by simp) t hc
  unfold Split
  have hl : ((c :: sep') ++ t).length = (sep'.length + t.length) + 1 := by
    simp only [List.length_append, List.length_cons]; omega
  rw [hl]
  simp only [splitLoop, h0, List.take_zero, Nat.zero_add, List.drop_left]
  cases hk : sep'.length + t.length with
  | zero => rfl
  | succ k => simp [splitLoop, hn]

theorem str_patient_sep : str "/patient/" = 47 :: str "patient/" := by decide
theorem str_examination_sep : str "/examination/" = 47 :: str "examination/" := by decide

theorem examination_parent_id (n : Nat) :
    ExaminationService.extractPatientIDFromPath (str "/patient/" ++ decimal n) = decimal n := by
  have hs := Split_prefix 47 (str "patient/") (decimal n) (slash_not_mem_decimal n)
  have hc : Contains (str "/patient/" ++ decimal n) (str "/patient/") = true := by
    simp [Contains, Index_of_prefix _ _ (HasPrefix_append (str "/patient/") (decimal n))]
  rw [← str_patient_sep] at hs
  simp [ExaminationService.extractPatientIDFromPath, hc, hs]

theorem examination_id_of_parent_path (n : Nat) :
    ExaminationService.extractIDFromPath (str "/patient/" ++ decimal n) = [] := by
  have e : str "/patient/" ++ decimal n = 47 :: (str "patient" ++ (47 :: decimal n)) := by
    have : str "/patient/" = 47 :: (str "patient" ++ [47]) := by decide
    rw [this]; simp
  obtain ⟨tl, h⟩ := Split_slash_head (str "patient") (47 :: decimal n) (by decide)
    (Or.inr ⟨_, rfl⟩)
  have hc : Contains (str "patient") (str "patient") = true := by decide
  rw [e]
  simp [ExaminationService.extractIDFromPath, h, hc]

theorem plainPath_append (a b : GoString) (ha : PlainPath a) (hb : PlainPath b) :
    PlainPath (a ++ b) := by
  intro x hx
  rcases List.mem_append.1 hx with h | h
  · exact ha x h
  · exact hb x h

theorem plainPath_decimal (n : Nat) : PlainPath (decimal n) := by
  intro b hb
  have := decimal_digits n b hb
  omega

/-- The dispatch of `GET /patient/n` by the examination service, in terms of
`serve`. -/
theorem list_by_patient_serve (f : GoString → Bool) (h : Handlers) (req : KafkaRequest)
    (n : Nat) (h1 : 1 ≤ n) (h2 : n ≤ 4294967295) (hm : req.Method = str "GET")
    (hp : req.Path = str "/patient/" ++ decimal n) :
    ExaminationService.handleKafkaRequest f h req =
        serve h req .GetExaminationsByPatientID
          ⟨some ⟨str "GET", req.Path, req.Headers.entries, req.Body⟩,
            [(str "patientId", decimal n)]⟩ ∧
      ParseUint (decimal n) 10 32 = .ok n := by
  have hn : n < 2 ^ 32 := by norm_num; omega
  have hp' : req.Path = 47 :: (str "patient/" ++ decimal n) := by
    rw [hp, str_patient_sep]; rfl
  have hplain : PlainPath (47 :: (str "patient/" ++ decimal n)) := by
    have : PlainPath (47 :: str "patient/") := by unfold PlainPath; decide
    exact plainPath_append (47 :: str "patient/") (decimal n) this (plainPath_decimal n)
  have hctx := createMockGinContext_GET_plain f req (str "patient/" ++ decimal n) hm hp'
    (by intro y hy; have : str "patient/" = 112 :: str "atient/" := by decide
        rw [this] at hy; simp at hy) hplain
  have hrp : routedPath req = str "/patient/" ++ decimal n := by
    rw [routedPath_cons req _ _ hp', str_patient_sep]; rfl
  have hroute := examination_route f h req _ 0 n hctx
    (by rw [hrp, examination_id_of_parent_path]; exact parseID_nil)
    (by rw [hrp, examination_parent_id]; exact parseID_decimal n hn)
  have hnotroot : ¬ (req.Path = str "/" ∨ req.Path = []) := by
    have e : str "patient/" = 112 :: str "atient/" := by decide
    rw [hp', str_slash, e]; simp
  have hfm : firstMatch req.Method req.Path 0 n = some .listByParent := by
    obtain ⟨v1, v2, v3, _, _, _⟩ := verbs_distinct
    rw [firstMatch_eq]
    simp only [hm, hnotroot, and_false, if_false, true_and, gt_iff_lt, Nat.lt_irrefl, v1, v2, v3,
      false_and]
    rw [if_pos (by omega)]
  refine ⟨?_, ParseUint_decimal n hn⟩
  rw [hroute, hfm, hrp, examination_parent_id]
  simp only [ExaminationService.routeRun, addParam, List.nil_append, hp']

/-- In the sample service every `GET /examination/n` is answered 400: the id
segment is taken to be `examination`. -/
theorem sample_parent_path_400 (f : GoString → Bool) (h : Handlers) (req : KafkaRequest)
    (n : Nat) (hm : req.Method = str "GET") (hp : req.Path = str "/examination/" ++ decimal n) :
    SampleService.handleKafkaRequest f h req =
      ⟨[], some (createErrorResponse req.RequestID 400 (str "Invalid ID format"))⟩ := by
  have hp' : req.Path = 47 :: (str "examination/" ++ decimal n) := by
    rw [hp, str_examination_sep]; rfl
  have hplain : PlainPath (47 :: (str "examination/" ++ decimal n)) := by
    have : PlainPath (47 :: str "examination/") := by unfold PlainPath; decide
    exact plainPath_append (47 :: str "examination/") (decimal n) this (plainPath_decimal n)
  have hctx := createMockGinContext_GET_plain f req (str "examination/" ++ decimal n) hm hp'
    (by intro y hy; have : str "examination/" = 101 :: str "xamination/" := by decide
        rw [this] at hy; simp at hy) hplain
  have hp2 : req.Path = str "/" ++ str "examination" ++ (str "/" ++ decimal n) := by
    rw [hp]
    have : str "/examination/" = str "/" ++ str "examination" ++ str "/" := by decide
    rw [this]; simp
  exact worker_bad_id_400 .sample f h req _ (str "examination") (str "/" ++ decimal n) hctx hp2
    (by decide) (Or.inr ⟨_, rfl⟩) (by decide)
    (by
      intro k
      have : ParseUint (str "examination") 10 32 = .error .invalid := by decide
      rw [this]
      exact fun e => by cases e)
    (by intro e; cases e)

/-- C11: on `GET /examination/5` the dispatcher of the sample service invokes
no handler and answers 400 `Invalid ID format`: its `extractIDFromPath` takes
the literal segment `examination` for the id, there being no guard like the
one the examination service has for `patient`. -/
theorem sample_by_examination_not_dispatched (f : GoString → Bool) (h : Handlers) :
    SampleService.handleKafkaRequest f h
        ⟨str "ab12", str "GET", str "/examination/5", some [(str "Accept", str "*/*")],
          some [], str "/samples/examination/5"⟩ =
      ⟨[], some (createErrorResponse (str "ab12") 400 (str "Invalid ID format"))⟩ ∧
      SampleService.extractIDFromPath (str "/examination/5") = str "examination" ∧
      SampleService.extractExaminationIDFromPath (str "/examination/5") = str "5" ∧
      ExaminationService.extractIDFromPath (str "/patient/5") = [] := by
  refine ⟨rfl, by decide, by decide, by decide⟩

/-! ## The route and the mock context -/

theorem createMockGinContext_params (f : GoString → Bool) (req : KafkaRequest) (c : GinContext)
    (h : createMockGinContext f req = some c) : c.Params = [] := by
  unfold createMockGinContext at h
  split at h
  · split_ifs at h
    injection h with h
    rw [← h]
  · injection h with h
    rw [← h]

/-- The mock context faults exactly when `http.NewRequest` returns nil and
there is a header to copy. -/
theorem createMockGinContext_eq_none_iff (f : GoString → Bool) (req : KafkaRequest) :
    createMockGinContext f req = none ↔
      NewRequest f req.Method req.Path req.Body = none ∧ req.Headers.len ≠ 0 := by
  unfold createMockGinContext
  cases hn : NewRequest f req.Method req.Path req.Body with
  | none =>
    by_cases hl : req.Headers.len = 0
    · simp [hl]
    · simp [hl]
  | some r => simp

theorem serve_route (h : Handlers) (req : KafkaRequest) (n : HandlerName) (c : GinContext) :
    (serve h req n c).route = ([(n, c.Params)], none) := by
  simp [serve, Run.route]

theorem error_route (rid : GoString) (code : Int) (msg : GoString) :
    (Run.mk [] (some (createErrorResponse rid code msg))).route =
      ([], some (code, some (str "\x7b\"error\":" ++ jsonQuote msg ++ str "\x7d"))) := by
  simp [Run.route, createErrorResponse]

theorem error_route_eq (rid1 rid2 : GoString) (code : Int) (msg : GoString) :
    (Run.mk [] (some (createErrorResponse rid1 code msg))).route =
      (Run.mk [] (some (createErrorResponse rid2 code msg))).route := by
  rw [error_route, error_route]

theorem serve_route_eq (h : Handlers) (req1 req2 : KafkaRequest) (n : HandlerName)
    (c1 c2 : GinContext) (hp : c1.Params = c2.Params) :
    (serve h req1 n c1).route = (serve h req2 n c2).route := by
  rw [serve_route, serve_route, hp]

theorem addParam_params (c1 c2 : GinContext) (k v : GoString) (hp : c1.Params = c2.Params) :
    (addParam c1 k v).Params = (addParam c2 k v).Params := by
  simp [addParam, hp]

theorem ite_route_congr (c : Prop) [Decidable c] (a1 b1 a2 b2 : Run)
    (ha : a1.route = a2.route) (hb : b1.route = b2.route) :
    (if c then a1 else b1).route = (if c then a2 else b2).route := by
  split_ifs
  · exact ha
  · exact hb

/-- Outside the fault of the mock context the route depends on the verb and
the path only. -/
theorem worker_route_of_verb_and_path (w : Worker) (f : GoString → Bool) (h : Handlers)
    (req1 req2 : KafkaRequest) (c1 c2 : GinContext)
    (hm : req1.Method = req2.Method) (hp : req1.Path = req2.Path)
    (hc1 : createMockGinContext f req1 = some c1) (hc2 : createMockGinContext f req2 = some c2) :
    (w.handleKafkaRequest f h req1).route = (w.handleKafkaRequest f h req2).route := by
  have p1 := createMockGinContext_params f req1 c1 hc1
  have p2 := createMockGinContext_params f req2 c2 hc2
  have pp : c1.Params = c2.Params := by rw [p1, p2]
  cases w
  · simp only [Worker.handleKafkaRequest, PatientService.handleKafkaRequest, hc1, hc2, hm, hp]
    cases parseID (PatientService.extractIDFromPath (if req2.Path = [] then str "/" else req2.Path)) with
    | error e => exact error_route_eq _ _ _ _
    | ok id =>
      refine ite_route_congr _ _ _ _ _ (serve_route_eq h _ _ _ _ _ pp) ?_
      refine ite_route_congr _ _ _ _ _ (serve_route_eq h _ _ _ _ _ (addParam_params _ _ _ _ pp)) ?_
      refine ite_route_congr _ _ _ _ _ (serve_route_eq h _ _ _ _ _ pp) ?_
      refine ite_route_congr _ _ _ _ _ (serve_route_eq h _ _ _ _ _ (addParam_params _ _ _ _ pp)) ?_
      refine ite_route_congr _ _ _ _ _ (serve_route_eq h _ _ _ _ _ (addParam_params _ _ _ _ pp)) ?_
      exact error_route_eq _ _ _ _
  · simp only [Worker.handleKafkaRequest, ExaminationService.handleKafkaRequest, hc1, hc2, hm, hp]
    cases parseID (ExaminationService.extractIDFromPath
        (if req2.Path = [] then str "/" else req2.Path)) with
    | error e => exact error_route_eq _ _ _ _
    | ok id =>
      cases parseID (ExaminationService.extractPatientIDFromPath
          (if req2.Path = [] then str "/" else req2.Path)) with
      | error e => exact error_route_eq _ _ _ _
      | ok pid =>
        refine ite_route_congr _ _ _ _ _ (serve_route_eq h _ _ _ _ _ pp) ?_
        refine ite_route_congr _ _ _ _ _ (serve_route_eq h _ _ _ _ _ (addParam_params _ _ _ _ pp)) ?_
        refine ite_route_congr _ _ _ _ _ (serve_route_eq h _ _ _ _ _ pp) ?_
        refine ite_route_congr _ _ _ _ _ (serve_route_eq h _ _ _ _ _ (addParam_params _ _ _ _ pp)) ?_
        refine ite_route_congr _ _ _ _ _ (serve_route_eq h _ _ _ _ _ (addParam_params _ _ _ _ pp)) ?_
        refine ite_route_congr _ _ _ _ _ (serve_route_eq h _ _ _ _ _ (addParam_params _ _ _ _ pp)) ?_
        exact error_route_eq _ _ _ _
  · simp only [Worker.handleKafkaRequest, SampleService.handleKafkaRequest, hc1, hc2, hm, hp]
    cases parseID (SampleService.extractIDFromPath
        (if req2.Path = [] then str "/" else req2.Path)) with
    | error e => exact error_route_eq _ _ _ _
    | ok id =>
      cases parseID (SampleService.extractExaminationIDFromPath
          (if req2.Path = [] then str "/" else req2.Path)) with
      | error e => exact error_route_eq _ _ _ _
      | ok pid =>
        refine ite_route_congr _ _ _ _ _ (serve_route_eq h _ _ _ _ _ pp) ?_
        refine ite_route_congr _ _ _ _ _ (serve_route_eq h _ _ _ _ _ (addParam_params _ _ _ _ pp)) ?_
        refine ite_route_congr _ _ _ _ _ (serve_route_eq h _ _ _ _ _ pp) ?_
        refine ite_route_congr _ _ _ _ _ (serve_route_eq h _ _ _ _ _ (addParam_params _ _ _ _ pp)) ?_
        refine ite_route_congr _ _ _ _ _ (serve_route_eq h _ _ _ _ _ (addParam_params _ _ _ _ pp)) ?_
        refine ite_route_congr _ _ _ _ _ (serve_route_eq h _ _ _ _ _ (addParam_params _ _ _ _ pp)) ?_
        exact error_route_eq _ _ _ _

/-- C13: two requests with the same verb `GET` and the same path `/5/%zz`
that differ only in their headers take different routes: without a header the
dispatcher of each worker invokes get-by-id with id `5`, with one header it
faults while building the mock request and invokes nothing. -/
theorem route_depends_on_headers (f : GoString → Bool) (h : Handlers) (w : Worker) :
    (w.handleKafkaRequest f h
        ⟨str "ab12", str "GET", str "/5/%zz", none, none, []⟩).route =
        ([(w.getByID, [(str "id", str "5")])], none) ∧
      (w.handleKafkaRequest f h
        ⟨str "ab12", str "GET", str "/5/%zz", some [(str "Accept", str "*/*")], none, []⟩).route =
        ([], none) := by
  cases w <;> exact ⟨rfl, rfl⟩

/-- C14: `handleKafkaRequest` of each worker returns no response for a request
with the verb `G T`, which is no HTTP method, and one header, and none for
`GET` on the path `/%zz`, which is no URL, with one header: `http.NewRequest`
returns nil, its error is dropped, and `httpReq.Header.Set` dereferences nil. -/
theorem handleKafkaRequest_faults (f : GoString → Bool) (h : Handlers) (w : Worker) :
    w.handleKafkaRequest f h
        ⟨str "ab12", str "G T", str "/", some [(str "Accept", str "*/*")], some [],
          str "/patients/"⟩ = ⟨[], none⟩ ∧
      w.handleKafkaRequest f h
        ⟨str "ab12", str "GET", str "/%zz", some [(str "Accept", str "*/*")], some [],
          str "/patients/%zz"⟩ = ⟨[], none⟩ ∧
      validMethod (str "G T") = false ∧ urlParseOk f (str "/%zz") = false := by
  refine ⟨?_, ?_, by decide, rfl⟩ <;> cases w <;> rfl

/-! ## The worker runtime -/

theorem consumerLoop_total (rq rs : GoString) (g : KafkaRequest → KafkaResponse)
    (writeOk : Nat → Bool) (hw : ∀ i, writeOk i = true) :
    ∀ (stream : List ReadResult) (i : Nat),
      (consumerLoop rq rs (fun r => some (g r)) writeOk i stream).handled =
          deliveredRequests stream ∧
        (consumerLoop rq rs (fun r => some (g r)) writeOk i stream).published =
          (deliveredRequests stream).map fun req => (req.RequestID, MarshalResponse (g req)) := by
  intro stream
  induction stream with
  | nil => intro i; exact ⟨rfl, rfl⟩
  | cons m rest ih =>
    intro i
    cases m with
    | failure c =>
      have := ih i
      simpa [consumerLoop, deliveredRequests, WorkerRun.after] using this
    | message value =>
      cases hu : UnmarshalRequest value with
      | none =>
        have := ih i
        simpa [consumerLoop, deliveredRequests, WorkerRun.after, hu] using this
      | some req =>
        have := ih (i + 1)
        simp only [deliveredRequests] at this
        simp [consumerLoop, deliveredRequests, hu, hw i, this.1, this.2]

/-- C15: for every sequence of deliveries on the request topic and every
handler that returns, when every publish succeeds the worker loop invokes the
handler on exactly the messages that deserialize as a request and publishes
exactly the serialized handler responses for them, keyed by the request id, in
arrival order; a message that does not deserialize is neither handled nor
answered. -/
theorem worker_publishes_in_arrival_order (serviceName : GoString)
    (g : KafkaRequest → KafkaResponse) (writeOk : Nat → Bool) (stream : List ReadResult)
    (hw : ∀ i, writeOk i = true) :
    (StartKafkaConsumer serviceName (fun r => some (g r)) writeOk stream).handled =
        deliveredRequests stream ∧
      (StartKafkaConsumer serviceName (fun r => some (g r)) writeOk stream).published =
        (deliveredRequests stream).map fun req => (req.RequestID, MarshalResponse (g req)) := by
  have := consumerLoop_total (workerRequestTopic serviceName) (workerResponseTopic serviceName) g
    writeOk hw stream 0
  simpa [StartKafkaConsumer, WorkerRun.after] using this

/-- C15 on two requests with a malformed message between them. -/
theorem worker_publishes_in_arrival_order_witness :
    (StartKafkaConsumer (str "patients")
        (fun r => some ⟨r.RequestID, 200, none, some r.Path⟩) (fun _ => true)
        [.message (MarshalRequest ⟨str "a1", str "GET", str "/1", none, none, []⟩),
          .message (str "not json"),
          .message (MarshalRequest ⟨str "b2", str "GET", str "/2", none, none, []⟩)]).handled =
        deliveredRequests
          [.message (MarshalRequest ⟨str "a1", str "GET", str "/1", none, none, []⟩),
            .message (str "not json"),
            .message (MarshalRequest ⟨str "b2", str "GET", str "/2", none, none, []⟩)] ∧
      (StartKafkaConsumer (str "patients")
        (fun r => some ⟨r.RequestID, 200, none, some r.Path⟩) (fun _ => true)
        [.message (MarshalRequest ⟨str "a1", str "GET", str "/1", none, none, []⟩),
          .message (str "not json"),
          .message (MarshalRequest ⟨str "b2", str "GET", str "/2", none, none, []⟩)]).published =
        (deliveredRequests
          [.message (MarshalRequest ⟨str "a1", str "GET", str "/1", none, none, []⟩),
            .message (str "not json"),
            .message (MarshalRequest ⟨str "b2", str "GET", str "/2", none, none, []⟩)]).map
          fun req => (req.RequestID, MarshalResponse ⟨req.RequestID, 200, none, some req.Path⟩) :=
  worker_publishes_in_arrival_order (str "patients")
    (fun r => ⟨r.RequestID, 200, none, some r.Path⟩) (fun _ => true) _ (fun _ => rfl)

/-! ## Topic provisioning -/

theorem creations_of_ok (b : ProvisionBroker) (partitions : List GoString)
    (hd : b.dial = none) (hl : b.readPartitions = .ok partitions) (hc : b.controller = none)
    (hdc : b.dialController = none) :
    (EnsureTopicsExist b).creations =
        (createMissing partitions b.createTopics requiredTopics).1.filterMap (fun op =>
          match op with
          | .createTopics config => some config
          | _ => none) ∧
      (EnsureTopicsExist b).err = (createMissing partitions b.createTopics requiredTopics).2 := by
  simp [EnsureTopicsExist, hd, hl, hc, hdc, ProvisionRun.creations, List.filterMap_append]

/-- The loop on a list of topics whose creations all succeed or fail with
"already exists". -/
theorem createMissing_tolerant (E : List GoString) (create : TopicConfig → Option GoString) :
    ∀ ts : List GoString,
      (∀ t ∈ ts, t ∉ E → ∀ err, create ⟨t, 1, 1⟩ = some err →
        Contains err (str "already exists") = true) →
      (createMissing E create ts).1 =
          (ts.filter fun t => decide (t ∉ E)).map (fun t => .createTopics ⟨t, 1, 1⟩) ∧
        (createMissing E create ts).2 = none := by
  intro ts
  induction ts with
  | nil => intro _; exact ⟨rfl, rfl⟩
  | cons t rest ih =>
    intro h
    have ih' := ih fun u hu => h u (List.mem_cons_of_mem _ hu)
    by_cases ht : t ∈ E
    · simp [createMissing, ht, ih']
    · cases hc : create ⟨t, 1, 1⟩ with
      | none => simp [createMissing, ht, hc, ih']
      | some err =>
        have := h t (List.mem_cons_self _ _) ht err hc
        simp [createMissing, ht, hc, this, ih']

/-- The loop stops at the first creation that fails otherwise. -/
theorem createMissing_stops (E : List GoString) (create : TopicConfig → Option GoString)
    (t : GoString) (post : List GoString) (err : GoString) (ht : t ∉ E)
    (hc : create ⟨t, 1, 1⟩ = some err) (he : Contains err (str "already exists") = false) :
    ∀ pre : List GoString,
      (∀ u ∈ pre, u ∉ E → ∀ e, create ⟨u, 1, 1⟩ = some e →
        Contains e (str "already exists") = true) →
      (createMissing E create (pre ++ t :: post)).1 =
          ((pre.filter fun u => decide (u ∉ E)) ++ [t]).map (fun u => .createTopics ⟨u, 1, 1⟩) ∧
        (createMissing E create (pre ++ t :: post)).2 = some err := by
  intro pre
  induction pre with
  | nil => intro _; simp [createMissing, ht, hc, he]
  | cons u rest ih =>
    intro h
    have ih' := ih fun v hv => h v (List.mem_cons_of_mem _ hv)
    by_cases hu : u ∈ E
    · simp [createMissing, hu, ih']
    · cases hcu : create ⟨u, 1, 1⟩ with
      | none => simp [createMissing, hu, hcu, ih']
      | some e =>
        have := h u (List.mem_cons_self _ _) hu e hcu
        simp [createMissing, hu, hcu, this, ih']

theorem filterMap_creations (ts : List GoString) :
    (ts.map fun t => ProvisionOp.createTopics ⟨t, 1, 1⟩).filterMap (fun op =>
        match op with
        | .createTopics config => some config
        | _ => none) = ts.map fun t => (⟨t, 1, 1⟩ : TopicConfig) := by
  induction ts with
  | nil => rfl
  | cons t rest ih => simp [ih]

/-- C16: when both connections, the listing and the controller lookup succeed
and every required topic is listed, `EnsureTopicsExist` issues no
topic-creation call and returns no error, whatever a creation would answer. -/
theorem provisioned_broker_creates_nothing (b : ProvisionBroker) (partitions : List GoString)
    (hd : b.dial = none) (hl : b.readPartitions = .ok partitions) (hc : b.controller = none)
    (hdc : b.dialController = none) (hall : ∀ t ∈ requiredTopics, t ∈ partitions) :
    (EnsureTopicsExist b).creations = [] ∧ (EnsureTopicsExist b).err = none ∧
      (EnsureTopicsExist b).ops =
        [.dial, .readPartitions, .controller, .dialController, .closeController, .close] := by
  have hloop : ∀ ts : List GoString, (∀ t ∈ ts, t ∈ partitions) →
      createMissing partitions b.createTopics ts = ([], none) := by
    intro ts
    induction ts with
    | nil => intro _; rfl
    | cons t rest ih =>
      intro h
      simp [createMissing, h t (List.mem_cons_self _ _),
        ih fun u hu => h u (List.mem_cons_of_mem _ hu)]
  have h := hloop requiredTopics hall
  simp [EnsureTopicsExist, hd, hl, hc, hdc, ProvisionRun.creations, h]

/-- C16 on a broker that lists the ten required topics and one more. -/
theorem provisioned_broker_creates_nothing_witness :
    (EnsureTopicsExist ⟨none, .ok (str "other" :: requiredTopics), none, none,
        fun _ => some (str "refused")⟩).creations = [] ∧
      (EnsureTopicsExist ⟨none, .ok (str "other" :: requiredTopics), none, none,
        fun _ => some (str "refused")⟩).err = none ∧
      (EnsureTopicsExist ⟨none, .ok (str "other" :: requiredTopics), none, none,
        fun _ => some (str "refused")⟩).ops =
        [.dial, .readPartitions, .controller, .dialController, .closeController, .close] :=
  provisioned_broker_creates_nothing
    ⟨none, .ok (str "other" :: requiredTopics), none, none, fun _ => some (str "refused")⟩
    (str "other" :: requiredTopics) rfl rfl rfl rfl (fun _ h => List.mem_cons_of_mem _ h)

/-- C17: for every listing `E`, when both connections and the controller
lookup succeed and every creation succeeds, the topic-creation calls of
`EnsureTopicsExist` are, in the order of `requiredTopics`, one call for each
required topic that is not in `E`, with one partition and replication factor
one, and none for a topic in `E`; the required topics are pairwise distinct,
so no topic is created twice. -/
theorem creates_exactly_the_missing_topics (b : ProvisionBroker) (E : List GoString)
    (hd : b.dial = none) (hl : b.readPartitions = .ok E) (hc : b.controller = none)
    (hdc : b.dialController = none) (hok : ∀ config, b.createTopics config = none) :
    (EnsureTopicsExist b).creations =
        (requiredTopics.filter fun t => decide (t ∉ E)).map (fun t => ⟨t, 1, 1⟩) ∧
      (EnsureTopicsExist b).err = none ∧ requiredTopics.Nodup := by
  have h := creations_of_ok b E hd hl hc hdc
  have ht := createMissing_tolerant E b.createTopics requiredTopics
    (fun t _ _ err he => by rw [hok] at he; cases he)
  refine ⟨?_, ?_, by decide⟩
  · rw [h.1, ht.1, filterMap_creations]
  · rw [h.2, ht.2]

/-- C17 on a broker that lists only the two patient topics. -/
theorem creates_exactly_the_missing_topics_witness :
    (EnsureTopicsExist ⟨none, .ok [str "patient-responses", str "patient-requests"], none, none,
        fun _ => none⟩).creations =
        (requiredTopics.filter fun t =>
          decide (t ∉ [str "patient-responses", str "patient-requests"])).map
          (fun t => ⟨t, 1, 1⟩) ∧
      (EnsureTopicsExist ⟨none, .ok [str "patient-responses", str "patient-requests"], none, none,
        fun _ => none⟩).err = none ∧ requiredTopics.Nodup :=
  creates_exactly_the_missing_topics
    ⟨none, .ok [str "patient-responses", str "patient-requests"], none, none, fun _ => none⟩
    [str "patient-responses", str "patient-requests"] rfl rfl rfl rfl (fun _ => rfl)

/-- C18: in `EnsureTopicsExist`, with both connections, the listing and the
controller lookup successful, creations that succeed or fail with a text
containing "already exists" neither stop the loop nor produce an error: if all
are such, every missing topic is attempted and nil is returned; and the first
creation that fails with another text ends the run with that error, the
topics behind it in `requiredTopics` not attempted. -/
theorem creation_failure_handling (b : ProvisionBroker) (E : List GoString)
    (hd : b.dial = none) (hl : b.readPartitions = .ok E) (hc : b.controller = none)
    (hdc : b.dialController = none) :
    ((∀ t ∈ requiredTopics, t ∉ E → ∀ err, b.createTopics ⟨t, 1, 1⟩ = some err →
        Contains err (str "already exists") = true) →
      (EnsureTopicsExist b).creations =
          (requiredTopics.filter fun t => decide (t ∉ E)).map (fun t => ⟨t, 1, 1⟩) ∧
        (EnsureTopicsExist b).err = none) ∧
      ∀ (pre post : List GoString) (t err : GoString),
        requiredTopics = pre ++ t :: post → t ∉ E →
        (∀ u ∈ pre, u ∉ E → ∀ e, b.createTopics ⟨u, 1, 1⟩ = some e →
          Contains e (str "already exists") = true) →
        b.createTopics ⟨t, 1, 1⟩ = some err →
        Contains err (str "already exists") = false →
        (EnsureTopicsExist b).creations =
            ((pre.filter fun u => decide (u ∉ E)) ++ [t]).map (fun u => ⟨u, 1, 1⟩) ∧
          (EnsureTopicsExist b).err = some err ∧
          (EnsureTopicsExist b).ops =
            [.dial, .readPartitions, .controller, .dialController] ++
              ((pre.filter fun u => decide (u ∉ E)) ++ [t]).map
                (fun u => .createTopics ⟨u, 1, 1⟩) ++ [.closeController, .close] := by
  have h := creations_of_ok b E hd hl hc hdc
  refine ⟨fun hall => ?_, fun pre post t err hsplit ht hpre hct hne => ?_⟩
  · have ht := createMissing_tolerant E b.createTopics requiredTopics hall
    rw [h.1, h.2, ht.1, ht.2, filterMap_creations]
    exact ⟨rfl, rfl⟩
  · have hs := createMissing_stops E b.createTopics t post err ht hct hne pre hpre
    rw [← hsplit] at hs
    refine ⟨?_, ?_, ?_⟩
    · rw [h.1, hs.1, filterMap_creations]
    · rw [h.2, hs.2]
    · simp only [EnsureTopicsExist, hd, hl, hc, hdc, hs.1]

/-- C18 on a broker that lists nothing, answers "already exists" for the first
required topic and refuses the second. -/
theorem creation_failure_handling_witness :
    (EnsureTopicsExist ⟨none, .ok [], none, none, fun config =>
        if config.Topic = str "patient-requests" then some (str "topic already exists")
        else if config.Topic = str "patient-responses" then some (str "not authorized")
        else none⟩).creations =
        [⟨str "patient-requests", 1, 1⟩, ⟨str "patient-responses", 1, 1⟩] ∧
      (EnsureTopicsExist ⟨none, .ok [], none, none, fun config =>
        if config.Topic = str "patient-requests" then some (str "topic already exists")
        else if config.Topic = str "patient-responses" then some (str "not authorized")
        else none⟩).err = some (str "not authorized") :=
  have h := (creation_failure_handling ⟨none, .ok [], none, none, fun config =>
      if config.Topic = str "patient-requests" then some (str "topic already exists")
      else if config.Topic = str "patient-responses" then some (str "not authorized")
      else none⟩ [] rfl rfl rfl rfl).2 [str "patient-requests"]
    (requiredTopics.drop 2) (str "patient-responses") (str "not authorized") (by decide)
    (by simp) (by decide) (by decide) (by decide)
  ⟨h.1, h.2.1⟩

/-! ## Retrying the provisioning -/

theorem attempts_failedAttempts (broker : Nat → ProvisionBroker) :
    ∀ k start : Nat, attempts (failedAttempts broker start k) = List.range' start k := by
  intro k
  induction k with
  | zero => intro _; rfl
  | succ k ih => intro start; simp [failedAttempts, attempts, List.range'] at *; exact ih _

theorem retryLoop_le (broker : Nat → ProvisionBroker) :
    ∀ n i : Nat, (attempts (retryLoop broker n i)).length ≤ n := by
  intro n
  induction n with
  | zero => intro _; simp [retryLoop, attempts]
  | succ n ih =>
    intro i
    by_cases h : (EnsureTopicsExist (broker i)).err = none
    · simp [retryLoop, h, attempts]
    · have := ih (i + 1)
      simp only [attempts] at this
      simp [retryLoop, h, attempts, this]

theorem retryLoop_all_fail (broker : Nat → ProvisionBroker) :
    ∀ n i : Nat, (∀ j, j < n → (EnsureTopicsExist (broker (i + j))).err ≠ none) →
      retryLoop broker n i = failedAttempts broker i n := by
  intro n
  induction n with
  | zero => intro _ _; rfl
  | succ n ih =>
    intro i h
    have h0 := h 0 (Nat.succ_pos _)
    rw [Nat.add_zero] at h0
    have := ih (i + 1) fun j hj => by
      have := h (j + 1) (Nat.succ_lt_succ hj)
      rwa [Nat.add_assoc, Nat.add_comm 1 j]
    simp [retryLoop, failedAttempts, h0, this]

theorem retryLoop_first_success (broker : Nat → ProvisionBroker) :
    ∀ k n i : Nat, k < n → (∀ j, j < k → (EnsureTopicsExist (broker (i + j))).err ≠ none) →
      (EnsureTopicsExist (broker (i + k))).err = none →
      retryLoop broker n i =
        failedAttempts broker i k ++ [.attempt (i + k) (EnsureTopicsExist (broker (i + k)))] := by
  intro k
  induction k with
  | zero =>
    intro n i hn _ hs
    obtain ⟨m, rfl⟩ : ∃ m, n = m + 1 := ⟨n - 1, by omega⟩
    rw [Nat.add_zero] at hs
    simp [retryLoop, failedAttempts, hs]
  | succ k ih =>
    intro n i hn hf hs
    obtain ⟨m, rfl⟩ : ∃ m, n = m + 1 := ⟨n - 1, by omega⟩
    have h0 := hf 0 (Nat.succ_pos _)
    rw [Nat.add_zero] at h0
    have e : i + (k + 1) = i + 1 + k := by omega
    have := ih m (i + 1) (by omega) (fun j hj => by
      have := hf (j + 1) (Nat.succ_lt_succ hj)
      rwa [Nat.add_assoc, Nat.add_comm 1 j]) (by rwa [← e])
    simp [retryLoop, failedAttempts, h0, this, e]

/-- C19: `ConnectWithRetry` with `maxRetries = n` runs `EnsureTopicsExist` at
most `n` times.  If attempt `k < n` is the first that succeeds, the events are
the `k` failed attempts, each followed by a sleep of 5 seconds, then attempt
`k`, and nothing more; if all `n` attempts fail, the events are exactly `n`
failed attempts, each followed by a sleep of 5 seconds.  The function has no
result, so no error is reported.  `InitKafkaTopics` calls it with 10. -/
theorem connect_with_retry_bounded (broker : Nat → ProvisionBroker) (n : Nat) :
    (attempts (ConnectWithRetry broker n)).length ≤ n ∧
      (∀ k, k < n → (∀ j, j < k → (EnsureTopicsExist (broker j)).err ≠ none) →
        (EnsureTopicsExist (broker k)).err = none →
        ConnectWithRetry broker n =
            failedAttempts broker 0 k ++ [.attempt k (EnsureTopicsExist (broker k))] ∧
          attempts (ConnectWithRetry broker n) = List.range (k + 1)) ∧
      ((∀ j, j < n → (EnsureTopicsExist (broker j)).err ≠ none) →
        ConnectWithRetry broker n = failedAttempts broker 0 n ∧
          attempts (ConnectWithRetry broker n) = List.range n) ∧
      InitKafkaTopics broker = ConnectWithRetry broker 10 := by
  refine ⟨?_, ?_, ?_, rfl⟩
  · exact retryLoop_le broker n 0
  · intro k hk hf hs
    have := retryLoop_first_success broker k n 0 hk (by simpa using hf) (by simpa using hs)
    simp only [Nat.zero_add] at this
    have e : ConnectWithRetry broker n = retryLoop broker n 0 := by simp [ConnectWithRetry]
    rw [e, this]
    refine ⟨rfl, ?_⟩
    have ha := attempts_failedAttempts broker k 0
    simp only [attempts] at ha ⊢
    rw [List.filterMap_append, ha, List.range_succ, List.range_eq_range']
    rfl
  · intro hf
    have := retryLoop_all_fail broker n 0 (by simpa using hf)
    have e : ConnectWithRetry broker n = retryLoop broker n 0 := by simp [ConnectWithRetry]
    rw [e, this]
    refine ⟨rfl, ?_⟩
    rw [attempts_failedAttempts, List.range_eq_range']

/-- C19 on a broker that refuses the first two connections: three attempts,
two sleeps, and the remaining seven attempts are not made. -/
theorem connect_with_retry_bounded_witness :
    ConnectWithRetry (fun i =>
        if i < 2 then ⟨some (str "refused"), .ok [], none, none, fun _ => none⟩
        else ⟨none, .ok requiredTopics, none, none, fun _ => none⟩) ((10 : Nat) : Int) =
        failedAttempts (fun i =>
          if i < 2 then ⟨some (str "refused"), .ok [], none, none, fun _ => none⟩
          else ⟨none, .ok requiredTopics, none, none, fun _ => none⟩) 0 2 ++
          [.attempt 2 (EnsureTopicsExist ⟨none, .ok requiredTopics, none, none, fun _ => none⟩)] ∧
      attempts (ConnectWithRetry (fun i =>
        if i < 2 then ⟨some (str "refused"), .ok [], none, none, fun _ => none⟩
        else ⟨none, .ok requiredTopics, none, none, fun _ => none⟩) ((10 : Nat) : Int)) =
        List.range 3 :=
  (connect_with_retry_bounded (fun i =>
      if i < 2 then ⟨some (str "refused"), .ok [], none, none, fun _ => none⟩
      else ⟨none, .ok requiredTopics, none, none, fun _ => none⟩) 10).2.1 2 (by decide)
    (by decide) (by decide)

/-! ## The gateway route handler -/

theorem readLoop_no_match (responseTopic : GoString) (req : KafkaRequest) :
    ∀ stream : List ReadResult, (∀ m ∈ stream, m.noMatch req.RequestID = true) →
      (readLoop responseTopic req stream).2 = .error (.read .deadlineExceeded) := by
  intro stream
  induction stream with
  | nil => intro _; rfl
  | cons m rest ih =>
    intro h
    have ih' := ih fun u hu => h u (List.mem_cons_of_mem _ hu)
    have hm := h m (List.mem_cons_self _ _)
    cases m with
    | failure c => simp [ReadResult.noMatch] at hm
    | message value =>
      cases hu : UnmarshalResponse value with
      | none => simp [readLoop, hu, ih']
      | some resp =>
        simp [ReadResult.noMatch, hu] at hm
        simp [readLoop, hu, hm, ih']

theorem handleRequest_error (writeOk : Bool) (stream : List ReadResult) (brokerText : GoString)
    (random : List Nat) (c : InboundRequest) (body : List Nat) (err : SendError)
    (hb : c.Body = some body)
    (he : (SendKafkaRequest writeOk stream c.service (gatewayRequest random c body)).result =
      .error err) :
    (handleRequest writeOk stream brokerText random c).calls =
      [.JSON 502 (str "Service communication error: " ++ err.Error brokerText)] := by
  simp only [handleRequest, hb, he]

/-- C20, as the claim has it, fails: for the same inbound request the gateway
answers a call that timed out (the publish succeeds and nothing arrives) and a
call whose publish failed with the same status 502. -/
theorem timeout_status_counterexample :
    (handleRequest true [] (str "connection refused") (List.replicate 16 171)
        ⟨str "patients", str "/1", str "GET", [], some []⟩).calls =
        [.JSON 502 (str "Service communication error: failed to read response: " ++
          str "context deadline exceeded")] ∧
      (handleRequest false [] (str "connection refused") (List.replicate 16 171)
        ⟨str "patients", str "/1", str "GET", [], some []⟩).calls =
        [.JSON 502 (str "Service communication error: failed to write message: " ++
          str "connection refused")] := by
  decide

/-- C20, amended: for a registered service, when the publish succeeds and no
read answers the request before the deadline, `SendKafkaRequest` fails with the
deadline error, which is neither the publish error nor a transport read
error; `handleRequest` surfaces it with status 502 and the error text, and it
surfaces every other error of `SendKafkaRequest` with the same status 502. -/
theorem timeout_surfaces_as_bad_gateway (stream : List ReadResult) (brokerText : GoString)
    (random : List Nat) (c : InboundRequest) (body : List Nat) (topic responseTopic : GoString)
    (hb : c.Body = some body) (ht : topics.lookup c.service = some topic)
    (hr : responseTopics.lookup c.service = some responseTopic)
    (hno : ∀ m ∈ stream, m.noMatch (generateRequestID random) = true) :
    (SendKafkaRequest true stream c.service (gatewayRequest random c body)).result =
        .error (.read .deadlineExceeded) ∧
      SendError.read .deadlineExceeded ≠ .write ∧
      SendError.read .deadlineExceeded ≠ .read .transport ∧
      (handleRequest true stream brokerText random c).calls =
        [.JSON 502 (str "Service communication error: failed to read response: " ++
          str "context deadline exceeded")] ∧
      ∀ (writeOk : Bool) (other : List ReadResult) (err : SendError),
        (SendKafkaRequest writeOk other c.service (gatewayRequest random c body)).result =
          .error err →
        (handleRequest writeOk other brokerText random c).calls =
          [.JSON 502 (str "Service communication error: " ++ err.Error brokerText)] := by
  have hres : (SendKafkaRequest true stream c.service (gatewayRequest random c body)).result =
      .error (.read .deadlineExceeded) := by
    simp only [SendKafkaRequest, ht, hr]
    exact readLoop_no_match responseTopic (gatewayRequest random c body) stream hno
  refine ⟨hres, by decide, by decide, ?_, fun writeOk other err he => ?_⟩
  · rw [handleRequest_error true stream brokerText random c body _ hb hres]
    rfl
  · exact handleRequest_error writeOk other brokerText random c body err hb he

/-- C20, amended, on a stream that holds only the answer to another request. -/
theorem timeout_surfaces_as_bad_gateway_witness :
    (handleRequest true [.message (MarshalResponse ⟨str "ffff", 200, none, none⟩)]
        (str "connection refused") (List.replicate 16 171)
        ⟨str "patients", str "/1", str "GET", [], some []⟩).calls =
      [.JSON 502 (str "Service communication error: failed to read response: " ++
        str "context deadline exceeded")] :=
  (timeout_surfaces_as_bad_gateway [.message (MarshalResponse ⟨str "ffff", 200, none, none⟩)]
    (str "connection refused") (List.replicate 16 171)
    ⟨str "patients", str "/1", str "GET", [], some []⟩ [] (str "patient-requests")
    (str "patient-responses") rfl (by decide) (by decide) (by decide)).2.2.2.1

/-! ## Broker resources, the registration table, the response stream -/

theorem stillOpen_reads (topic : GoString) (opened : List BrokerOp) :
    ∀ (ops rest : List BrokerOp), (∀ op ∈ ops, op = .readMessage topic) →
      stillOpen (ops ++ rest) opened = stillOpen rest opened := by
  intro ops
  induction ops with
  | nil => intro rest _; rfl
  | cons op t ih =>
    intro rest h
    have h1 := h op (List.mem_cons_self _ _)
    subst h1
    simp only [List.cons_append, stillOpen]
    exact ih rest fun o ho => h o (List.mem_cons_of_mem _ ho)

theorem readLoop_ops (responseTopic : GoString) (req : KafkaRequest) :
    ∀ stream : List ReadResult, ∀ op ∈ (readLoop responseTopic req stream).1,
      op = .readMessage responseTopic := by
  intro stream
  induction stream with
  | nil => intro op h; simpa [readLoop] using h
  | cons m rest ih =>
    intro op h
    cases m with
    | failure c => simpa [readLoop] using h
    | message value =>
      simp only [readLoop] at h
      split at h
      · rcases List.mem_cons.1 h with e | e
        · exact e
        · exact ih op e
      · split_ifs at h
        · simpa using h
        · rcases List.mem_cons.1 h with e | e
          · exact e
          · exact ih op e

/-- C21: on every return of `SendKafkaRequest` (whatever the service, the
outcome of the publish and the reads on the response topic yield: the matching
response, the deadline, a read error), every writer and every reader opened
during the call has been closed; for a registered service the outcome is one
of a response, a publish error and a read error. -/
theorem send_closes_what_it_opened (writeOk : Bool) (stream : List ReadResult)
    (service : GoString) (req : KafkaRequest) :
    stillOpen (SendKafkaRequest writeOk stream service req).ops [] = [] ∧
      (service ∈ topics.map Prod.fst →
        (∃ resp, (SendKafkaRequest writeOk stream service req).result = .ok resp) ∨
          (SendKafkaRequest writeOk stream service req).result = .error .write ∨
          ∃ cause, (SendKafkaRequest writeOk stream service req).result =
            .error (.read cause)) := by
  constructor
  · unfold SendKafkaRequest
    split
    · rfl
    · split
      · rfl
      · split_ifs
        · simp [stillOpen]
        · simp only [List.cons_append, List.nil_append, List.append_eq, stillOpen]
          rw [stillOpen_reads _ _ _ _ (readLoop_ops _ req stream)]
          simp [stillOpen]
  · intro hs
    have hcases : ∀ stream : List ReadResult, ∀ rt : GoString,
        (∃ resp, (readLoop rt req stream).2 = .ok resp) ∨
          ∃ cause, (readLoop rt req stream).2 = .error (.read cause) := by
      intro stream rt
      induction stream with
      | nil => exact Or.inr ⟨_, rfl⟩
      | cons m rest ih =>
        cases m with
        | failure c => exact Or.inr ⟨c, rfl⟩
        | message value =>
          simp only [readLoop]
          split
          · exact ih
          · split_ifs
            · exact Or.inl ⟨_, rfl⟩
            · exact ih
    have hservice : service = str "patients" ∨ service = str "prescriptions" ∨
        service = str "referrals" ∨ service = str "examinations" ∨ service = str "samples" := by
      simpa [topics] using hs
    have hsome : (topics.lookup service).isSome = true ∧
        (responseTopics.lookup service).isSome = true := by
      rcases hservice with e | e | e | e | e <;> subst e <;> decide
    have hreg : ∃ t rt, topics.lookup service = some t ∧
        responseTopics.lookup service = some rt := by
      obtain ⟨t, ht⟩ := Option.isSome_iff_exists.1 hsome.1
      obtain ⟨rt, hrt⟩ := Option.isSome_iff_exists.1 hsome.2
      exact ⟨t, rt, ht, hrt⟩
    obtain ⟨t, rt, ht, hrt⟩ := hreg
    simp only [SendKafkaRequest, ht, hrt]
    cases writeOk
    · exact Or.inr (Or.inl rfl)
    · rcases hcases stream rt with ⟨resp, e⟩ | ⟨c, e⟩
      · exact Or.inl ⟨resp, by simpa using e⟩
      · exact Or.inr (Or.inr ⟨c, by simpa using e⟩)

/-- C21 for the service `patients` when nothing arrives on the response topic. -/
theorem send_closes_what_it_opened_witness :
    (∃ resp, (SendKafkaRequest true [] (str "patients")
        ⟨str "ab12", str "GET", str "/1", none, none, []⟩).result = .ok resp) ∨
      (SendKafkaRequest true [] (str "patients")
        ⟨str "ab12", str "GET", str "/1", none, none, []⟩).result = .error .write ∨
      ∃ cause, (SendKafkaRequest true [] (str "patients")
        ⟨str "ab12", str "GET", str "/1", none, none, []⟩).result = .error (.read cause) :=
  (send_closes_what_it_opened true [] (str "patients")
    ⟨str "ab12", str "GET", str "/1", none, none, []⟩).2 (by decide)

/-- C23: in the tables `topics` and `responseTopics` the same five services
are registered, the request topic of a service differs from its response topic,
and the ten topic names are pairwise distinct, so none is shared between two
services. -/
theorem registered_topics_distinct :
    topics.map Prod.fst = responseTopics.map Prod.fst ∧
      (topics.map Prod.fst).Nodup ∧
      (∀ service ∈ topics.map Prod.fst,
        topics.lookup service ≠ responseTopics.lookup service) ∧
      (topics.map Prod.snd ++ responseTopics.map Prod.snd).Nodup := by
  refine ⟨by decide, by decide, by decide, by decide⟩

/-- C23 for the service `patients`. -/
theorem registered_topics_distinct_witness :
    topics.lookup (str "patients") ≠ responseTopics.lookup (str "patients") :=
  registered_topics_distinct.2.2.1 (str "patients") (by decide)

/-- C27: `requiredTopics` has no duplicate and its members are exactly the
request topics and the response topics of the gateway's tables `topics` and
`responseTopics`. -/
theorem required_topics_are_the_registered_ones :
    requiredTopics.Nodup ∧
      (∀ t ∈ requiredTopics, t ∈ topics.map Prod.snd ++ responseTopics.map Prod.snd) ∧
      (∀ t ∈ topics.map Prod.snd ++ responseTopics.map Prod.snd, t ∈ requiredTopics) ∧
      requiredTopics.length = (topics.map Prod.snd ++ responseTopics.map Prod.snd).length := by
  refine ⟨by decide, by decide, by decide, by decide⟩

/-- C27 for the topic `sample-responses`. -/
theorem required_topics_are_the_registered_ones_witness :
    str "sample-responses" ∈ topics.map Prod.snd ++ responseTopics.map Prod.snd :=
  required_topics_are_the_registered_ones.2.1 (str "sample-responses") (by decide)

theorem readLoop_first_match (responseTopic : GoString) (req : KafkaRequest) (value : GoString)
    (resp : KafkaResponse) (post : List ReadResult) (hu : UnmarshalResponse value = some resp)
    (hid : resp.RequestID = req.RequestID) :
    ∀ pre : List ReadResult, (∀ m ∈ pre, m.noMatch req.RequestID = true) →
      readLoop responseTopic req (pre ++ .message value :: post) =
        (List.replicate (pre.length + 1) (.readMessage responseTopic), .ok resp) := by
  intro pre
  induction pre with
  | nil => intro _; simp [readLoop, hu, hid]
  | cons m rest ih =>
    intro h
    have ih' := ih fun u hu => h u (List.mem_cons_of_mem _ hu)
    have hm := h m (List.mem_cons_self _ _)
    cases m with
    | failure c => simp [ReadResult.noMatch] at hm
    | message v =>
      cases hv : UnmarshalResponse v with
      | none => simp [readLoop, hv, ih', List.replicate_succ]
      | some r =>
        simp [ReadResult.noMatch, hv] at hm
        simp [readLoop, hv, hm, ih', List.replicate_succ]

theorem readLoop_first_failure (responseTopic : GoString) (req : KafkaRequest)
    (cause : ReadFailure) (post : List ReadResult) :
    ∀ pre : List ReadResult, (∀ m ∈ pre, m.noMatch req.RequestID = true) →
      readLoop responseTopic req (pre ++ .failure cause :: post) =
        (List.replicate (pre.length + 1) (.readMessage responseTopic), .error (.read cause)) := by
  intro pre
  induction pre with
  | nil => intro _; simp [readLoop]
  | cons m rest ih =>
    intro h
    have ih' := ih fun u hu => h u (List.mem_cons_of_mem _ hu)
    have hm := h m (List.mem_cons_self _ _)
    cases m with
    | failure c => simp [ReadResult.noMatch] at hm
    | message v =>
      cases hv : UnmarshalResponse v with
      | none => simp [readLoop, hv, ih', List.replicate_succ]
      | some r =>
        simp [ReadResult.noMatch, hv] at hm
        simp [readLoop, hv, hm, ih', List.replicate_succ]

/-- C26: for a registered service whose publish succeeded, let the reads on
the response topic first yield messages that do not unmarshal or carry another
request id.  If the next read is a message that unmarshals to a response with
the request's id, `SendKafkaRequest` returns that response, having read just up
to it; if the next read fails, or nothing more arrives before the deadline, it
returns the read error (for the deadline, the deadline error) and no
response. -/
theorem send_returns_first_match (service topic responseTopic : GoString) (req : KafkaRequest)
    (pre post : List ReadResult) (ht : topics.lookup service = some topic)
    (hr : responseTopics.lookup service = some responseTopic)
    (hpre : ∀ m ∈ pre, m.noMatch req.RequestID = true) :
    (∀ value resp, UnmarshalResponse value = some resp → resp.RequestID = req.RequestID →
        (SendKafkaRequest true (pre ++ .message value :: post) service req).result = .ok resp ∧
          ((SendKafkaRequest true (pre ++ .message value :: post) service req).ops.filter
            fun op => decide (op = .readMessage responseTopic)).length = pre.length + 1) ∧
      (∀ cause,
        (SendKafkaRequest true (pre ++ .failure cause :: post) service req).result =
          .error (.read cause)) ∧
      (SendKafkaRequest true pre service req).result = .error (.read .deadlineExceeded) := by
  refine ⟨fun value resp hu hid => ?_, fun cause => ?_, ?_⟩
  · have h := readLoop_first_match responseTopic req value resp post hu hid pre hpre
    simp only [SendKafkaRequest, ht, hr, h]
    refine ⟨rfl, ?_⟩
    simp [List.filter_cons, List.filter_append, List.filter_replicate]
  · have h := readLoop_first_failure responseTopic req cause post pre hpre
    simp only [SendKafkaRequest, ht, hr, h]
    rfl
  · have h := readLoop_no_match responseTopic req pre hpre
    simp only [SendKafkaRequest, ht, hr, h]
    rfl

/-- C26 on a stream with a malformed message and the reply to another request
in front of the reply to the request `ab12`. -/
theorem send_returns_first_match_witness :
    (SendKafkaRequest true
        ([.message (str "not json"), .message (MarshalResponse ⟨str "ffff", 200, none, none⟩)] ++
          .message (MarshalResponse ⟨str "ab12", 404, none, some (str "x")⟩) ::
            [.message (MarshalResponse ⟨str "ab12", 200, none, none⟩)])
        (str "patients") ⟨str "ab12", str "GET", str "/1", none, none, []⟩).result =
      .ok ⟨str "ab12", 404, none, some (str "x")⟩ :=
  ((send_returns_first_match (str "patients") (str "patient-requests") (str "patient-responses")
    ⟨str "ab12", str "GET", str "/1", none, none, []⟩
    [.message (str "not json"), .message (MarshalResponse ⟨str "ffff", 200, none, none⟩)]
    [.message (MarshalResponse ⟨str "ab12", 200, none, none⟩)] (by decide) (by decide)
    (by decide)).1 (MarshalResponse ⟨str "ab12", 404, none, some (str "x")⟩)
    ⟨str "ab12", 404, none, some (str "x")⟩ (by decide) rfl).1

theorem hexDigit_lowerHex (x : Nat) (h : x < 16) : isLowerHex (hexDigit x) = true := by
  unfold hexDigit isLowerHex
  split_ifs <;> simp <;> omega

theorem hexDigit_inj (x y : Nat) (hx : x < 16) (hy : y < 16) (h : hexDigit x = hexDigit y) :
    x = y := by
  unfold hexDigit at h
  split_ifs at h <;> omega

theorem hexEncode_length : ∀ bs : List Nat, (hexEncode bs).length = 2 * bs.length := by
  intro bs
  induction bs with
  | nil => rfl
  | cons b t ih => simp [hexEncode, ih]; omega

theorem hexEncode_lowerHex : ∀ bs : List Nat, IsBytes bs → ∀ c ∈ hexEncode bs, isLowerHex c = true := by
  intro bs
  induction bs with
  | nil => intro _ c hc; simp [hexEncode] at hc
  | cons b t ih =>
    intro hb c hc
    have hb0 : b < 256 := hb b (List.mem_cons_self _ _)
    have ht : IsBytes t := fun x hx => hb x (List.mem_cons_of_mem _ hx)
    simp only [hexEncode, List.mem_cons] at hc
    rcases hc with e | e | e
    · rw [e]; exact hexDigit_lowerHex _ (by omega)
    · rw [e]; exact hexDigit_lowerHex _ (Nat.mod_lt _ (by decide))
    · exact ih ht c e

theorem hexEncode_inj : ∀ xs ys : List Nat, IsBytes xs → IsBytes ys → xs.length = ys.length →
    hexEncode xs = hexEncode ys → xs = ys := by
  intro xs
  induction xs with
  | nil =>
    intro ys _ _ hl _
    cases ys with
    | nil => rfl
    | cons y t => simp at hl
  | cons x t ih =>
    intro ys hx hy hl h
    cases ys with
    | nil => simp at hl
    | cons y u =>
      have hx0 : x < 256 := hx x (List.mem_cons_self _ _)
      have hy0 : y < 256 := hy y (List.mem_cons_self _ _)
      simp only [hexEncode, List.cons.injEq] at h
      obtain ⟨h1, h2, h3⟩ := h
      have e1 := hexDigit_inj _ _ (by omega) (by omega) h1
      have e2 := hexDigit_inj _ _ (Nat.mod_lt _ (by decide)) (Nat.mod_lt _ (by decide)) h2
      have exy : x = y := by omega
      have := ih u (fun a ha => hx a (List.mem_cons_of_mem _ ha))
        (fun a ha => hy a (List.mem_cons_of_mem _ ha)) (by simpa using hl) h3
      rw [exy, this]

/-- C28: for the 16 bytes that `rand.Read` left in the buffer,
`generateRequestID` returns a text of exactly 32 characters, each one of `0` to
`9` or `a` to `f`, and two buffers that differ give different texts. -/
theorem request_id_is_injective_hex (random : List Nat) (hl : random.length = 16)
    (hb : IsBytes random) :
    (generateRequestID random).length = 32 ∧
      (∀ c ∈ generateRequestID random, isLowerHex c = true) ∧
      ∀ other : List Nat, other.length = 16 → IsBytes other → other ≠ random →
        generateRequestID other ≠ generateRequestID random := by
  refine ⟨?_, hexEncode_lowerHex random hb, fun other hol hob hne h => ?_⟩
  · rw [generateRequestID, hexEncode_length, hl]
  · exact hne (hexEncode_inj other random hob hb (by rw [hol, hl]) h)

/-- C28 on the buffer of sixteen bytes `0xab`. -/
theorem request_id_is_injective_hex_witness :
    (generateRequestID (List.replicate 16 171)).length = 32 ∧
      (∀ c ∈ generateRequestID (List.replicate 16 171), isLowerHex c = true) ∧
      ∀ other : List Nat, other.length = 16 → IsBytes other → other ≠ List.replicate 16 171 →
        generateRequestID other ≠ generateRequestID (List.replicate 16 171) :=
  request_id_is_injective_hex (List.replicate 16 171) (by decide) (by unfold IsBytes; decide)

/-! ## The reply of the gateway -/

theorem lookup_headerDel_ne (h : List (GoString × GoString)) (key k : GoString) (hne : k ≠ key) :
    (headerDel h key).lookup k = h.lookup k := by
  induction h with
  | nil => rfl
  | cons a t ih =>
    obtain ⟨k1, v1⟩ := a
    by_cases e : k1 = key
    · subst e
      have hk : (k == k1) = false := by simpa using hne
      simp [headerDel, List.filter_cons, List.lookup, hk] at ih ⊢
      exact ih
    · by_cases hk : k = k1
      · simp [headerDel, List.filter_cons, e, List.lookup, hk]
      · have hk' : (k == k1) = false := by simpa using hk
        simp [headerDel, List.filter_cons, e, List.lookup, hk'] at ih ⊢
        exact ih

theorem lookup_headerSet_self (h : List (GoString × GoString)) (key value : GoString) :
    (headerSet h key value).lookup key = some value := by
  simp [headerSet, List.lookup]

theorem lookup_headerSet_ne (h : List (GoString × GoString)) (key value k : GoString)
    (hne : k ≠ key) : (headerSet h key value).lookup k = h.lookup k := by
  have hk : (k == key) = false := by simpa using hne
  simp [headerSet, List.lookup, hk, lookup_headerDel_ne h key k hne]

theorem header_status (r : Reply) (k v : GoString) :
    (r.header k v).Status = r.Status ∧ (r.header k v).Body = r.Body := by
  unfold Reply.header
  split_ifs <;> exact ⟨rfl, rfl⟩

theorem headers_fold_status (entries : List (GoString × GoString)) :
    ∀ r : Reply, (entries.foldl (fun r kv => r.header kv.1 kv.2) r).Status = r.Status ∧
      (entries.foldl (fun r kv => r.header kv.1 kv.2) r).Body = r.Body := by
  induction entries with
  | nil => intro r; exact ⟨rfl, rfl⟩
  | cons a t ih =>
    intro r
    have := ih (r.header a.1 a.2)
    have h2 := header_status r a.1 a.2
    simp only [List.foldl_cons]
    exact ⟨this.1.trans h2.1, this.2.trans h2.2⟩

theorem headers_fold_other (entries : List (GoString × GoString)) (k : GoString) :
    ∀ r : Reply, k ∉ entries.map (fun kv => CanonicalMIMEHeaderKey kv.1) →
      (entries.foldl (fun r kv => r.header kv.1 kv.2) r).Header.lookup k = r.Header.lookup k := by
  induction entries with
  | nil => intro r _; rfl
  | cons a t ih =>
    intro r h
    simp only [List.map_cons, List.mem_cons, not_or] at h
    simp only [List.foldl_cons]
    rw [ih (r.header a.1 a.2) h.2]
    unfold Reply.header
    split_ifs
    · exact lookup_headerDel_ne _ _ _ h.1
    · exact lookup_headerSet_ne _ _ _ _ h.1

theorem headers_fold_carried (entries : List (GoString × GoString)) :
    ∀ r : Reply, (entries.map fun kv => CanonicalMIMEHeaderKey kv.1).Nodup →
      ∀ kv ∈ entries, kv.2 ≠ [] →
        (entries.foldl (fun r kv => r.header kv.1 kv.2) r).Header.lookup
          (CanonicalMIMEHeaderKey kv.1) = some kv.2 := by
  induction entries with
  | nil => intro r _ kv h; simp at h
  | cons a t ih =>
    intro r hnd kv hkv hne
    simp only [List.map_cons, List.nodup_cons] at hnd
    simp only [List.foldl_cons]
    rcases List.mem_cons.1 hkv with e | e
    · subst e
      rw [headers_fold_other t _ _ hnd.1]
      simp only [Reply.header, hne, if_false]
      exact lookup_headerSet_self _ _ _
    · exact ih _ hnd.2 kv e hne

theorem handleRequest_ok (writeOk : Bool) (stream : List ReadResult) (brokerText : GoString)
    (random : List Nat) (c : InboundRequest) (body : List Nat) (resp : KafkaResponse)
    (hb : c.Body = some body)
    (hs : (SendKafkaRequest writeOk stream c.service (gatewayRequest random c body)).result =
      .ok resp) :
    (handleRequest writeOk stream brokerText random c).calls =
      (resp.Headers.entries.map fun kv => GinCall.Header kv.1 kv.2) ++
        [.Data resp.StatusCode (resp.Headers.get (str "Content-Type")) resp.Body] := by
  simp only [handleRequest, hb, hs]

/-! ## The prescription service -/

theorem savePrescription_inv (t : Table Prescription) (p : Prescription)
    (h : SentIsValidated t) (hp : p.Sent = true → p.Validated = true) :
    SentIsValidated (savePrescription t p) := by
  unfold savePrescription
  split_ifs
  · intro q hq
    simp only [List.mem_map] at hq
    obtain ⟨q0, hq0, e⟩ := hq
    split_ifs at e
    · rw [← e]; exact hp
    · rw [← e]; exact h q0 hq0
  · intro q hq
    simp only [List.mem_append, List.mem_singleton] at hq
    rcases hq with hq | hq
    · exact h q hq
    · rw [hq]; exact hp

theorem GetPrescriptionByID_mem (faults : DBFaults) (t : Table Prescription) (id : Nat)
    (p : Prescription) (h : GetPrescriptionByID faults t id = (p, none)) :
    p ∈ t.rows ∧ p.ID = id ∧ faults.first = none ∧
      (t.rows.find? fun q => q.ID == id) = some p := by
  unfold GetPrescriptionByID at h
  split at h
  · simp at h
  · rename_i hf
    split at h
    · simp at h
    · rename_i q hq
      simp only [Prod.mk.injEq, and_true] at h
      subst h
      have := List.find?_some hq
      exact ⟨List.mem_of_find?_eq_some hq, by simpa using this, hf, hq⟩

/-- `CreatePrescription` keeps the business rule. -/
theorem CreatePrescription_inv (faults : DBFaults) (t : Table Prescription) (e : Nat)
    (m d i : GoString) (h : SentIsValidated t) :
    SentIsValidated (CreatePrescription faults t e m d i).table := by
  unfold CreatePrescription
  split
  · exact h
  · intro q hq
    simp only [List.mem_append, List.mem_singleton] at hq
    rcases hq with hq | hq
    · exact h q hq
    · rw [hq]; intro hs; simp at hs

/-- `ValidatePrescription` keeps the business rule. -/
theorem ValidatePrescription_inv (faults : DBFaults) (t : Table Prescription) (id : Nat)
    (h : SentIsValidated t) : SentIsValidated (ValidatePrescription faults t id).table := by
  unfold ValidatePrescription
  split
  · exact h
  · split_ifs
    · exact h
    · split
      · exact h
      · exact savePrescription_inv t _ h fun _ => rfl

/-- `SendPrescription` keeps the business rule. -/
theorem SendPrescription_inv (faults : DBFaults) (t : Table Prescription) (id : Nat)
    (h : SentIsValidated t) : SentIsValidated (SendPrescription faults t id).table := by
  unfold SendPrescription
  split
  · exact h
  · split_ifs with h1 h2
    · exact h
    · exact h
    · split
      · exact h
      · exact savePrescription_inv t _ h fun _ => by simpa using h1

theorem updatedFields_flags (p : Prescription) (m d i : GoString) (validated : Option Bool) :
    (updatedFields p m d i validated).Sent = p.Sent ∧
      (updatedFields p m d i validated).Validated = validated.getD p.Validated := by
  unfold updatedFields
  cases validated <;> simp only [Option.getD] <;> split_ifs <;> simp

/-- `UpdatePrescription` keeps the business rule unless it is told to withdraw
the validation (`validated` pointing to false) while `sent` is nil. -/
theorem UpdatePrescription_inv (faults : DBFaults) (t : Table Prescription) (id : Nat)
    (m d i : GoString) (validated sent : Option Bool) (h : SentIsValidated t)
    (hv : validated ≠ some false ∨ sent ≠ none) :
    SentIsValidated (UpdatePrescription faults t id m d i validated sent).table := by
  unfold UpdatePrescription
  split
  · exact h
  · rename_i p hget
    have hp := (GetPrescriptionByID_mem faults t id p hget).1
    have hpv := h p hp
    have hfl := updatedFields_flags p m d i validated
    simp only
    generalize updatedFields p m d i validated = u at hfl
    cases sent with
    | some s =>
      simp only
      split_ifs with hc
      · exact h
      · split
        · exact h
        · apply savePrescription_inv t _ h
          intro hs
          simp only at hs
          cases hu : u.Validated with
          | true => rfl
          | false => exact absurd ⟨hs, hu⟩ hc
    | none =>
      simp only
      split
      · exact h
      · apply savePrescription_inv t _ h
        rw [hfl.1, hfl.2]
        cases validated with
        | none => exact hpv
        | some v =>
          cases v with
          | true => intro _; rfl
          | false => simp at hv

theorem updatedFields_id (p : Prescription) (m d i : GoString) (validated : Option Bool) :
    (updatedFields p m d i validated).ID = p.ID := by
  unfold updatedFields
  cases validated <;> simp only <;> split_ifs <;> rfl

theorem mem_savePrescription (t : Table Prescription) (p : Prescription) :
    p ∈ (savePrescription t p).rows := by
  unfold savePrescription
  split_ifs with h
  · rw [List.any_eq_true] at h
    obtain ⟨q, hq, e⟩ := h
    simp only [List.mem_map]
    exact ⟨q, hq, by simp [show q.ID = p.ID by simpa using e]⟩
  · simp

/-- C24: `UpdatePrescription` does not keep the rule that a stored prescription
with `Sent = true` has `Validated = true`.  For every table and every
prescription found under `id` that is sent, the call with `validated` pointing
to false and `sent` nil, whatever the other arguments, succeeds when the
database answers and stores the prescription with `Sent = true` and
`Validated = false`: the rule does not hold after the call, also when it held
before. -/
theorem update_unvalidates_sent_prescription (t : Table Prescription) (id : Nat)
    (p : Prescription) (m d i : GoString)
    (hfind : (t.rows.find? fun q => q.ID == id) = some p) (hsent : p.Sent = true) :
    (UpdatePrescription DBFaults.none t id m d i (some false) none).err = none ∧
      (UpdatePrescription DBFaults.none t id m d i (some false) none).prescription.Sent = true ∧
      (UpdatePrescription DBFaults.none t id m d i (some false) none).prescription.Validated =
        false ∧
      (UpdatePrescription DBFaults.none t id m d i (some false) none).prescription ∈
        (UpdatePrescription DBFaults.none t id m d i (some false) none).table.rows ∧
      ¬SentIsValidated (UpdatePrescription DBFaults.none t id m d i (some false) none).table := by
  have hget : GetPrescriptionByID DBFaults.none t id = (p, none) := by
    simp only [GetPrescriptionByID, DBFaults.none, hfind]
  have hfl := updatedFields_flags p m d i (some false)
  have hrun : UpdatePrescription DBFaults.none t id m d i (some false) none =
      ⟨savePrescription t (updatedFields p m d i (some false)),
        updatedFields p m d i (some false), none⟩ := by
    unfold UpdatePrescription
    rw [hget]
    rfl
  rw [hrun]
  have hs : (updatedFields p m d i (some false)).Sent = true := by rw [hfl.1, hsent]
  have hv : (updatedFields p m d i (some false)).Validated = false := by rw [hfl.2]; rfl
  refine ⟨rfl, hs, hv, mem_savePrescription _ _, fun hinv => ?_⟩
  have := hinv _ (mem_savePrescription t (updatedFields p m d i (some false))) hs
  rw [hv] at this
  cases this

/-- C24 on the table whose one prescription is validated and sent. -/
theorem update_unvalidates_sent_prescription_witness :
    SentIsValidated ⟨[⟨1, 7, str "Iron", str "1", [], true, true⟩], 1⟩ ∧
      UpdatePrescription DBFaults.none ⟨[⟨1, 7, str "Iron", str "1", [], true, true⟩], 1⟩ 1
          [] [] [] (some false) none =
        ⟨⟨[⟨1, 7, str "Iron", str "1", [], false, true⟩], 1⟩,
          ⟨1, 7, str "Iron", str "1", [], false, true⟩, none⟩ ∧
      ¬SentIsValidated
        (UpdatePrescription DBFaults.none ⟨[⟨1, 7, str "Iron", str "1", [], true, true⟩], 1⟩ 1
          [] [] [] (some false) none).table :=
  ⟨by decide, by decide,
    (update_unvalidates_sent_prescription ⟨[⟨1, 7, str "Iron", str "1", [], true, true⟩], 1⟩ 1
      ⟨1, 7, str "Iron", str "1", [], true, true⟩ [] [] [] (by decide) rfl).2.2.2.2⟩

theorem find?_savePrescription (t : Table Prescription) (p p1 : Prescription) (id : Nat)
    (hf : (t.rows.find? fun q => q.ID == id) = some p) (hid : p1.ID = p.ID) :
    ((savePrescription t p1).rows.find? fun q => q.ID == id) = some p1 := by
  have hpid : p.ID = id := by simpa using List.find?_some hf
  have hmem : p ∈ t.rows := List.mem_of_find?_eq_some hf
  have hany : t.rows.any (fun q => q.ID == p1.ID) = true := by
    rw [List.any_eq_true]
    exact ⟨p, hmem, by simp [hid]⟩
  unfold savePrescription
  rw [if_pos hany]
  simp only
  generalize t.rows = rows at hf
  induction rows with
  | nil => simp at hf
  | cons a rest ih =>
    by_cases ha : a.ID = id
    · have h1 : a.ID = p1.ID := by rw [ha, hid, hpid]
      have h2 : p1.ID = id := by rw [hid, hpid]
      simp [List.find?_cons, h1, h2]
    · have hne : (a.ID == id) = false := by simpa using ha
      have h1 : ¬a.ID = p1.ID := by rw [hid, hpid]; exact ha
      rw [List.find?_cons, hne] at hf
      simp only [List.map_cons, h1, if_false, List.find?_cons, hne]
      exact ih hf

/-- C25: for a prescription `p` that `SendPrescription` finds under `id`.  If
`p.Validated` is false the call fails with `prescription must be validated
before sending` and leaves the table as it was.  If it is true, the call
returns `p` with `Sent = true` and every other field unchanged; when the
database answers the save, it returns no error, and a second call returns the
same prescription and leaves the table as the first call left it.  When the
database answers the save, the call fails with that text exactly when
`p.Validated` is false. -/
theorem send_requires_validation (faults : DBFaults) (t : Table Prescription) (id : Nat)
    (p : Prescription) (hfirst : faults.first = none)
    (hfind : (t.rows.find? fun q => q.ID == id) = some p) :
    (p.Validated = false →
      SendPrescription faults t id =
        ⟨t, Prescription.zero, some (str "prescription must be validated before sending")⟩) ∧
      (p.Validated = true →
        (SendPrescription faults t id).prescription = { p with Sent := true } ∧
          (faults.save = none →
            (SendPrescription faults t id).err = none ∧
              SendPrescription faults (SendPrescription faults t id).table id =
                ⟨(SendPrescription faults t id).table, { p with Sent := true }, none⟩)) ∧
      (faults.save = none →
        ((SendPrescription faults t id).err =
            some (str "prescription must be validated before sending") ↔
          p.Validated = false)) := by
  have hget : GetPrescriptionByID faults t id = (p, none) := by
    simp only [GetPrescriptionByID, hfirst, hfind]
  have hget2 : ∀ t1 : Table Prescription, ∀ p1 : Prescription,
      (t1.rows.find? fun q => q.ID == id) = some p1 →
      GetPrescriptionByID faults t1 id = (p1, none) := by
    intro t1 p1 h
    simp only [GetPrescriptionByID, hfirst, h]
  have hsent : ∀ t1 : Table Prescription, ∀ p1 : Prescription,
      (t1.rows.find? fun q => q.ID == id) = some p1 → p1.Validated = true → p1.Sent = true →
      SendPrescription faults t1 id = ⟨t1, p1, none⟩ := by
    intro t1 p1 h hv hs
    simp only [SendPrescription, hget2 t1 p1 h, hv, hs, if_true, Bool.true_eq_false, if_false]
  refine ⟨fun hv => ?_, fun hv => ?_, fun hsave => ?_⟩
  · simp only [SendPrescription, hget, hv, if_true]
  · by_cases hs : p.Sent = true
    · have e : ({ p with Sent := true } : Prescription) = p := by
        cases p; simp only at hs; simp [hs]
      rw [e, hsent t p hfind hv hs]
      exact ⟨rfl, fun _ => ⟨rfl, hsent t p hfind hv hs⟩⟩
    · have hrun : SendPrescription faults t id =
          match faults.save with
          | some e => ⟨t, { p with Sent := true }, some e⟩
          | none => ⟨savePrescription t { p with Sent := true }, { p with Sent := true }, none⟩ := by
        have hs1 : p.Sent = false := by simpa using hs
        simp only [SendPrescription, hget, hv, hs1, Bool.true_eq_false, Bool.false_eq_true,
          if_false]
      refine ⟨?_, fun hsave => ?_⟩
      · rw [hrun]; split <;> rfl
      · rw [hsave] at hrun
        simp only at hrun
        rw [hrun]
        refine ⟨rfl, ?_⟩
        exact hsent _ _ (find?_savePrescription t p _ id hfind rfl) hv rfl
  · cases hv : p.Validated with
    | false =>
      simp only [SendPrescription, hget, hv, if_true]
    | true =>
      by_cases hs : p.Sent = true
      · rw [hsent t p hfind hv hs]
        simp
      · have hs1 : p.Sent = false := by simpa using hs
        simp only [SendPrescription, hget, hv, hs1, Bool.true_eq_false, Bool.false_eq_true,
          if_false, hsave]
        simp

/-- C25 on the table with one validated prescription that is not yet sent. -/
theorem send_requires_validation_witness :
    (SendPrescription DBFaults.none ⟨[⟨1, 7, str "Iron", str "1", [], true, false⟩], 1⟩
        1).prescription = ⟨1, 7, str "Iron", str "1", [], true, true⟩ :=
  ((send_requires_validation DBFaults.none ⟨[⟨1, 7, str "Iron", str "1", [], true, false⟩], 1⟩
    1 ⟨1, 7, str "Iron", str "1", [], true, false⟩ rfl (by decide)).2.1 rfl).1

/-! ## The sample service -/

theorem append_ne_of_drop (t suffix target : GoString) (n : Nat)
    (hn : n + suffix.length = target.length) (hd : target.drop n ≠ suffix) :
    t ++ suffix ≠ target := by
  intro h
  have hl : t.length = n := by
    have := congrArg List.length h
    rw [List.length_append] at this
    omega
  apply hd
  rw [← h, ← hl, List.drop_left]

/-- The result of `evaluateSample` takes `generateAutomaticPrescription` to the
branch of the sample type. -/
theorem automaticPrescription_evaluateSample (sample : Sample) :
    automaticPrescription (evaluateSample sample) =
      if sample.SampleType = str "blood" then
        (str "Iron supplement", str "One tablet daily", str "Take with food")
      else if sample.SampleType = str "urine" then
        (str "Vitamin C", str "500mg daily", str "Take with water")
      else (str "General antibiotic", str "One pill twice daily", str "Take for 7 days") := by
  unfold evaluateSample
  by_cases hb : sample.SampleType = str "blood"
  · rw [if_pos hb, if_pos hb]; decide
  · rw [if_neg hb, if_neg hb]
    by_cases hu : sample.SampleType = str "urine"
    · rw [if_pos hu, if_pos hu]; decide
    · rw [if_neg hu, if_neg hu]
      by_cases ht : sample.SampleType = str "tissue"
      · rw [if_pos ht]; decide
      · rw [if_neg ht]
        generalize sample.SampleType = ty
        have hlen : (ty ++ str " sample analyzed. Results appear normal.").length =
            ty.length + 40 := by
          rw [List.length_append]
          have : (str " sample analyzed. Results appear normal.").length = 40 := by decide
          rw [this]
        have h1 : ¬(ty ++ str " sample analyzed. Results appear normal." = [] ∨
            (ty ++ str " sample analyzed. Results appear normal.").length < 10) := by
          rw [hlen]
          intro h
          rcases h with h | h
          · have := congrArg List.length h
            rw [hlen] at this
            simp at this
          · omega
        have h2 : ty ++ str " sample analyzed. Results appear normal." ≠
            str "Blood sample analysis complete. Parameters within normal range." :=
          append_ne_of_drop ty _ _ 23 (by decide) (by decide)
        have h3 : ty ++ str " sample analyzed. Results appear normal." ≠
            str "Urine sample analysis complete. No abnormalities detected." :=
          append_ne_of_drop ty _ _ 18 (by decide) (by decide)
        unfold automaticPrescription
        rw [if_neg h1, if_neg h2, if_neg h3]

theorem CreateSample_ok (faults : TxFaults) (db : SampleDB) (examinationID : Nat)
    (sampleType result : GoString)
    (h : (CreateSample faults db examinationID sampleType result).err = none) :
    (CreateSample faults db examinationID sampleType result).sample =
        ⟨db.samples.seq + 1, examinationID, sampleType,
          evaluateSample ⟨db.samples.seq + 1, examinationID, sampleType, result⟩⟩ ∧
      (CreateSample faults db examinationID sampleType result).db.prescriptions =
        (generateAutomaticPrescription none db.prescriptions examinationID
          (evaluateSample ⟨db.samples.seq + 1, examinationID, sampleType, result⟩)).table := by
  unfold CreateSample at h ⊢
  cases hb : faults.begin with
  | some e => simp [hb] at h
  | none =>
    cases hc : faults.create with
    | some e => simp [hb, hc] at h
    | none =>
      cases hs : faults.save with
      | some e => simp [hb, hc, hs] at h
      | none =>
        cases hp : faults.prescription with
        | some e =>
          simp [hb, hc, hs, hp, generateAutomaticPrescription, CreatePrescription] at h
        | none =>
          cases hm : faults.commit with
          | some e =>
            simp [hb, hc, hs, hp, hm, generateAutomaticPrescription, CreatePrescription] at h
          | none =>
            simp [hb, hc, hs, hp, hm, generateAutomaticPrescription, CreatePrescription]

/-- C29: for every sample type, every initial result and every state of the
database, the sample that `CreateSample` returns on success has as `Result`
what `evaluateSample` gives for the sample type (the same for every sample of
that type, whatever its result), and the one prescription it adds to the table
has the medication `Iron supplement` exactly when the type is `blood`,
`Vitamin C` exactly when it is `urine`, and `General antibiotic` for any other
type, never `Generic medication`. -/
theorem create_sample_prescribes_by_type (faults : TxFaults) (db : SampleDB)
    (examinationID : Nat) (sampleType result : GoString)
    (h : (CreateSample faults db examinationID sampleType result).err = none) :
    (∀ other : Sample, other.SampleType = sampleType →
      (CreateSample faults db examinationID sampleType result).sample.Result =
        evaluateSample other) ∧
      ∃ p : Prescription,
        (CreateSample faults db examinationID sampleType result).db.prescriptions.rows =
            db.prescriptions.rows ++ [p] ∧
          p.ExaminationID = examinationID ∧
          (p.Medication = str "Iron supplement" ↔ sampleType = str "blood") ∧
          (p.Medication = str "Vitamin C" ↔ sampleType = str "urine") ∧
          (sampleType ≠ str "blood" → sampleType ≠ str "urine" →
            p.Medication = str "General antibiotic") ∧
          p.Medication ≠ str "Generic medication" := by
  obtain ⟨h1, h2⟩ := CreateSample_ok faults db examinationID sampleType result h
  constructor
  · intro other ho
    rw [h1]
    simp only [evaluateSample, ho]
  · have key : ∃ m d i,
        automaticPrescription
            (evaluateSample ⟨db.samples.seq + 1, examinationID, sampleType, result⟩) =
          (m, d, i) ∧
        (m = str "Iron supplement" ↔ sampleType = str "blood") ∧
        (m = str "Vitamin C" ↔ sampleType = str "urine") ∧
        (sampleType ≠ str "blood" → sampleType ≠ str "urine" →
          m = str "General antibiotic") ∧
        m ≠ str "Generic medication" := by
      rw [automaticPrescription_evaluateSample]
      by_cases hb : sampleType = str "blood"
      · subst hb
        exact ⟨_, _, _, if_pos rfl, by decide, by decide, by decide, by decide⟩
      · by_cases hu : sampleType = str "urine"
        · subst hu
          have hne : ¬str "urine" = str "blood" := by decide
          exact ⟨_, _, _, (if_neg hne).trans (if_pos rfl), by decide, by decide,
            by decide, by decide⟩
        · refine ⟨_, _, _, (if_neg hb).trans (if_neg hu), ?_, ?_, fun _ _ => rfl, by decide⟩
          · simp only [hb, iff_false]; decide
          · simp only [hu, iff_false]; decide
    obtain ⟨m, d, i, hk, k1, k2, k3, k4⟩ := key
    rw [h2]
    simp only [generateAutomaticPrescription, hk, CreatePrescription]
    exact ⟨_, rfl, rfl, k1, k2, k3, k4⟩

/-- C29 on a tissue sample handed in with a result of its own. -/
theorem create_sample_prescribes_by_type_witness :
    (CreateSample ⟨none, none, none, none, none⟩ ⟨⟨[], 0⟩, ⟨[], 0⟩⟩ 7 (str "tissue")
        (str "n/a")).sample.Result =
      evaluateSample ⟨0, 0, str "tissue", []⟩ :=
  (create_sample_prescribes_by_type ⟨none, none, none, none, none⟩ ⟨⟨[], 0⟩, ⟨[], 0⟩⟩ 7
    (str "tissue") (str "n/a") (by decide)).1 ⟨0, 0, str "tissue", []⟩ rfl

/-! ## The id a handler reads -/

theorem parseUintLoop_bound : ∀ (cs : GoString) (n m : Nat),
    parseUintLoop 10 32 n cs = .ok m → (cs = [] ∧ m = n) ∨ m < 2 ^ 32 := by
  intro cs
  induction cs with
  | nil =>
    intro n m h
    unfold parseUintLoop at h
    injection h with h
    exact Or.inl ⟨rfl, h.symm⟩
  | cons c t ih =>
    intro n m h
    right
    unfold parseUintLoop at h
    simp only at h
    split at h
    · cases h
    · split_ifs at h with h1 h2 h3
      rcases ih _ _ h with ⟨_, e⟩ | hb
      · rw [e]
        have : ¬((n * 10 % 2 ^ 64 + _) % 2 ^ 64 > 2 ^ 32 - 1) := fun x => h3 (Or.inr x)
        norm_num at this ⊢
        omega
      · exact hb

theorem ParseUint_bound (s : GoString) (m : Nat) (h : ParseUint s 10 32 = .ok m) :
    m < 2 ^ 32 := by
  unfold ParseUint at h
  split_ifs at h with hs
  rcases parseUintLoop_bound s 0 m h with ⟨e, _⟩ | hb
  · exact absurd e hs
  · exact hb

theorem parseID_pos (idStr : GoString) (id : Nat) (h : parseID idStr = .ok id) (hpos : id > 0) :
    ParseUint idStr 10 32 = .ok id := by
  unfold parseID at h
  split_ifs at h
  · exact h
  · injection h with h
    omega

/-- A case of the switch that passes an id: the handler finds the segment the
dispatcher parsed under the key it reads, and parses it to the same id. -/
theorem serve_id_call (h : Handlers) (req : KafkaRequest) (name : HandlerName)
    (c : GinContext) (key idStr : GoString) (id : Nat) (hc : c.Params = [])
    (hname : name.idParam = some key) (hid : parseID idStr = .ok id) (hpos : id > 0) :
    ∀ call ∈ (serve h req name (addParam c key idStr)).calls,
      ∀ key1, call.handler.idParam = some key1 →
        key1 = key ∧ call.ctx.Param key1 = idStr ∧
          call.handler.parsedID call.ctx = some (.ok id) := by
  intro call hcall key1 hk
  simp only [serve, List.mem_singleton] at hcall
  subst hcall
  simp only at hk
  rw [hname] at hk
  injection hk with hk
  have e : key1 = key := hk.symm
  rw [e]
  have hp : (addParam c key idStr).Param key = idStr := by
    simp [GinContext.Param, addParam, hc, List.lookup]
  refine ⟨rfl, hp, ?_⟩
  simp only [HandlerName.parsedID, hname, Option.map_some', hp, parseID_pos idStr id hid hpos]

/-- A case of the switch that passes no id. -/
theorem serve_plain_call (h : Handlers) (req : KafkaRequest) (name : HandlerName)
    (c : GinContext) (hname : name.idParam = none) :
    ∀ call ∈ (serve h req name c).calls, call.handler.idParam = none := by
  intro call hcall
  simp only [serve, List.mem_singleton] at hcall
  subst hcall
  exact hname

/-- What C30 says of one handler invocation of a worker. -/
theorem worker_call_id (w : Worker) (f : GoString → Bool) (h : Handlers) (req : KafkaRequest) :
    ∀ call ∈ (w.handleKafkaRequest f h req).calls,
      ∀ key, call.handler.idParam = some key →
        ∃ n, 0 < n ∧ parseID (w.segmentFor req key) = .ok n ∧
          call.ctx.Param key = w.segmentFor req key ∧
          call.handler.parsedID call.ctx = some (.ok n) := by
  have plain : ∀ (name : HandlerName) (c : GinContext), name.idParam = none →
      ∀ call ∈ (serve h req name c).calls,
        ∀ key, call.handler.idParam = some key →
          ∃ n, 0 < n ∧ parseID (w.segmentFor req key) = .ok n ∧
            call.ctx.Param key = w.segmentFor req key ∧
            call.handler.parsedID call.ctx = some (.ok n) := by
    intro name c hn call hcall key hk
    rw [serve_plain_call h req name c hn call hcall] at hk
    cases hk
  have withID : ∀ (name : HandlerName) (c : GinContext) (key seg : GoString) (id : Nat),
      c.Params = [] → name.idParam = some key → parseID seg = .ok id → id > 0 →
      w.segmentFor req key = seg →
      ∀ call ∈ (serve h req name (addParam c key seg)).calls,
        ∀ key1, call.handler.idParam = some key1 →
          ∃ n, 0 < n ∧ parseID (w.segmentFor req key1) = .ok n ∧
            call.ctx.Param key1 = w.segmentFor req key1 ∧
            call.handler.parsedID call.ctx = some (.ok n) := by
    intro name c key seg id hc hn hid hpos hseg call hcall key1 hk
    obtain ⟨e, hp, hparsed⟩ := serve_id_call h req name c key seg id hc hn hid hpos call hcall key1 hk
    subst e
    exact ⟨id, hpos, by rw [hseg]; exact hid, by rw [hseg]; exact hp, hparsed⟩
  cases hcm : createMockGinContext f req with
  | none => cases w <;>
      simp [Worker.handleKafkaRequest, PatientService.handleKafkaRequest,
        ExaminationService.handleKafkaRequest, SampleService.handleKafkaRequest, hcm]
  | some c =>
    have hc := createMockGinContext_params f req c hcm
    cases w with
    | patient =>
      have hseg : Worker.patient.segmentFor req (str "id") =
          PatientService.extractIDFromPath (routedPath req) := by
        simp [Worker.segmentFor, Worker.idStr]
      unfold routedPath at hseg
      cases hid : parseID (PatientService.extractIDFromPath
          (if req.Path = [] then str "/" else req.Path)) with
      | error e =>
        simp [Worker.handleKafkaRequest, PatientService.handleKafkaRequest, hcm, hid]
      | ok id =>
        simp only [Worker.handleKafkaRequest, PatientService.handleKafkaRequest, hcm, hid]
        generalize (if req.Path = [] then str "/" else req.Path) = path at hid hseg ⊢
        split_ifs with h1 h2 h3 h4 h5
        · exact plain _ _ rfl
        · exact withID _ c _ _ id hc rfl hid h2.2 hseg
        · exact plain _ _ rfl
        · exact withID _ c _ _ id hc rfl hid h4.2 hseg
        · exact withID _ c _ _ id hc rfl hid h5.2 hseg
        · simp
    | examination =>
      have hseg : Worker.examination.segmentFor req (str "id") =
          ExaminationService.extractIDFromPath (routedPath req) := by
        simp [Worker.segmentFor, Worker.idStr]
      have hseg2 : Worker.examination.segmentFor req (str "patientId") =
          ExaminationService.extractPatientIDFromPath (routedPath req) := by
        have : ¬str "patientId" = str "id" := by decide
        simp [Worker.segmentFor, Worker.parentStr, this]
      unfold routedPath at hseg hseg2
      cases hid : parseID (ExaminationService.extractIDFromPath
          (if req.Path = [] then str "/" else req.Path)) with
      | error e =>
        simp [Worker.handleKafkaRequest, ExaminationService.handleKafkaRequest, hcm, hid]
      | ok id =>
        cases hpid : parseID (ExaminationService.extractPatientIDFromPath
            (if req.Path = [] then str "/" else req.Path)) with
        | error e =>
          simp [Worker.handleKafkaRequest, ExaminationService.handleKafkaRequest, hcm, hid, hpid]
        | ok pid =>
          simp only [Worker.handleKafkaRequest, ExaminationService.handleKafkaRequest, hcm, hid,
            hpid]
          generalize (if req.Path = [] then str "/" else req.Path) = path at hid hpid hseg hseg2 ⊢
          split_ifs with h1 h2 h3 h4 h5 h6
          · exact plain _ _ rfl
          · exact withID _ c _ _ id hc rfl hid h2.2 hseg
          · exact plain _ _ rfl
          · exact withID _ c _ _ id hc rfl hid h4.2 hseg
          · exact withID _ c _ _ id hc rfl hid h5.2 hseg
          · exact withID _ c _ _ pid hc rfl hpid h6.2 hseg2
          · simp
    | sample =>
      have hseg : Worker.sample.segmentFor req (str "id") =
          SampleService.extractIDFromPath (routedPath req) := by
        simp [Worker.segmentFor, Worker.idStr]
      have hseg2 : Worker.sample.segmentFor req (str "examinationId") =
          SampleService.extractExaminationIDFromPath (routedPath req) := by
        have : ¬str "examinationId" = str "id" := by decide
        simp [Worker.segmentFor, Worker.parentStr, this]
      unfold routedPath at hseg hseg2
      cases hid : parseID (SampleService.extractIDFromPath
          (if req.Path = [] then str "/" else req.Path)) with
      | error e =>
        simp [Worker.handleKafkaRequest, SampleService.handleKafkaRequest, hcm, hid]
      | ok id =>
        cases hpid : parseID (SampleService.extractExaminationIDFromPath
            (if req.Path = [] then str "/" else req.Path)) with
        | error e =>
          simp [Worker.handleKafkaRequest, SampleService.handleKafkaRequest, hcm, hid, hpid]
        | ok pid =>
          simp only [Worker.handleKafkaRequest, SampleService.handleKafkaRequest, hcm, hid,
            hpid]
          generalize (if req.Path = [] then str "/" else req.Path) = path at hid hpid hseg hseg2 ⊢
          split_ifs with h1 h2 h3 h4 h5 h6
          · exact plain _ _ rfl
          · exact withID _ c _ _ id hc rfl hid h2.2 hseg
          · exact plain _ _ rfl
          · exact withID _ c _ _ id hc rfl hid h4.2 hseg
          · exact withID _ c _ _ id hc rfl hid h5.2 hseg
          · exact withID _ c _ _ pid hc rfl hpid h6.2 hseg2
          · simp

/-- C30: whenever `handleKafkaRequest` of the patient, examination or sample
service invokes a handler method that takes an id, the parameter the method
reads is the path segment the dispatcher parsed, it parses as a base-10
unsigned 32-bit integer `n` greater than 0, the same `n` the dispatcher
parsed, so the method's `strconv.ParseUint` returns no error and its
`Invalid ID format` branch is not taken. -/
theorem handler_id_always_parses (w : Worker) (f : GoString → Bool) (h : Handlers)
    (req : KafkaRequest) (call : Call) (key : GoString)
    (hcall : call ∈ (w.handleKafkaRequest f h req).calls)
    (hkey : call.handler.idParam = some key) :
    ∃ n, 0 < n ∧ n < 2 ^ 32 ∧ ParseUint (call.ctx.Param key) 10 32 = .ok n ∧
      call.handler.parsedID call.ctx = some (.ok n) ∧
      call.ctx.Param key = w.segmentFor req key ∧
      parseID (w.segmentFor req key) = .ok n := by
  obtain ⟨n, hpos, hid, hp, hparsed⟩ := worker_call_id w f h req call hcall key hkey
  have hu : ParseUint (call.ctx.Param key) 10 32 = .ok n := by
    rw [hp]; exact parseID_pos _ n hid hpos
  exact ⟨n, hpos, ParseUint_bound _ n hu, hu, hparsed, hp, hid⟩

/-- C30 on `GET /patient/5` in the examination service. -/
theorem handler_id_always_parses_witness :
    ∃ n, 0 < n ∧ n < 2 ^ 32 ∧
      ParseUint ((GinContext.mk (some ⟨str "GET", str "/patient/5", [], none⟩)
        [(str "patientId", str "5")]).Param (str "patientId")) 10 32 = .ok n ∧
      HandlerName.GetExaminationsByPatientID.parsedID
        ⟨some ⟨str "GET", str "/patient/5", [], none⟩, [(str "patientId", str "5")]⟩ =
        some (.ok n) ∧
      (GinContext.mk (some ⟨str "GET", str "/patient/5", [], none⟩)
        [(str "patientId", str "5")]).Param (str "patientId") =
        Worker.examination.segmentFor ⟨str "ab12", str "GET", str "/patient/5", none, none, []⟩
          (str "patientId") ∧
      parseID (Worker.examination.segmentFor
        ⟨str "ab12", str "GET", str "/patient/5", none, none, []⟩ (str "patientId")) = .ok n :=
  handler_id_always_parses .examination (fun _ => true) (fun _ _ => none)
    ⟨str "ab12", str "GET", str "/patient/5", none, none, []⟩
    ⟨.GetExaminationsByPatientID,
      ⟨some ⟨str "GET", str "/patient/5", [], none⟩, [(str "patientId", str "5")]⟩⟩
    (str "patientId") (by decide) rfl

/-! ## The handler a dispatcher invokes -/

/-- C6: a `GET` on the path `/n`, for `n` from 1 to 4294967295 written in
decimal, makes `handleKafkaRequest` of the patient, examination and sample
service invoke exactly the get-by-id handler, on a context whose one parameter
`id` is the decimal text of `n`, which parses back to `n`, and return the
response built from what that handler left in the recorder. -/
theorem get_by_id_dispatch (f : GoString → Bool) (h : Handlers) (req : KafkaRequest) (n : Nat)
    (h1 : 1 ≤ n) (h2 : n ≤ 4294967295) (hm : req.Method = str "GET")
    (hp : req.Path = str "/" ++ decimal n) :
    PatientService.handleKafkaRequest f h req =
        ⟨[⟨.GetPatient,
            ⟨some ⟨str "GET", req.Path, req.Headers.entries, req.Body⟩,
              [(str "id", decimal n)]⟩⟩],
          (h .GetPatient
            ⟨some ⟨str "GET", req.Path, req.Headers.entries, req.Body⟩,
              [(str "id", decimal n)]⟩).map fun recorder =>
            ⟨req.RequestID, recorder.Code, some [(str "Content-Type", recorder.ContentType)],
              recorder.Body⟩⟩ ∧
      ExaminationService.handleKafkaRequest f h req =
        ⟨[⟨.GetExamination,
            ⟨some ⟨str "GET", req.Path, req.Headers.entries, req.Body⟩,
              [(str "id", decimal n)]⟩⟩],
          (h .GetExamination
            ⟨some ⟨str "GET", req.Path, req.Headers.entries, req.Body⟩,
              [(str "id", decimal n)]⟩).map fun recorder =>
            ⟨req.RequestID, recorder.Code, some [(str "Content-Type", recorder.ContentType)],
              recorder.Body⟩⟩ ∧
      SampleService.handleKafkaRequest f h req =
        ⟨[⟨.GetSample,
            ⟨some ⟨str "GET", req.Path, req.Headers.entries, req.Body⟩,
              [(str "id", decimal n)]⟩⟩],
          (h .GetSample
            ⟨some ⟨str "GET", req.Path, req.Headers.entries, req.Body⟩,
              [(str "id", decimal n)]⟩).map fun recorder =>
            ⟨req.RequestID, recorder.Code, some [(str "Content-Type", recorder.ContentType)],
              recorder.Body⟩⟩ ∧
      ParseUint (decimal n) 10 32 = .ok n := by
  obtain ⟨hP, hE, hS, hu⟩ := get_by_id_serve f h req n h1 h2 hm hp
  exact ⟨hP.trans rfl, hE.trans rfl, hS.trans rfl, hu⟩

/-- C6 at `GET /42`, request id `ab12`, with handlers that answer 200; the
handler invoked is also read off the evaluated run. -/
theorem get_by_id_dispatch_witness :
    (PatientService.handleKafkaRequest (fun _ => false)
        (fun _ _ => some ⟨200, str "application/json", some (str "null")⟩)
        ⟨str "ab12", str "GET", str "/" ++ decimal 42, none, none, []⟩ =
        ⟨[⟨.GetPatient, ⟨some ⟨str "GET", str "/42", [], none⟩, [(str "id", str "42")]⟩⟩],
          some ⟨str "ab12", 200, some [(str "Content-Type", str "application/json")],
            some (str "null")⟩⟩ ∧
      ExaminationService.handleKafkaRequest (fun _ => false)
        (fun _ _ => some ⟨200, str "application/json", some (str "null")⟩)
        ⟨str "ab12", str "GET", str "/" ++ decimal 42, none, none, []⟩ =
        ⟨[⟨.GetExamination, ⟨some ⟨str "GET", str "/42", [], none⟩, [(str "id", str "42")]⟩⟩],
          some ⟨str "ab12", 200, some [(str "Content-Type", str "application/json")],
            some (str "null")⟩⟩ ∧
      SampleService.handleKafkaRequest (fun _ => false)
        (fun _ _ => some ⟨200, str "application/json", some (str "null")⟩)
        ⟨str "ab12", str "GET", str "/" ++ decimal 42, none, none, []⟩ =
        ⟨[⟨.GetSample, ⟨some ⟨str "GET", str "/42", [], none⟩, [(str "id", str "42")]⟩⟩],
          some ⟨str "ab12", 200, some [(str "Content-Type", str "application/json")],
            some (str "null")⟩⟩ ∧
      ParseUint (decimal 42) 10 32 = .ok 42) ∧
      (PatientService.handleKafkaRequest (fun _ => false) (fun _ _ => none)
        ⟨str "ab12", str "GET", str "/42", none, none, []⟩).calls.map (fun call => call.handler) =
        [.GetPatient] :=
  ⟨get_by_id_dispatch (fun _ => false)
    (fun _ _ => some ⟨200, str "application/json", some (str "null")⟩)
    ⟨str "ab12", str "GET", str "/" ++ decimal 42, none, none, []⟩ 42 (by decide) (by decide)
    rfl rfl, by decide⟩

/-- C12: a `GET` on the path `/patient/n`, for `n` from 1 to 4294967295 written
in decimal, makes `handleKafkaRequest` of the examination service invoke
exactly `GetExaminationsByPatientID`, on a context whose one parameter
`patientId` is the decimal text of `n`, which parses back to `n`, and return
the response built from what that handler left in the recorder. -/
theorem list_by_patient_dispatch (f : GoString → Bool) (h : Handlers) (req : KafkaRequest)
    (n : Nat) (h1 : 1 ≤ n) (h2 : n ≤ 4294967295) (hm : req.Method = str "GET")
    (hp : req.Path = str "/patient/" ++ decimal n) :
    ExaminationService.handleKafkaRequest f h req =
        ⟨[⟨.GetExaminationsByPatientID,
            ⟨some ⟨str "GET", req.Path, req.Headers.entries, req.Body⟩,
              [(str "patientId", decimal n)]⟩⟩],
          (h .GetExaminationsByPatientID
            ⟨some ⟨str "GET", req.Path, req.Headers.entries, req.Body⟩,
              [(str "patientId", decimal n)]⟩).map fun recorder =>
            ⟨req.RequestID, recorder.Code, some [(str "Content-Type", recorder.ContentType)],
              recorder.Body⟩⟩ ∧
      ParseUint (decimal n) 10 32 = .ok n := by
  obtain ⟨hE, hu⟩ := list_by_patient_serve f h req n h1 h2 hm hp
  exact ⟨hE.trans rfl, hu⟩

/-- C12 at `GET /patient/5`, with handlers that answer 200; the handler invoked
is also read off the evaluated run. -/
theorem list_by_patient_dispatch_witness :
    (ExaminationService.handleKafkaRequest (fun _ => false)
        (fun _ _ => some ⟨200, str "application/json", some (str "[]")⟩)
        ⟨str "ab12", str "GET", str "/patient/" ++ decimal 5, none, none, []⟩ =
        ⟨[⟨.GetExaminationsByPatientID,
            ⟨some ⟨str "GET", str "/patient/5", [], none⟩, [(str "patientId", str "5")]⟩⟩],
          some ⟨str "ab12", 200, some [(str "Content-Type", str "application/json")],
            some (str "[]")⟩⟩ ∧
      ParseUint (decimal 5) 10 32 = .ok 5) ∧
      (ExaminationService.handleKafkaRequest (fun _ => false) (fun _ _ => none)
        ⟨str "ab12", str "GET", str "/patient/5", none, none, []⟩).calls.map
          (fun call => call.handler) = [.GetExaminationsByPatientID] :=
  ⟨list_by_patient_dispatch (fun _ => false)
    (fun _ _ => some ⟨200, str "application/json", some (str "[]")⟩)
    ⟨str "ab12", str "GET", str "/patient/" ++ decimal 5, none, none, []⟩ 5 (by decide)
    (by decide) rfl rfl, by decide⟩

/-- C9 (amended): when the mock context of the request is built and the id
segment and the parent id segment each parse (an absent segment counting as
0), `handleKafkaRequest` of each worker selects the first matching rule of the
ordered list (1) GET on the root path, (2) GET with a positive id,
(3) POST on the root path, (4) PUT with a positive id, (5) DELETE with a
positive id, (6) GET with a positive parent id: it invokes exactly the handler
of that rule, on the context with the rule's parameter, and returns the
response built from what the handler left in the recorder; when no rule
matches it invokes no handler and answers 404.  No run invokes more than one
handler. -/
theorem route_is_first_match (w : Worker) (f : GoString → Bool) (h : Handlers)
    (req : KafkaRequest) (c : GinContext) (id pid : Nat)
    (hc : createMockGinContext f req = some c)
    (hid : parseID (w.idStr (routedPath req)) = .ok id)
    (hpid : parseID (w.parentStr (routedPath req)) = .ok pid) :
    (w.handleKafkaRequest f h req).calls =
        (w.routeCall c (w.idStr (routedPath req)) (w.parentStr (routedPath req))
          (firstMatch req.Method req.Path id pid)).toList ∧
      (w.handleKafkaRequest f h req).result =
        (match w.routeCall c (w.idStr (routedPath req)) (w.parentStr (routedPath req))
            (firstMatch req.Method req.Path id pid) with
          | some call =>
            (h call.handler call.ctx).map fun recorder =>
              ⟨req.RequestID, recorder.Code, some [(str "Content-Type", recorder.ContentType)],
                recorder.Body⟩
          | none => some (createErrorResponse req.RequestID 404 (str "Route not found"))) ∧
      (w.handleKafkaRequest f h req).calls.length ≤ 1 := by
  refine ⟨?_, ?_, worker_calls_le_one w f h req⟩
  · rw [worker_route w f h req c id pid hc hid hpid]
    generalize firstMatch req.Method req.Path id pid = r
    cases w <;> rcases r with _ | k
    all_goals first | rfl | (cases k <;> rfl)
  · rw [worker_route w f h req c id pid hc hid hpid]
    generalize firstMatch req.Method req.Path id pid = r
    cases w <;> rcases r with _ | k
    all_goals first | rfl | (cases k <;> rfl)

/-- C9 at `GET /7/patient/5` of the examination service: id 7 and patient id
5 both parse, the first matching rule is get-by-id, and `GetExamination` is
the one handler invoked, with id `7`. -/
theorem route_is_first_match_witness :
    createMockGinContext (fun _ => true)
        ⟨str "ab12", str "GET", str "/7/patient/5", none, none, []⟩ =
        some ⟨some ⟨str "GET", str "/7/patient/5", [], none⟩, []⟩ ∧
      parseID (Worker.examination.idStr (str "/7/patient/5")) = .ok 7 ∧
      parseID (Worker.examination.parentStr (str "/7/patient/5")) = .ok 5 ∧
      (Worker.examination.handleKafkaRequest (fun _ => true)
        (fun _ _ => some ⟨200, str "application/json", some (str "null")⟩)
        ⟨str "ab12", str "GET", str "/7/patient/5", none, none, []⟩).calls =
        (Worker.examination.routeCall ⟨some ⟨str "GET", str "/7/patient/5", [], none⟩, []⟩
          (str "7") (str "5") (firstMatch (str "GET") (str "/7/patient/5") 7 5)).toList ∧
      (Worker.examination.handleKafkaRequest (fun _ => true)
        (fun _ _ => some ⟨200, str "application/json", some (str "null")⟩)
        ⟨str "ab12", str "GET", str "/7/patient/5", none, none, []⟩).calls =
        [⟨.GetExamination,
          ⟨some ⟨str "GET", str "/7/patient/5", [], none⟩, [(str "id", str "7")]⟩⟩] ∧
      (Worker.examination.handleKafkaRequest (fun _ => true)
        (fun _ _ => some ⟨200, str "application/json", some (str "null")⟩)
        ⟨str "ab12", str "GET", str "/7/patient/5", none, none, []⟩).result =
        some ⟨str "ab12", 200, some [(str "Content-Type", str "application/json")],
          some (str "null")⟩ := by
  have key := route_is_first_match .examination (fun _ => true)
    (fun _ _ => some ⟨200, str "application/json", some (str "null")⟩)
    ⟨str "ab12", str "GET", str "/7/patient/5", none, none, []⟩
    ⟨some ⟨str "GET", str "/7/patient/5", [], none⟩, []⟩ 7 5 (by decide) (by decide) (by decide)
  exact ⟨by decide, by decide, by decide, key.1.trans (by decide), by decide, by decide⟩

/-- C10 (amended): for every `GET` request whose path starts with `/` and a
first segment that is a positive integer `n` (1 to 4294967295, in decimal),
whatever segments follow it, `handleKafkaRequest` of each worker invokes
exactly the get-by-id handler, on a context whose one parameter `id` is the
decimal text of `n`, and returns the response built from what that handler
left in the recorder, provided the mock context of the request is built and
the parent id segment, if any, parses: the id is the first segment of the
path. -/
theorem get_by_id_first_segment (w : Worker) (f : GoString → Bool) (h : Handlers)
    (req : KafkaRequest) (c : GinContext) (n pid : Nat) (rest : GoString)
    (h1 : 1 ≤ n) (h2 : n ≤ 4294967295) (hm : req.Method = str "GET")
    (hp : req.Path = str "/" ++ decimal n ++ rest)
    (hrest : rest = [] ∨ ∃ r, rest = str "/" ++ r)
    (hc : createMockGinContext f req = some c)
    (hpid : parseID (w.parentStr req.Path) = .ok pid) :
    w.handleKafkaRequest f h req =
      ⟨[⟨w.getByID, ⟨c.Request, [(str "id", decimal n)]⟩⟩],
        (h w.getByID ⟨c.Request, [(str "id", decimal n)]⟩).map fun recorder =>
          ⟨req.RequestID, recorder.Code, some [(str "Content-Type", recorder.ContentType)],
            recorder.Body⟩⟩ := by
  have hs := first_segment_serve w f h req c n pid rest h1 h2 hm hp hrest hc hpid
  have hparams := createMockGinContext_params f req c hc
  rw [hs]
  simp only [serve, addParam, hparams, List.nil_append]

/-- C10 at `GET /7/42` of the patient service, with handlers that answer 200;
the handler invoked and its parameter are also read off the evaluated run. -/
theorem get_by_id_first_segment_witness :
    Worker.patient.handleKafkaRequest (fun _ => true)
        (fun _ _ => some ⟨200, str "application/json", some (str "null")⟩)
        ⟨str "ab12", str "GET", str "/" ++ decimal 7 ++ str "/42", none, none, []⟩ =
      ⟨[⟨.GetPatient, ⟨some ⟨str "GET", str "/7/42", [], none⟩, [(str "id", str "7")]⟩⟩],
        some ⟨str "ab12", 200, some [(str "Content-Type", str "application/json")],
          some (str "null")⟩⟩ ∧
      (Worker.patient.handleKafkaRequest (fun _ => true) (fun _ _ => none)
        ⟨str "ab12", str "GET", str "/7/42", none, none, []⟩).calls.map
          (fun call => (call.handler, call.ctx.Params)) =
        [(.GetPatient, [(str "id", str "7")])] :=
  ⟨get_by_id_first_segment .patient (fun _ => true)
    (fun _ _ => some ⟨200, str "application/json", some (str "null")⟩)
    ⟨str "ab12", str "GET", str "/" ++ decimal 7 ++ str "/42", none, none, []⟩
    ⟨some ⟨str "GET", str "/7/42", [], none⟩, []⟩ 7 0 (str "/42") (by decide) (by decide) rfl rfl
    (Or.inr ⟨str "42", by decide⟩) (by decide) (by decide), by decide⟩

/-! ## The reply as the writer holds it -/

/-- The `c.Header` calls for a list of entries, applied to a writer. -/
theorem reply_headers_fold (lw : List Nat → Bool) (entries : List (GoString × GoString))
    (rest : List GinCall) :
    ∀ r : Reply,
      (entries.map (fun kv => GinCall.Header kv.1 kv.2) ++ rest).foldl (Reply.step lw)
          (some r) =
        rest.foldl (Reply.step lw)
          (some (entries.foldl (fun r kv => r.header kv.1 kv.2) r)) := by
  induction entries with
  | nil => intro r; rfl
  | cons a t ih =>
    intro r
    simp only [List.map_cons, List.cons_append, List.foldl_cons]
    exact ih _

/-- Rendering keeps every header other than `Content-Length` that the writer
holds. -/
theorem render_keeps_header (r : Reply) (code : Int) (ct : GoString) (data : List Nat)
    (withLength : Bool) (r1 : Reply) (h : r.render code ct data withLength = some r1)
    (k v : GoString) (hk : r.Header.lookup k = some v) (hne : k ≠ str "Content-Length") :
    r1.Header.lookup k = some v := by
  have hh : (writeContentType r.Header ct).lookup k = some v := by
    unfold writeContentType
    split_ifs with hc
    · have hne : k ≠ str "Content-Type" := by
        intro e
        rw [e] at hk
        rw [hk] at hc
        simp at hc
      rw [lookup_headerSet_ne _ _ _ _ hne, hk]
    · exact hk
  unfold Reply.render at h
  simp only at h
  split_ifs at h <;> injection h with h <;> rw [← h] <;>
    first
    | exact hh
    | (simp only; rw [lookup_headerSet_ne _ _ _ _ hne]; exact hh)

/-- A call whose response topic holds the well-formed reply to the request
returns that reply. -/
theorem send_single_reply (service topic responseTopic : GoString) (req : KafkaRequest)
    (resp : KafkaResponse) (ht : topics.lookup service = some topic)
    (hr : responseTopics.lookup service = some responseTopic) (hw : resp.WellFormed)
    (hid : resp.RequestID = req.RequestID) :
    (SendKafkaRequest true [.message (MarshalResponse resp)] service req).result = .ok resp := by
  have h := readLoop_first_match responseTopic req (MarshalResponse resp) resp []
    (UnmarshalResponse_MarshalResponse resp hw) hid [] (by simp)
  simp only [List.nil_append] at h
  simp only [SendKafkaRequest, ht, hr, h]
  rfl

/-- C22, as the claim has it, fails.  With a gin that sets `Content-Length` for
the bytes it writes, the reply to a successful call whose response envelope
holds `Content-Length: 999` and the body `ok` carries `Content-Length: 2`; the
reply to one whose envelope holds the header `X-Trace` with an empty value
does not carry that header; and the reply to one with status 204 and the body
`x` has no body. -/
theorem relay_verbatim_counterexample :
    (SendKafkaRequest true
        [.message (MarshalResponse ⟨generateRequestID (List.replicate 16 171), 200,
          some [(str "Content-Length", str "999"), (str "Content-Type", str "t/t")],
          some (str "ok")⟩)]
        (str "patients")
        (gatewayRequest (List.replicate 16 171)
          ⟨str "patients", str "/1", str "GET", [], some []⟩ [])).result =
        .ok ⟨generateRequestID (List.replicate 16 171), 200,
          some [(str "Content-Length", str "999"), (str "Content-Type", str "t/t")],
          some (str "ok")⟩ ∧
      (reply (fun data => decide (data ≠ [])) (handleRequest true
        [.message (MarshalResponse ⟨generateRequestID (List.replicate 16 171), 200,
          some [(str "Content-Length", str "999"), (str "Content-Type", str "t/t")],
          some (str "ok")⟩)]
        (str "connection refused") (List.replicate 16 171)
        ⟨str "patients", str "/1", str "GET", [], some []⟩).calls).map
          (fun r => (r.Status, r.Header.lookup (str "Content-Length"),
            r.Header.lookup (str "Content-Type"), r.Body)) =
        some (200, some (str "2"), some (str "t/t"), str "ok") ∧
      (reply (fun data => decide (data ≠ [])) (handleRequest true
        [.message (MarshalResponse ⟨generateRequestID (List.replicate 16 171), 200,
          some [(str "X-Trace", [])], some (str "ok")⟩)]
        (str "connection refused") (List.replicate 16 171)
        ⟨str "patients", str "/1", str "GET", [], some []⟩).calls).map
          (fun r => (r.Status, r.Header.lookup (str "X-Trace"), r.Body)) =
        some (200, none, str "ok") ∧
      (reply (fun data => decide (data ≠ [])) (handleRequest true
        [.message (MarshalResponse ⟨generateRequestID (List.replicate 16 171), 204,
          none, some (str "x")⟩)]
        (str "connection refused") (List.replicate 16 171)
        ⟨str "patients", str "/1", str "GET", [], some []⟩).calls).map
          (fun r => (r.Status, r.Body)) =
        some (204, []) := by
  have ht : topics.lookup (str "patients") = some (str "patient-requests") := by decide
  have hr : responseTopics.lookup (str "patients") = some (str "patient-responses") := by
    decide
  have h1 := send_single_reply (str "patients") _ _
    (gatewayRequest (List.replicate 16 171) ⟨str "patients", str "/1", str "GET", [], some []⟩ [])
    ⟨generateRequestID (List.replicate 16 171), 200,
      some [(str "Content-Length", str "999"), (str "Content-Type", str "t/t")],
      some (str "ok")⟩ ht hr (by decide) rfl
  have h2 := send_single_reply (str "patients") _ _
    (gatewayRequest (List.replicate 16 171) ⟨str "patients", str "/1", str "GET", [], some []⟩ [])
    ⟨generateRequestID (List.replicate 16 171), 200, some [(str "X-Trace", [])],
      some (str "ok")⟩ ht hr (by decide) rfl
  have h3 := send_single_reply (str "patients") _ _
    (gatewayRequest (List.replicate 16 171) ⟨str "patients", str "/1", str "GET", [], some []⟩ [])
    ⟨generateRequestID (List.replicate 16 171), 204, none, some (str "x")⟩ ht hr (by decide) rfl
  refine ⟨h1, ?_, ?_, ?_⟩
  · rw [handleRequest_ok true _ (str "connection refused") (List.replicate 16 171)
      ⟨str "patients", str "/1", str "GET", [], some []⟩ [] _ rfl h1]
    decide
  · rw [handleRequest_ok true _ (str "connection refused") (List.replicate 16 171)
      ⟨str "patients", str "/1", str "GET", [], some []⟩ [] _ rfl h2]
    decide
  · rw [handleRequest_ok true _ (str "connection refused") (List.replicate 16 171)
      ⟨str "patients", str "/1", str "GET", [], some []⟩ [] _ rfl h3]
    decide

/-- C22, amended: when `SendKafkaRequest` succeeds, `handleRequest` hands the
envelope over unchanged, one `c.Header` call per header entry and then
`c.Data` with the status code and the body; if the status code is from 200 to
999 and neither 204 nor 304 and the header names are distinct as canonical
names, the reply written has that status and that body and carries every entry
whose value is not empty and whose canonical name is not `Content-Length`,
whether or not the gin in use sets `Content-Length` itself.  When
`SendKafkaRequest` fails, `handleRequest` makes the one call `c.JSON` with
status 502 and the error text, and the reply has status 502, the JSON content
type and the error object as its body. -/
theorem relay_of_the_envelope (lengthWritten : List Nat → Bool) (writeOk : Bool)
    (stream : List ReadResult) (brokerText : GoString) (random : List Nat)
    (c : InboundRequest) (body : List Nat) (hb : c.Body = some body) :
    (∀ resp,
      (SendKafkaRequest writeOk stream c.service (gatewayRequest random c body)).result =
        .ok resp →
      (handleRequest writeOk stream brokerText random c).calls =
          (resp.Headers.entries.map fun kv => GinCall.Header kv.1 kv.2) ++
            [.Data resp.StatusCode (resp.Headers.get (str "Content-Type")) resp.Body] ∧
        (200 ≤ resp.StatusCode → resp.StatusCode ≤ 999 → resp.StatusCode ≠ 204 →
          resp.StatusCode ≠ 304 →
          (resp.Headers.entries.map fun kv => CanonicalMIMEHeaderKey kv.1).Nodup →
          ∃ r, reply lengthWritten (handleRequest writeOk stream brokerText random c).calls =
              some r ∧
            r.Status = resp.StatusCode ∧ r.Body = resp.Body.getD [] ∧
            ∀ kv ∈ resp.Headers.entries, kv.2 ≠ [] →
              CanonicalMIMEHeaderKey kv.1 ≠ str "Content-Length" →
              r.Header.lookup (CanonicalMIMEHeaderKey kv.1) = some kv.2)) ∧
      ∀ err,
        (SendKafkaRequest writeOk stream c.service (gatewayRequest random c body)).result =
          .error err →
        (handleRequest writeOk stream brokerText random c).calls =
            [.JSON 502 (str "Service communication error: " ++ err.Error brokerText)] ∧
          ∃ r, reply lengthWritten (handleRequest writeOk stream brokerText random c).calls =
              some r ∧
            r.Status = 502 ∧
            r.Header.lookup (str "Content-Type") =
              some (str "application/json; charset=utf-8") ∧
            r.Body = str "\x7b\"error\":" ++
              jsonQuote (str "Service communication error: " ++ err.Error brokerText) ++
              str "\x7d" := by
  refine ⟨fun resp hs => ?_, fun err he => ?_⟩
  · have hcalls := handleRequest_ok writeOk stream brokerText random c body resp hb hs
    refine ⟨hcalls, fun h1 h2 h3 h4 hnd => ?_⟩
    rw [hcalls, reply, reply_headers_fold]
    have hst := headers_fold_status resp.Headers.entries ⟨200, [], []⟩
    have hcar := headers_fold_carried resp.Headers.entries ⟨200, [], []⟩ hnd
    generalize List.foldl (fun r kv => r.header kv.1 kv.2) (⟨200, [], []⟩ : Reply)
      resp.Headers.entries = r0 at hst hcar
    have hpos : resp.StatusCode > 0 := by omega
    have hallowed : bodyAllowedForStatus resp.StatusCode = true := by
      simp only [bodyAllowedForStatus, Bool.not_eq_true', Bool.or_eq_false_iff,
        decide_eq_false_iff_not, beq_eq_false_iff_ne, ne_eq]
      exact ⟨⟨by omega, h3⟩, h4⟩
    have hno : ¬(resp.StatusCode < 200 ∨ resp.StatusCode > 999) := by omega
    have hrender : r0.render resp.StatusCode (resp.Headers.get (str "Content-Type"))
        (resp.Body.getD []) (lengthWritten (resp.Body.getD [])) =
        some ⟨resp.StatusCode,
          if lengthWritten (resp.Body.getD []) then
            headerSet (writeContentType r0.Header (resp.Headers.get (str "Content-Type")))
              (str "Content-Length") (decimal (resp.Body.getD []).length)
          else writeContentType r0.Header (resp.Headers.get (str "Content-Type")),
          r0.Body ++ resp.Body.getD []⟩ := by
      simp only [Reply.render, hpos, if_true, hno, if_false, hallowed]
    refine ⟨⟨resp.StatusCode,
      if lengthWritten (resp.Body.getD []) then
        headerSet (writeContentType r0.Header (resp.Headers.get (str "Content-Type")))
          (str "Content-Length") (decimal (resp.Body.getD []).length)
      else writeContentType r0.Header (resp.Headers.get (str "Content-Type")),
      r0.Body ++ resp.Body.getD []⟩, ?_, rfl, ?_, fun kv hkv hne hcl => ?_⟩
    · simp only [List.foldl_cons, List.foldl_nil, Reply.step, Option.bind_some, Reply.apply]
      exact hrender
    · simp only [hst.2, List.nil_append]
    · exact render_keeps_header r0 _ _ _ _ _ hrender _ _ (hcar kv hkv hne) hcl
  · have hcalls := handleRequest_error writeOk stream brokerText random c body err hb he
    refine ⟨hcalls, ?_⟩
    rw [hcalls]
    exact ⟨_, rfl, rfl, rfl, rfl⟩

/-- C22, amended, on the reply of a worker with a content type, a header of
its own and a body. -/
theorem relay_of_the_envelope_witness :
    ∃ r, reply (fun data => decide (data ≠ [])) (handleRequest true
        [.message (MarshalResponse ⟨generateRequestID (List.replicate 16 171), 404,
          some [(str "Content-Type", str "a/b"), (str "X-Id", str "7")], some (str "1")⟩)]
        (str "connection refused") (List.replicate 16 171)
        ⟨str "patients", str "/1", str "GET", [], some []⟩).calls = some r ∧
      r.Status = 404 ∧ r.Body = str "1" ∧
      ∀ kv ∈ [(str "Content-Type", str "a/b"), (str "X-Id", str "7")], kv.2 ≠ [] →
        CanonicalMIMEHeaderKey kv.1 ≠ str "Content-Length" →
        r.Header.lookup (CanonicalMIMEHeaderKey kv.1) = some kv.2 :=
  ((relay_of_the_envelope (fun data => decide (data ≠ [])) true
    [.message (MarshalResponse ⟨generateRequestID (List.replicate 16 171), 404,
      some [(str "Content-Type", str "a/b"), (str "X-Id", str "7")], some (str "1")⟩)]
    (str "connection refused") (List.replicate 16 171)
    ⟨str "patients", str "/1", str "GET", [], some []⟩ [] rfl).1
    ⟨generateRequestID (List.replicate 16 171), 404,
      some [(str "Content-Type", str "a/b"), (str "X-Id", str "7")], some (str "1")⟩
    (send_single_reply (str "patients") (str "patient-requests") (str "patient-responses") _ _
      (by decide) (by decide) (by decide) rfl)).2
    (by decide) (by decide) (by decide) (by decide) (by decide)

end Fitnis
